import Mathlib

/-!
# CEmu: the APB port dispatcher and the debugger window

A shallow embedding of `core/apb.c` (`apb_set_map`, `port_read_byte` and
`port_write_byte`, as compiled with `DEBUG_SUPPORT` defined) and of the
debugger, port monitor and image functions of `gui/qt/mainwindow.cpp`.
The conventions for the window code are stated where its state is declared;
those for `core/apb.c` follow.

* Machine integers are natural numbers; a `uint16_t` or `uint8_t` parameter is
  reduced modulo `2^16` or `2^8` where the C call would convert it.
* A pointer to an `eZ80portrange_t` is a value of an arbitrary type `R`; the
  record it points to is given by `deref : R → eZ80portrange_t σ`.  A null
  pointer is `none`.
* The handlers act on a peripheral state `σ`.  Every call through a function
  pointer and every call of `open_debugger` is appended to a trace, oldest
  entry first, so that the order and the number of the calls can be stated.
* Dereferencing a null range pointer or indexing `apb_map` outside its sixteen
  entries has no defined result in C; the embedding returns `none` there.
-/

namespace CEmu

/-! ## Declarations taken from the headers -/

/-- Modelled from the spec: the macro `port_range` of `core/apb.h`, which is not
part of the sources at hand.  A port address is "split into a 4-bit range
selector and a 12-bit offset within that range"; the selector is the top four
bits of the 16-bit address. -/
def port_range (a : Nat) : Nat := (a >>> 12) &&& 0xF

/-- Modelled from the spec: the macro `addr_range` of `core/apb.h`, which is not
part of the sources at hand: the 12-bit offset of a port address within its
range. -/
def addr_range (a : Nat) : Nat := a &&& 0xFFF

/-- The two reasons `core/apb.c` passes to `open_debugger`; the enumeration
itself is declared in `debug/debug.h`. -/
inductive DebugReason where
  | HIT_PORT_READ_BREAKPOINT
  | HIT_PORT_WRITE_BREAKPOINT
  deriving DecidableEq, Repr

/-- The port monitor bit masks of `debug/debug.h`.  The header is not part of
the sources at hand, so the three masks are parameters of the embedding. -/
structure DebugMasks where
  DBG_PORT_READ : Nat
  DBG_PORT_WRITE : Nat
  DBG_PORT_FREEZE : Nat
  deriving DecidableEq, Repr

/-- The record `eZ80portrange_t`: the two function pointers of a range
handler.  `read_in offset` returns a byte and may change the peripheral state;
`write_out offset value` changes the peripheral state. -/
structure eZ80portrange_t (σ : Type) where
  read_in : Nat → σ → Nat × σ
  write_out : Nat → Nat → σ → σ

/-! ## State and effects -/

/-- One observable step of a port access: a call through a handler's function
pointer, or a call of `open_debugger`. -/
inductive Effect (R : Type) where
  | read_in (range : R) (offset : Nat)
  | write_out (range : R) (offset value : Nat)
  | open_debugger (reason : DebugReason) (port : Nat)
  deriving DecidableEq, Repr

/-- The part of the machine a port access can change: the state the range
handlers work on, and the trace of effects so far (oldest first). -/
structure Bus (R σ : Type) where
  periph : σ
  trace : List (Effect R)
  deriving DecidableEq, Repr

/-- The handler whose function pointer an effect calls, if it is such a call. -/
def Effect.handler {R : Type} : Effect R → Option R
  | Effect.read_in range _ => some range
  | Effect.write_out range _ _ => some range
  | Effect.open_debugger _ _ => none

/-- Whether an effect is a call through a handler's function pointer. -/
def Effect.isHandlerCall {R : Type} (e : Effect R) : Bool := e.handler.isSome

/-- Whether an effect is a call of `open_debugger`. -/
def Effect.isDebuggerCall {R : Type} : Effect R → Bool
  | Effect.open_debugger _ _ => true
  | _ => false

/-- The effects that happened between the bus `s` and the later bus `s'`. -/
def effectsSince {R σ : Type} (s s' : Bus R σ) : List (Effect R) :=
  s'.trace.drop s.trace.length

/-- The call `open_debugger(reason, port)` of `debug/debug.c`: recorded as an
effect.  What the user does while the debugger is open is not modelled. -/
def open_debugger {R σ : Type} (reason : DebugReason) (port : Nat) (s : Bus R σ) : Bus R σ :=
  { s with trace := s.trace ++ [Effect.open_debugger reason port] }

/-! ## core/apb.c -/

/-- The global `apb_map[0x10]` at program start: sixteen entries, each with a
null range pointer. -/
def apb_map_init (R : Type) : List (Option R) := List.replicate 0x10 none

/-- The function `apb_set_map(entry, range)`: `apb_map[entry].range = range`.
The index is a C `int`; outside `0 .. 0xF` the store is out of bounds. -/
def apb_set_map {R : Type} (apb_map : List (Option R)) (entry : Int) (range : Option R) :
    Option (List (Option R)) :=
  if 0 ≤ entry ∧ entry < 0x10 then some (apb_map.set entry.toNat range) else none

/-- A sequence of calls of `apb_set_map`, performed in order, as machine setup
does. -/
def apb_set_map_all {R : Type} (apb_map : List (Option R)) :
    List (Int × Option R) → Option (List (Option R))
  | [] => some apb_map
  | c :: cs =>
      match apb_set_map apb_map c.1 c.2 with
      | some m => apb_set_map_all m cs
      | none => none

/-- The local `port` of both access functions:
`uint16_t port = (port_range(addr) << 12) | addr_range(addr)`. -/
def port (addr : Nat) : Nat := ((port_range addr <<< 12) ||| addr_range addr) % 0x10000

/-- The function `port_read_byte(addr)`.  `apb_map` and `debugger.data.ports`
are only read by it and are passed in; the result is the byte returned and
the bus afterwards. -/
def port_read_byte {R σ : Type} (K : DebugMasks) (deref : R → eZ80portrange_t σ)
    (apb_map : List (Option R)) (ports : Nat → Nat) (addr : Nat) (s : Bus R σ) :
    Option (Nat × Bus R σ) :=
  let addr := addr % 0x10000
  let s1 :=
    if ports (port addr) &&& K.DBG_PORT_READ ≠ 0 then
      open_debugger DebugReason.HIT_PORT_READ_BREAKPOINT (port addr) s
    else s
  match apb_map[port_range addr]? with
  | some (some range) =>
      let r := (deref range).read_in (addr_range addr) s1.periph
      some (r.1, { periph := r.2, trace := s1.trace ++ [Effect.read_in range (addr_range addr)] })
  | _ => none

/-- The function `port_write_byte(addr, value)`.  `apb_map` and
`debugger.data.ports` are only read by it and are passed in; the result is
the bus afterwards. -/
def port_write_byte {R σ : Type} (K : DebugMasks) (deref : R → eZ80portrange_t σ)
    (apb_map : List (Option R)) (ports : Nat → Nat) (addr value : Nat) (s : Bus R σ) :
    Option (Bus R σ) :=
  let addr := addr % 0x10000
  let value := value % 0x100
  if ports (port addr) &&& K.DBG_PORT_FREEZE ≠ 0 then
    some s
  else
    match apb_map[port_range addr]? with
    | some (some range) =>
        let s1 : Bus R σ :=
          { periph := (deref range).write_out (addr_range addr) value s.periph,
            trace := s.trace ++ [Effect.write_out range (addr_range addr) value] }
        if ports (port addr) &&& K.DBG_PORT_WRITE ≠ 0 then
          some (open_debugger DebugReason.HIT_PORT_WRITE_BREAKPOINT (port addr) s1)
        else some s1
    | _ => none

/-! ## Concrete instances used in examples -/

/-- A peripheral state for examples: one byte per range. -/
abbrev Regs := Nat × Nat

/-- Handler records for examples: pointer `0` reads and writes the first
byte, every other pointer the second; a read returns the byte plus the
offset. -/
def demoDeref (r : Nat) : eZ80portrange_t Regs :=
  if r = 0 then
    { read_in := fun off st => (st.1 + off, st), write_out := fun _ v st => (v, st.2) }
  else
    { read_in := fun off st => (st.2 + off, st), write_out := fun _ v st => (st.1, v) }

/-- Masks for examples. -/
def demoMasks : DebugMasks := { DBG_PORT_READ := 1, DBG_PORT_WRITE := 2, DBG_PORT_FREEZE := 4 }

/-- A total map for examples: range 3 has handler `0`, every other range
handler `1`. -/
def demoMap : List (Option Nat) := (List.range 0x10).map (fun i => some (if i = 3 then 0 else 1))

/-- A bus for examples. -/
def demoBus : Bus Nat Regs := { periph := (7, 9), trace := [] }

/-! ## gui/qt/mainwindow.cpp: strings and hexadecimal text

A `QString` and a `std::string` are lists of characters.  The library
functions the window code calls are written out as far as the code depends on
them. -/

/-- A `QString` or `std::string`. -/
abbrev QString := List Char

/-- The C function `isspace` in the "C" locale. -/
def isspace (c : Char) : Bool := c.toNat = 32 || (9 ≤ c.toNat && c.toNat ≤ 13)

/-- The value of a character as a digit in base 16, as `strtol` reads it. -/
def digitValue (c : Char) : Option Nat :=
  if 48 ≤ c.toNat ∧ c.toNat ≤ 57 then some (c.toNat - 48)
  else if 97 ≤ c.toNat ∧ c.toNat ≤ 102 then some (c.toNat - 87)
  else if 65 ≤ c.toNat ∧ c.toNat ≤ 70 then some (c.toNat - 55)
  else none

/-- Upper-casing of one character.  Only the letters `a`-`z` are mapped; no
other character has an upper case among `0`-`9`, `A`-`F`, which is all the
callers look at. -/
def toUpperChar (c : Char) : Char :=
  if 97 ≤ c.toNat ∧ c.toNat ≤ 122 then Char.ofNat (c.toNat - 32) else c

/-- The method `QString::toUpper`. -/
def toUpper (s : QString) : QString := s.map toUpperChar

/-- The method `std::string::find_first_not_of(set)`: the position of the first
character not in `set`; `none` stands for `npos`. -/
def find_first_not_of (s set : QString) : Option Nat := s.findIdx? (fun c => !set.contains c)

/-- The function `std::stoi(str, nullptr, 16)`: leading white space, an
optional sign, an optional `0x`, then as many hexadecimal digits as follow.
`none` stands for the exception thrown when there is no digit
(`std::invalid_argument`) or the value does not fit an `int`
(`std::out_of_range`). -/
def stoi16 (s : QString) : Option Int :=
  let s1 := s.dropWhile isspace
  let sg : Bool × QString :=
    match s1 with
    | c :: t => if c = '-' then (true, t) else if c = '+' then (false, t) else (false, s1)
    | [] => (false, s1)
  let s3 : QString :=
    match sg.2 with
    | z :: x :: d :: t =>
        if z = '0' ∧ (x = 'x' ∨ x = 'X') ∧ (digitValue d).isSome then d :: t else sg.2
    | _ => sg.2
  let ds := (s3.map digitValue).takeWhile Option.isSome
  if ds = [] then none
  else
    let v : Int := ds.foldl (fun acc d => acc * 16 + ((d.getD 0 : Nat) : Int)) 0
    let r : Int := if sg.1 then -v else v
    if -2147483648 ≤ r ∧ r ≤ 2147483647 then some r else none

/-- The function `hex2int(str)`: `std::stoi(str.toStdString(), nullptr, 16)`. -/
def hex2int (str : QString) : Option Int := stoi16 str

/-- The conversion `static_cast<uint32_t>` of an `int`. -/
def toUInt32 (v : Int) : Nat := (v % 4294967296).toNat

/-- The conversion `static_cast<uint16_t>` of an `int`. -/
def toUInt16 (v : Int) : Nat := (v % 65536).toNat

/-- The conversion `static_cast<uint8_t>` of an `int`. -/
def toUInt8 (v : Int) : Nat := (v % 256).toNat

/-- The digit `d < 16` as `QString::number` writes it (lower case). -/
def digitChar (d : Nat) : Char := if d < 10 then Char.ofNat (48 + d) else Char.ofNat (87 + d)

/-- The call `QString::number(a, 16)` for a 32-bit unsigned `a`: its eight
hexadecimal digits without the leading zeros, a single `0` for zero. -/
def number16 (a : Nat) : QString :=
  let ds := [7, 6, 5, 4, 3, 2, 1, 0].map (fun i => digitChar (a / 16 ^ i % 16))
  match ds.dropWhile (fun c => c = '0') with
  | [] => ['0']
  | l => l

/-- The method `QString::rightJustified(width, fill, truncate)`: padded on the
left up to `width`; a longer string is cut to its first `width` characters
when `truncate` is set. -/
def rightJustified (s : QString) (width : Nat) (fill : Char) (truncate : Bool) : QString :=
  if s.length < width then List.replicate (width - s.length) fill ++ s
  else if truncate then s.take width else s

/-- The function `int2hex(a, l)`:
`QString::number(a, 16).rightJustified(l, '0', true).toUpper()` with a
`uint32_t a` and a `uint8_t l`. -/
def int2hex (a l : Nat) : QString :=
  toUpper (rightJustified (number16 (a % 4294967296)) (l % 256) '0' true)

/-- The set of characters the address fields accept. -/
def hexChars : QString := "0123456789ABCDEF".toList

/-! ## gui/qt/mainwindow.cpp: the window state

The members of `MainWindow` and the widgets of `ui` that the functions below
read or write.  Calls into the core, signals emitted and dialogs shown are
appended to `calls`, oldest first; values that come back from such a call are
arguments of the function that makes it. -/

/-- The constants of `debug/debug.h` that the window code uses besides the port
masks.  The header is not part of the sources at hand, so they are parameters
of the embedding. -/
structure DebugConsts where
  DBG_NO_HANDLE : Nat
  DBG_READ_BREAKPOINT : Nat
  DBG_WRITE_BREAKPOINT : Nat
  DBG_EXEC_BREAKPOINT : Nat
  HIT_READ_BREAKPOINT : Int
  HIT_WRITE_BREAKPOINT : Int
  HIT_EXEC_BREAKPOINT : Int
  HIT_PORT_READ_BREAKPOINT : Int
  HIT_PORT_WRITE_BREAKPOINT : Int
  NUM_DBG_COMMANDS : Int
  DBG_PORT_RANGE : Int
  deriving DecidableEq, Repr

/-- A row of `ui->breakpointView`: the address text of column 0 and the check
states of columns 1 to 3. -/
structure BreakRow where
  address : QString
  rBreak : Bool
  wBreak : Bool
  eBreak : Bool
  deriving DecidableEq, Repr

/-- A row of `ui->portView`: the port text of column 0, the data text of
column 1 and the check states of columns 2 to 4. -/
structure PortRow where
  port : QString
  data : QString
  rBreak : Bool
  wBreak : Bool
  freeze : Bool
  deriving DecidableEq, Repr

/-- A call that leaves the window code: into the core (`debug/debug.c`, the
emulation thread), a signal, a dialog, or a refresh of a view.  `emu_restore`
and `emu_save` also record the value `inReceivingMode` has when the call is
made. -/
inductive Call where
  | debug_breakpoint_set (address value : Nat) (set : Bool)
  | debug_breakpoint_remove (address : Nat)
  | debug_pmonitor_set (port value : Nat) (set : Bool)
  | debug_pmonitor_remove (port : Nat)
  | debug_port_read_byte (port : Nat)
  | debug_port_write_byte (port value : Nat)
  | debug_clear_run_until
  | emu_restore (path : QString) (inReceivingMode : Bool)
  | emu_save (path : QString) (inReceivingMode : Bool)
  | emu_stop
  | setReceiveState (state : Bool)
  | setDebugStepInMode
  | setDebugStepOverMode
  | setDebugStepNextMode
  | setDebugStepOutMode
  | debuggerChangedState (state : Bool)
  | warning (title : QString)
  | consoleStr (str : QString)
  | memUpdate (addressBegin : Nat)
  | updateDisasmView (sentBase : Nat) (newPane : Bool)
  | commitEdits
  | close
  | showStatusMsg (str : QString)
  | cpu_flush (address : Nat) (mode : Bool)
  deriving DecidableEq, Repr

/-- The window: the members and widgets the modelled functions use.
`breakpointViewRow` and `portViewRow` hold the row of the current index of the
table when that index is selected. -/
structure MainWindow where
  breakpointView : List BreakRow
  breakpointViewRow : Option Nat
  currBreakpointAddress : QString
  prevBreakpointAddress : Nat
  breakChangeLabel : QString
  breakTypeLabel : QString
  portView : List PortRow
  portViewRow : Option Nat
  currPortAddress : QString
  prevPortAddress : Nat
  portChangeLabel : QString
  portTypeLabel : QString
  emuVarView : List Nat
  debuggerOn : Bool
  inReceivingMode : Bool
  closeAfterSave : Bool
  stepInShortcut : Nat
  stepOverShortcut : Nat
  stepNextShortcut : Nat
  stepOutShortcut : Nat
  scrollBarBlocked : Bool
  calls : List Call
  deriving DecidableEq, Repr

/-- The calls made between the window `w` and the later window `w1`. -/
def callsSince (w w1 : MainWindow) : List Call := w1.calls.drop w.calls.length

/-- Appends one call to the record. -/
def MainWindow.call (w : MainWindow) (c : Call) : MainWindow := { w with calls := w.calls ++ [c] }

/-! ## gui/qt/mainwindow.cpp: the breakpoint table -/

/-- The loop of `addBreakpoint` over the rows `0 .. currentRow - 1`: the index of
the row at which it executes `selectRow(i); return false`, if it does. -/
def addBreakpoint_loop (addressString : QString) : List BreakRow → Nat → Option Nat
  | [], _ => none
  | r :: rs, i =>
      if r.address = addressString then
        if addressString ≠ "000000".toList then some i
        else addBreakpoint_loop addressString rs (i + 1)
      else addBreakpoint_loop addressString rs (i + 1)

/-- The function `MainWindow::addBreakpoint`.  `none` stands for the exception
of `hex2int`. -/
def addBreakpoint (D : DebugConsts) (w : MainWindow) : Option (Bool × MainWindow) :=
  let currentRow := w.breakpointView.length
  let w1 : MainWindow :=
    if w.currBreakpointAddress.isEmpty then { w with currBreakpointAddress := "000000".toList }
    else w
  let s := toUpper w1.currBreakpointAddress
  if (find_first_not_of s hexChars).isSome then some (false, w1)
  else
    match hex2int s with
    | none => none
    | some v =>
        let address := toUInt32 v
        let addressString := int2hex address 6
        match addBreakpoint_loop addressString w1.breakpointView 0 with
        | some i => some (false, { w1 with breakpointViewRow := some i })
        | none =>
            let iaddress : BreakRow :=
              { address := w1.currBreakpointAddress, rBreak := false, wBreak := false,
                eBreak := true }
            let w2 : MainWindow :=
              { w1 with breakpointView := w1.breakpointView ++ [iaddress],
                        breakpointViewRow := some currentRow }
            let w3 := w2.call (Call.debug_breakpoint_set address D.DBG_EXEC_BREAKPOINT true)
            let w4 : MainWindow :=
              { w3 with prevBreakpointAddress := address, currBreakpointAddress := [] }
            some (true, w4.call (Call.updateDisasmView address true))

/-- The function `MainWindow::executeDebugCommand`. -/
def executeDebugCommand (w : MainWindow) (_debugAddress command : Nat) : MainWindow :=
  if command = 1 then w.call (Call.consoleStr ("Program Aborted.".toList ++ [Char.ofNat 10]))
  else if command = 2 then
    w.call (Call.consoleStr ("Program Entered Debugger.".toList ++ [Char.ofNat 10]))
  else w

/-- The loop `while (static_cast<uint32_t>(hex2int(item(row++, 0)->text())) != input);`
followed by `row--`, run over the texts from row `row` on: the row it stops at.
`none` stands for the exception of `hex2int` and for `item` returning null
past the last row. -/
def findEntry (input : Nat) : List QString → Nat → Option Nat
  | [], _ => none
  | t :: ts, row =>
      match hex2int t with
      | none => none
      | some v => if toUInt32 v ≠ input then findEntry input ts (row + 1) else some row

/-- The function `MainWindow::processDebugCommand(reason, input)`; `pc` is the
value of `cpu.registers.PC`. -/
def processDebugCommand (D : DebugConsts) (pc : Nat) (reason : Int) (input : Nat)
    (w : MainWindow) : Option MainWindow :=
  let input := input % 4294967296
  if reason > D.NUM_DBG_COMMANDS then
    some (executeDebugCommand w (toUInt32 (reason - D.DBG_PORT_RANGE)) (input % 256))
  else
    let step1 : Option (Nat × MainWindow) :=
      if reason = D.HIT_READ_BREAKPOINT ∨ reason = D.HIT_WRITE_BREAKPOINT ∨
          reason = D.HIT_EXEC_BREAKPOINT then
        match findEntry input (w.breakpointView.map BreakRow.address) 0 with
        | none => none
        | some row =>
            match w.breakpointView[row]? with
            | none => none
            | some r =>
                let w1 : MainWindow :=
                  { w with
                    breakChangeLabel := r.address,
                    breakTypeLabel :=
                      if reason = D.HIT_READ_BREAKPOINT then "Read".toList
                      else if reason = D.HIT_WRITE_BREAKPOINT then "Write".toList
                      else "Executed".toList,
                    breakpointViewRow := some row }
                if reason ≠ D.HIT_EXEC_BREAKPOINT then some (row, w1.call (Call.memUpdate input))
                else some (row, w1)
      else some (0, w)
    match step1 with
    | none => none
    | some (row, w1) =>
        let step2 : Option MainWindow :=
          if reason = D.HIT_PORT_READ_BREAKPOINT ∨ reason = D.HIT_PORT_WRITE_BREAKPOINT then
            match findEntry input ((w1.portView.map PortRow.port).drop row) row with
            | none => none
            | some row2 =>
                match w1.portView[row2]? with
                | none => none
                | some r =>
                    some { w1 with
                      portChangeLabel := r.port,
                      portTypeLabel :=
                        if reason = D.HIT_PORT_READ_BREAKPOINT then "Read".toList
                        else "Write".toList,
                      portViewRow := some row2 }
          else some w1
        match step2 with
        | none => none
        | some w2 => some (w2.call (Call.updateDisasmView pc true))

/-! ## gui/qt/mainwindow.cpp: the port monitor table -/

/-- The loop of `addPort` over the rows `0 .. currentRow - 1`: whether it
executes `return`. -/
def addPort_loop (portString : QString) : List PortRow → Bool
  | [] => false
  | r :: rs =>
      if r.port = portString then
        if portString ≠ "0000".toList then true else addPort_loop portString rs
      else addPort_loop portString rs

/-- The function `MainWindow::addPort`; `portRead port` is the value
`debug_port_read_byte(port)` returns.  `none` stands for the exception of
`hex2int`. -/
def addPort (portRead : Nat → Nat) (w : MainWindow) : Option MainWindow :=
  let currentRow := w.portView.length
  let w1 : MainWindow :=
    if w.currPortAddress.isEmpty then { w with currPortAddress := "0000".toList } else w
  let s := toUpper w1.currPortAddress
  if (find_first_not_of s hexChars).isSome then some w1
  else
    match hex2int s with
    | none => none
    | some v =>
        let port := toUInt16 v
        let read := portRead port % 256
        let w2 := w1.call (Call.debug_port_read_byte port)
        let portString := int2hex port 4
        if addPort_loop portString w2.portView then some w2
        else
          let row : PortRow :=
            { port := portString, data := int2hex read 2, rBreak := false, wBreak := false,
              freeze := false }
          some { w2 with portView := w2.portView ++ [row],
                         portViewRow := some currentRow,
                         prevPortAddress := port,
                         currPortAddress := [] }

/-- The text of the item in column `col` of a port row, if the column exists;
the check box items carry no text. -/
def PortRow.text (r : PortRow) (col : Nat) : Option QString :=
  if col = 0 then some r.port
  else if col = 1 then some r.data
  else if col ≤ 4 then some []
  else none

/-- The check state of the item in column `col` of a port row, for the check
box columns. -/
def PortRow.checkState (r : PortRow) (col : Nat) : Option Bool :=
  if col = 2 then some r.rBreak
  else if col = 3 then some r.wBreak
  else if col = 4 then some r.freeze
  else none

/-- The function `MainWindow::setPreviousPortValues(curr_item)` for the item in
row `row` and column `col`. -/
def setPreviousPortValues (w : MainWindow) (row col : Nat) : Option MainWindow :=
  match w.portView[row]? with
  | none => none
  | some r =>
      match r.text col with
      | none => none
      | some t =>
          if t.isEmpty then some w
          else
            match hex2int r.port with
            | none => none
            | some v => some { w with prevPortAddress := toUInt16 v }

/-- The loop of `changePortValues` over all rows: whether some row other than
`row` carries the text `portString`. -/
def changePortValues_loop (portString : QString) (row : Nat) : List PortRow → Nat → Bool
  | [], _ => false
  | r :: rs, i =>
      if r.port = portString ∧ i ≠ row then true
      else changePortValues_loop portString row rs (i + 1)

/-- Replaces the port text of row `row`: `item(row, 0)->setText(t)`. -/
def setPortText (w : MainWindow) (row : Nat) (t : QString) : MainWindow :=
  { w with portView := w.portView.modify (fun r => { r with port := t }) row }

/-- The column 0 branch of `changePortValues` from the conversion of the text
`s` on (the text has passed the check for hexadecimal digits). -/
def changePortValues_valid (K : DebugMasks) (D : DebugConsts) (portRead : Nat → Nat)
    (w : MainWindow) (row : Nat) (s : QString) : Option MainWindow :=
  match hex2int s with
  | none => none
  | some v =>
      let port := toUInt16 v
      let portString := int2hex port 4
      if changePortValues_loop portString row w.portView 0 then
        some (setPortText w row (int2hex w.prevPortAddress 4))
      else
        match w.portView[row]? with
        | none => none
        | some r =>
            let w1 := w.call (Call.debug_pmonitor_remove w.prevPortAddress)
            let value :=
              (if r.rBreak then K.DBG_PORT_READ else D.DBG_NO_HANDLE) |||
              (if r.wBreak then K.DBG_PORT_WRITE else D.DBG_NO_HANDLE) |||
              (if r.freeze then K.DBG_PORT_FREEZE else D.DBG_NO_HANDLE)
            let w2 := w1.call (Call.debug_pmonitor_set port value true)
            let w3 := setPortText w2 row portString
            let w4 := w3.call (Call.debug_port_read_byte port)
            some { w4 with portView :=
              w4.portView.modify (fun x => { x with data := int2hex (portRead port) 2 }) row }

/-- The column 0 branch of `changePortValues` as run by the `itemChanged`
signal that `setText` emits from inside the slot: the same code, where the
text can be rejected no more than once. -/
def changePortValues_nested (K : DebugMasks) (D : DebugConsts) (portRead : Nat → Nat)
    (w : MainWindow) (row : Nat) : Option MainWindow :=
  match w.portView[row]? with
  | none => none
  | some r =>
      let s := toUpper r.port
      if (find_first_not_of s hexChars).isSome ∨ s.isEmpty then
        some (setPortText w row (int2hex w.prevPortAddress 4))
      else changePortValues_valid K D portRead w row s

/-- The column 1 branch of `changePortValues` as run by the `itemChanged`
signal that `setText` on the data cell emits from inside that branch: the same
code.  The port of the row is the one of the run before and reads the same
value, so the text it puts is the text the cell holds and `setText` emits
nothing more. -/
def changePortValues_data_nested (portRead : Nat → Nat) (w : MainWindow) (row : Nat) :
    Option MainWindow :=
  match w.portView[row]? with
  | none => none
  | some r =>
      match hex2int r.data, hex2int r.port with
      | some d, some v =>
          let pdata := toUInt8 d
          let port := toUInt16 v
          let w1 := w.call (Call.debug_port_write_byte port pdata)
          let w2 := w1.call (Call.debug_port_read_byte port)
          some { w2 with portView :=
            w2.portView.modify (fun x => { x with data := int2hex (portRead port) 2 }) row }
      | _, _ => none

/-- The column 1 branch of `changePortValues`: the data text of the row is
written to the port, the port is read and the text of the cell is set to the
value read.  The signals of the table are not blocked here, so when `setText`
changes the text, `itemChanged` runs the slot once more on the cell. -/
def changePortValues_data (portRead : Nat → Nat) (w : MainWindow) (row : Nat) :
    Option MainWindow :=
  match w.portView[row]? with
  | none => none
  | some r =>
      match hex2int r.data, hex2int r.port with
      | some d, some v =>
          let pdata := toUInt8 d
          let port := toUInt16 v
          let w1 := w.call (Call.debug_port_write_byte port pdata)
          let w2 := w1.call (Call.debug_port_read_byte port)
          let t := int2hex (portRead port) 2
          if t = r.data then some w2
          else
            changePortValues_data_nested portRead
              { w2 with portView := w2.portView.modify (fun x => { x with data := t }) row } row
      | _, _ => none

/-- The function `MainWindow::changePortValues(item)` for the item in row `row`
and column `col`, whose new text or check state is already in the table.
In the branch that rejects the text of column 0 and in the branch of column 1
the signals of the table are not blocked, so `setText` with a different text
runs the slot once more. -/
def changePortValues (K : DebugMasks) (D : DebugConsts) (portRead : Nat → Nat)
    (w : MainWindow) (row col : Nat) : Option MainWindow :=
  match w.portView[row]? with
  | none => none
  | some r =>
      if col > 1 then
        match hex2int r.port, r.checkState col with
        | some v, some checked =>
            let port := toUInt16 v
            let value :=
              if col = 4 then K.DBG_PORT_FREEZE
              else if col = 3 then K.DBG_PORT_WRITE
              else if col = 2 then K.DBG_PORT_READ
              else D.DBG_NO_HANDLE
            some (w.call (Call.debug_pmonitor_set port value checked))
        | _, _ => none
      else if col = 0 then
        let s := toUpper r.port
        if (find_first_not_of s hexChars).isSome ∨ s.isEmpty then
          let t := int2hex w.prevPortAddress 4
          if t = r.port then some w
          else changePortValues_nested K D portRead (setPortText w row t) row
        else changePortValues_valid K D portRead w row s
      else changePortValues_data portRead w row

/-- The function `MainWindow::deletePort`.  `next` is the selection the table
is left with by `removeRow`, which the selection model of the view decides. -/
def deletePort (next : Option Nat) (w : MainWindow) : Option MainWindow :=
  if w.portView.length = 0 ∨ w.portViewRow = none then some w
  else
    match w.portViewRow with
    | none => some w
    | some currentRow =>
        match w.portView[currentRow]? with
        | none => none
        | some r =>
            match hex2int r.port with
            | none => none
            | some v =>
                let w1 := w.call (Call.debug_pmonitor_remove (toUInt16 v))
                some { w1 with portView := w1.portView.eraseIdx currentRow, portViewRow := next }

/-- The function `MainWindow::updatePortData(currentRow)`.  The signals of the
table are not blocked, so when `setText` changes the text of the data cell,
`itemChanged` runs `changePortValues` on that cell (column 1), which writes the
value shown to the port and reads the port again. -/
def updatePortData (portRead : Nat → Nat) (w : MainWindow) (currentRow : Nat) :
    Option MainWindow :=
  match w.portView[currentRow]? with
  | none => none
  | some r =>
      match hex2int r.port with
      | none => none
      | some v =>
          let port := toUInt16 v
          let read := portRead port % 256
          let w1 := w.call (Call.debug_port_read_byte port)
          let t := int2hex read 2
          if t = r.data then some w1
          else
            let w2 : MainWindow :=
              { w1 with portView :=
                w1.portView.modify (fun x => { x with data := t }) currentRow }
            changePortValues_data portRead w2 currentRow

/-- A port row with the check box of column `col` put into the state `b`. -/
def PortRow.setCheckState (r : PortRow) (col : Nat) (b : Bool) : PortRow :=
  if col = 2 then { r with rBreak := b }
  else if col = 3 then { r with wBreak := b }
  else if col = 4 then { r with freeze := b }
  else r

/-- The user puts the check box in row `row`, column `col` of the port table
into the state `b`.  When that changes the state, the table emits
`itemChanged`, which runs `changePortValues` on the item. -/
def checkPort (K : DebugMasks) (D : DebugConsts) (portRead : Nat → Nat) (row col : Nat)
    (b : Bool) (w : MainWindow) : Option MainWindow :=
  match w.portView[row]? with
  | none => none
  | some r =>
      if r.checkState col = some b then some w
      else
        changePortValues K D portRead
          { w with portView := w.portView.modify (fun x => x.setCheckState col b) row } row col

/-- The user presses the port cell of row `row`, replaces its text by `text` and
commits: `itemPressed` runs `setPreviousPortValues`, and when the text has
changed `itemChanged` runs `changePortValues`. -/
def editPort (K : DebugMasks) (D : DebugConsts) (portRead : Nat → Nat) (row : Nat)
    (text : QString) (w : MainWindow) : Option MainWindow :=
  match setPreviousPortValues w row 0 with
  | none => none
  | some w1 =>
      match w1.portView[row]? with
      | none => none
      | some r =>
          if r.port = text then some w1
          else changePortValues K D portRead (setPortText w1 row text) row 0

/-- The user checks the READ box and the WRITE box of a port row and then
unchecks both. -/
def setThenClearReadWrite (K : DebugMasks) (D : DebugConsts) (portRead : Nat → Nat) (row : Nat)
    (w : MainWindow) : Option MainWindow :=
  (((checkPort K D portRead row 2 true w).bind (checkPort K D portRead row 3 true)).bind
    (checkPort K D portRead row 2 false)).bind (checkPort K D portRead row 3 false)

/-- The digit `d < 16` as `int2hex` writes it (upper case). -/
def upperDigit (d : Nat) : Char := toUpperChar (digitChar d)

/-- The port texts of the rows of the port table, in order. -/
def portTexts (w : MainWindow) : List QString := w.portView.map PortRow.port

/-- The state of the port texts that the table operations keep: every text is
the four-digit text of a 16-bit port id, and two rows with the same text both
carry `0000`. -/
def TextsOk (T : List QString) : Prop :=
  (∀ t ∈ T, ∃ p, p < 65536 ∧ t = int2hex p 4) ∧
  ∀ (i j : Nat) (a b : QString),
    i ≠ j → T[i]? = some a → T[j]? = some b → a = b → a = "0000".toList

/-- What the user can do to the port table: press the Add button, edit the port
cell of a row after pressing it, press the Delete button, press any cell, or
change the selection. -/
inductive PortOp where
  | add (portRead : Nat → Nat)
  | edit (portRead : Nat → Nat) (row : Nat) (text : QString)
  | delete (next : Option Nat)
  | press (row col : Nat)
  | select (row : Option Nat)

/-- The function of the window that an operation of the user runs. -/
def PortOp.run (K : DebugMasks) (D : DebugConsts) (op : PortOp) (w : MainWindow) :
    Option MainWindow :=
  match op with
  | PortOp.add portRead => addPort portRead w
  | PortOp.edit portRead row text => editPort K D portRead row text w
  | PortOp.delete next => deletePort next w
  | PortOp.press row col => setPreviousPortValues w row col
  | PortOp.select row => some { w with portViewRow := row }

/-- A sequence of operations of the user on the port table, in order. -/
def runPortOps (K : DebugMasks) (D : DebugConsts) : List PortOp → MainWindow → Option MainWindow
  | [], w => some w
  | op :: ops, w =>
      match op.run K D w with
      | none => none
      | some w1 => runPortOps K D ops w1

/-! ## gui/qt/mainwindow.cpp: variable list, images, debugger state -/

/-- The function `MainWindow::refreshVariableList`; `vat` lists the sizes of the
variables that `vat_search_next` yields. -/
def refreshVariableList (vat : List Nat) (w : MainWindow) : MainWindow :=
  let w1 : MainWindow := { w with emuVarView := [] }
  if w1.debuggerOn then w1
  else
    let w2 : MainWindow :=
      if w1.inReceivingMode then w1.call (Call.setReceiveState false)
      else { w1.call (Call.setReceiveState true) with emuVarView := vat.filter (fun n => n > 2) }
    { w2 with inReceivingMode := !w2.inReceivingMode }

/-- The function `MainWindow::saveToPath(path)`. -/
def saveToPath (path : QString) (w : MainWindow) : MainWindow :=
  w.call (Call.emu_save path w.inReceivingMode)

/-- The function `MainWindow::restoreFromPath(path)`; `restoreOk` is the value
`emu_thread->restore(path)` returns. -/
def restoreFromPath (restoreOk : Bool) (vat : List Nat) (path : QString) (w : MainWindow) :
    Bool × MainWindow :=
  let w1 := if w.inReceivingMode then refreshVariableList vat w else w
  let w2 := w1.call (Call.emu_restore path w1.inReceivingMode)
  if !restoreOk then (false, w2.call (Call.warning "Could not restore".toList))
  else (true, w2)

/-- The function `MainWindow::restoreEmuState`; `default_savedImage` is the
setting `savedImagePath`. -/
def restoreEmuState (default_savedImage : QString) (restoreOk : Bool) (vat : List Nat)
    (w : MainWindow) : Bool × MainWindow :=
  if !default_savedImage.isEmpty then restoreFromPath restoreOk vat default_savedImage w
  else (false, w.call (Call.warning "Can't restore state".toList))

/-- The function `MainWindow::saveEmuState`; `default_savedImage` is the setting
`savedImagePath`. -/
def saveEmuState (default_savedImage : QString) (w : MainWindow) : MainWindow :=
  if !default_savedImage.isEmpty then saveToPath default_savedImage w
  else w.call (Call.warning "Can't save image".toList)

/-- The function `MainWindow::saveToFile`; `savedImage` is the file name the
dialog returns. -/
def saveToFile (savedImage : QString) (w : MainWindow) : MainWindow :=
  if !savedImage.isEmpty then saveToPath savedImage w else w

/-- The function `MainWindow::setDebuggerState(state)`. -/
def setDebuggerState (state : Bool) (w : MainWindow) : MainWindow :=
  let w1 : MainWindow := { w with debuggerOn := state }
  let w2 : MainWindow :=
    if w1.debuggerOn then w1.call Call.debug_clear_run_until
    else
      { w1 with portChangeLabel := [], portTypeLabel := [], breakChangeLabel := [],
                breakTypeLabel := [] }
  w2.call (Call.setReceiveState false)

/-- The loop of `populateDebugWindow` over the port rows `i .. i + n - 1`. -/
def populateDebugWindow_loop (portRead : Nat → Nat) : Nat → Nat → MainWindow → Option MainWindow
  | 0, _, w => some w
  | n + 1, i, w =>
      match updatePortData portRead w i with
      | none => none
      | some w1 => populateDebugWindow_loop portRead n (i + 1) w1

/-- The function `MainWindow::populateDebugWindow`, as far as it touches the
modelled state: it fills the register views, which are not part of this
state, refreshes the data column of every port row and calls
`memUpdate(cpu.registers.PC)`. -/
def populateDebugWindow (portRead : Nat → Nat) (pc : Nat) (w : MainWindow) : Option MainWindow :=
  match populateDebugWindow_loop portRead w.portView.length 0 w with
  | none => none
  | some w1 => some (w1.call (Call.memUpdate pc))

/-- The function `MainWindow::raiseDebugger`. -/
def raiseDebugger (portRead : Nat → Nat) (pc : Nat) (w : MainWindow) : Option MainWindow :=
  match populateDebugWindow portRead pc w with
  | none => none
  | some w1 =>
      let w2 := setDebuggerState true w1
      some { w2 with stepInShortcut := w2.stepInShortcut + 1,
                     stepOverShortcut := w2.stepOverShortcut + 1,
                     stepNextShortcut := w2.stepNextShortcut + 1,
                     stepOutShortcut := w2.stepOutShortcut + 1 }

/-- The function `MainWindow::updateDebuggerChanges`.  The stores into `cpu`,
`lcd` and `backlight` that follow the test of `debuggerOn` are recorded as the
one call `commitEdits`; `commitOk` tells whether the conversions of the
register texts they need return a value. -/
def updateDebuggerChanges (commitOk : Bool) (w : MainWindow) : Option MainWindow :=
  if w.debuggerOn = true then some w
  else if commitOk then some (w.call Call.commitEdits)
  else none

/-- The function `MainWindow::stepInPressed`; `inDebugger` is the flag of the
core. -/
def stepInPressed (inDebugger commitOk : Bool) (w : MainWindow) : Option MainWindow :=
  if !inDebugger then some w
  else
    let w1 : MainWindow :=
      { w with stepInShortcut := 0, scrollBarBlocked := true, debuggerOn := false }
    match updateDebuggerChanges commitOk w1 with
    | none => none
    | some w2 => some (w2.call Call.setDebugStepInMode)

/-- The function `MainWindow::stepOverPressed`. -/
def stepOverPressed (inDebugger commitOk : Bool) (w : MainWindow) : Option MainWindow :=
  if !inDebugger then some w
  else
    let w1 : MainWindow :=
      { w with scrollBarBlocked := true, stepOverShortcut := 0, debuggerOn := false }
    match updateDebuggerChanges commitOk w1 with
    | none => none
    | some w2 => some (w2.call Call.setDebugStepOverMode)

/-- The function `MainWindow::stepNextPressed`. -/
def stepNextPressed (inDebugger commitOk : Bool) (w : MainWindow) : Option MainWindow :=
  if !inDebugger then some w
  else
    let w1 : MainWindow :=
      { w with scrollBarBlocked := true, stepNextShortcut := 0, debuggerOn := false }
    match updateDebuggerChanges commitOk w1 with
    | none => none
    | some w2 => some (w2.call Call.setDebugStepNextMode)

/-- The function `MainWindow::stepOutPressed`. -/
def stepOutPressed (inDebugger commitOk : Bool) (w : MainWindow) : Option MainWindow :=
  if !inDebugger then some w
  else
    let w1 : MainWindow :=
      { w with scrollBarBlocked := true, stepOutShortcut := 0, debuggerOn := false }
    match updateDebuggerChanges commitOk w1 with
    | none => none
    | some w2 => some (w2.call Call.setDebugStepOutMode)

/-- The function `MainWindow::changeDebuggerState`; `romEmpty` is
`emu.rom.empty()`. -/
def changeDebuggerState (romEmpty commitOk : Bool) (vat : List Nat) (w : MainWindow) :
    Option MainWindow :=
  if romEmpty then some w
  else
    let w1 : MainWindow := { w with debuggerOn := !w.debuggerOn }
    let r : Option MainWindow :=
      if !w1.debuggerOn then
        match updateDebuggerChanges commitOk (setDebuggerState false w1) with
        | none => none
        | some w2 =>
            if w2.inReceivingMode then
              some (refreshVariableList vat { w2 with inReceivingMode := false })
            else some w2
      else some w1
    match r with
    | none => none
    | some w3 => some (w3.call (Call.debuggerChangedState w3.debuggerOn))

/-- The function `MainWindow::closeEvent`; `saveOnClose` and
`default_savedImage` are settings.  The Boolean of the result tells whether
the event is passed on to `QMainWindow::closeEvent`, that is, the window
closes. -/
def closeEvent (inDebugger romEmpty commitOk saveOnClose : Bool) (vat : List Nat)
    (default_savedImage : QString) (w : MainWindow) : Option (Bool × MainWindow) :=
  let r : Option MainWindow :=
    if inDebugger then changeDebuggerState romEmpty commitOk vat w else some w
  match r with
  | none => none
  | some w1 =>
      let w2 := if w1.inReceivingMode then refreshVariableList vat w1 else w1
      if !w2.closeAfterSave && saveOnClose then
        some (false, saveEmuState default_savedImage { w2 with closeAfterSave := true })
      else some (true, w2.call Call.emu_stop)

/-- The function `MainWindow::saved(success)`.  The call `this->close()` is
recorded; the close event it sends to the window is not followed here. -/
def saved (success : Bool) (w : MainWindow) : MainWindow :=
  let w1 :=
    if success then w.call (Call.showStatusMsg "Image saved.".toList)
    else w.call (Call.warning "Could not save".toList)
  if w1.closeAfterSave then
    if !success then { w1 with closeAfterSave := false }
    else w1.call Call.close
  else w1

/-- Whether a recorded call is `this->close()`. -/
def Call.isClose : Call → Bool
  | Call.close => true
  | _ => false

/-! ## The core side of the debugger calls

The functions of `debug/debug.c` are not part of the sources at hand.  Where a
statement needs the effect of such a call on the core, it is taken from the
specification. -/

/-- The debugger data of the core that the calls below change: the port
monitor flags by port id, the breakpoint flags by address, and the run-until
marker. -/
structure DebugData where
  ports : Nat → Nat
  breakpoints : Nat → Nat
  runUntil : Option Nat

/-- The bits of `x` without those of `m`: `x & ~m`. -/
def clearBits (x m : Nat) : Nat := x ^^^ (x &&& m)

/-- Modelled from the spec: `debug_pmonitor_set(port, flags, enabled)` of
`debug/debug.c`.  The monitor flags are kept "per full 16-bit port id, a
bitset {READ, WRITE, FREEZE}"; "setting a previously-clear flag inserts an
entry, clearing the last flag removes it", so the call sets or clears the
given flags of the port and an entry exists while the flags are not zero. -/
def debug_pmonitor_set (ports : Nat → Nat) (port value : Nat) (set : Bool) : Nat → Nat :=
  fun q => if q = port then (if set then ports q ||| value else clearBits (ports q) value)
    else ports q

/-- Modelled from the spec: `debug_pmonitor_remove(port)` of `debug/debug.c`
removes the entry of the port: no flag of the port stays set. -/
def debug_pmonitor_remove (ports : Nat → Nat) (port : Nat) : Nat → Nat :=
  fun q => if q = port then 0 else ports q

/-- Modelled from the spec: `debug_clear_run_until()` of `debug/debug.c`.  The
run-until marker is a "single transient address-triggered breakpoint ...
independent of the persistent breakpoint table"; clearing it removes the marker
and nothing else. -/
def debug_clear_run_until (d : DebugData) : DebugData := { d with runUntil := none }

/-- The effect of a recorded call on the port monitor flags of the core. -/
def Call.onPorts (c : Call) (ports : Nat → Nat) : Nat → Nat :=
  match c with
  | Call.debug_pmonitor_set port value set => CEmu.debug_pmonitor_set ports port value set
  | Call.debug_pmonitor_remove port => CEmu.debug_pmonitor_remove ports port
  | _ => ports

/-- The effect of a list of recorded calls, in order, on the port monitor
flags. -/
def runOnPorts (cs : List Call) (ports : Nat → Nat) : Nat → Nat :=
  cs.foldl (fun p c => c.onPorts p) ports

/-- The effect of the recorded calls of `raiseDebugger` on the debugger data:
of the calls it makes only `debug_clear_run_until` changes them. -/
def runClearRunUntil (cs : List Call) (d : DebugData) : DebugData :=
  cs.foldl (fun x c => if c = Call.debug_clear_run_until then debug_clear_run_until x else x) d

/-- The address a breakpoint row stands for, as the window code reads it:
`static_cast<uint32_t>(hex2int(text))`. -/
def BreakRow.addr (r : BreakRow) : Option Nat := (hex2int r.address).map toUInt32

/-- The port id a port row stands for, as the window code reads it:
`static_cast<uint16_t>(hex2int(text))`. -/
def PortRow.id (r : PortRow) : Option Nat := (hex2int r.port).map toUInt16

/-- Whether a recorded call is `emu_thread->restore`. -/
def Call.isEmuRestore : Call → Bool
  | Call.emu_restore _ _ => true
  | _ => false

/-- Whether a recorded call is `emu_thread->save`. -/
def Call.isEmuSave : Call → Bool
  | Call.emu_save _ _ => true
  | _ => false

/-- Whether a recorded call is `debug_breakpoint_set` or
`debug_breakpoint_remove`. -/
def Call.isBreakpointCall : Call → Bool
  | Call.debug_breakpoint_set _ _ _ => true
  | Call.debug_breakpoint_remove _ => true
  | _ => false

/-- The later window `w1` has the calls of `w` followed by calls none of which
is `emu_thread->save`, and the same `closeAfterSave`. -/
def NoSaveBetween (w w1 : MainWindow) : Prop :=
  ∃ cs, w1.calls = w.calls ++ cs ∧ cs.filter Call.isEmuSave = [] ∧
    w1.closeAfterSave = w.closeAfterSave

/-- A window at program start: empty tables, no pending text, nothing
recorded. -/
def MainWindow.start : MainWindow :=
  { breakpointView := [], breakpointViewRow := none, currBreakpointAddress := [],
    prevBreakpointAddress := 0, breakChangeLabel := [], breakTypeLabel := [],
    portView := [], portViewRow := none, currPortAddress := [], prevPortAddress := 0,
    portChangeLabel := [], portTypeLabel := [], emuVarView := [], debuggerOn := false,
    inReceivingMode := false, closeAfterSave := false, stepInShortcut := 1,
    stepOverShortcut := 1, stepNextShortcut := 1, stepOutShortcut := 1,
    scrollBarBlocked := false, calls := [] }

/-- Constants for examples. -/
def demoConsts : DebugConsts :=
  { DBG_NO_HANDLE := 0, DBG_READ_BREAKPOINT := 1, DBG_WRITE_BREAKPOINT := 2,
    DBG_EXEC_BREAKPOINT := 4, HIT_EXEC_BREAKPOINT := 2, HIT_READ_BREAKPOINT := 3,
    HIT_WRITE_BREAKPOINT := 4, HIT_PORT_WRITE_BREAKPOINT := 6, HIT_PORT_READ_BREAKPOINT := 7,
    NUM_DBG_COMMANDS := 8, DBG_PORT_RANGE := 0xFFFF00 }

/-! ## gui/qt/mainwindow.cpp: the memory editors -/

/-- The part of a `QHexEdit` the window touches: the bytes given to `setData`,
the argument of the last `setAddressOffset`, `setCursorPosition` and `setLine`,
and whether `setFocus` was called. -/
structure QHexEdit where
  data : List Nat
  addressOffset : Int
  cursorPosition : Int
  line : Int
  focus : Bool
deriving DecidableEq, Repr

/-- The memory tab: the editor `ui->memEdit` and the member `memSize`. -/
structure MemTab where
  memEdit : QHexEdit
  memSize : Int
deriving DecidableEq, Repr

/-- The conversion `static_cast<int32_t>(x)`. -/
def toInt32 (x : Int) : Int := (x + 2147483648) % 4294967296 - 2147483648

/-- The function `MainWindow::memUpdate(addressBegin)`; `locked` is the state of
`ui->checkLockPosition`, `debug_read_byte` the core's reader.  `none` stands for
a signed overflow of `start` or `end`. -/
def memUpdate (debug_read_byte : Nat → Nat) (locked : Bool) (addressBegin : Nat)
    (t : MemTab) : Option MemTab :=
  let e : QHexEdit := { t.memEdit with focus := true }
  let line : Int := if locked then e.line else 0
  let start0 : Int :=
    if locked then toInt32 e.addressOffset
    else toInt32 (Int.ofNat (addressBegin % 4294967296)) - 0x1000
  if start0 < -2147483648 then none
  else
    let start : Int := if start0 < 0 then 0 else start0
    let end0 : Int := start + 0x2000
    if end0 > 2147483647 then none
    else
      let end_ : Int := if end0 > 0xFFFFFF then 0xFFFFFF else end0
      let mem_data : List Nat :=
        (List.range (end_ - start).toNat).map (fun k => debug_read_byte (start.toNat + k))
      let e1 : QHexEdit := { e with data := mem_data, addressOffset := start }
      let e2 : QHexEdit :=
        if locked then { e1 with line := line }
        else
          { e1 with cursorPosition :=
              Int.ofNat (toUInt32 (Int.ofNat (addressBegin % 4294967296) - start) * 2
                % 4294967296) }
      some { memEdit := e2, memSize := end_ - start }

/-- The function `MainWindow::memGoto(address)`.  `none` stands for the exception
of `hex2int`. -/
def memGoto (debug_read_byte : Nat → Nat) (address : QString) (t : MemTab) : Option MemTab :=
  let e : QHexEdit := { t.memEdit with focus := true }
  match hex2int address with
  | none => none
  | some int_address =>
      if int_address > 0xFFFFFF ∨ int_address < 0 then some { t with memEdit := e }
      else
        let start0 : Int := int_address - 0x500
        let start : Int := if start0 < 0 then 0 else start0
        let end0 : Int := start + 0x1000
        let end_ : Int := if end0 > 0xFFFFFF then 0xFFFFFF else end0
        let mem_data : List Nat :=
          (List.range (end_ - start).toNat).map (fun k => debug_read_byte (start.toNat + k))
        some { memEdit :=
                 { e with data := mem_data, addressOffset := start,
                          cursorPosition := (int_address - start) * 2 },
               memSize := end_ - start }

/-- The function `MainWindow::getAddressString(ok, String)`: `ok` and `text` are
what the input dialog returns; the result is the final `ok` and the string. -/
def getAddressString (ok : Bool) (text : QString) : Bool × QString :=
  let address := toUpper text
  if !ok || (find_first_not_of address hexChars).isSome || decide (address.length > 6) ||
      decide (address.length = 0) then (false, [])
  else (true, address)

/-- The comparison of two `QString`s with `<`: lexicographic on the code units. -/
def QString.less : QString → QString → Bool
  | _, [] => false
  | [], _ :: _ => true
  | a :: s, b :: t => if a.toNat < b.toNat then true else if b.toNat < a.toNat then false
      else QString.less s t

/-- The function `MainWindow::ramGotoPressed` on `ui->ramEdit`; `ok` and `text`
are what the input dialog returns.  In `address < 0` the left side is the
`QString`, which is compared with the null string.  `none` stands for the
exception of `hex2int` and for a signed overflow. -/
def ramGotoPressed (ok : Bool) (text : QString) (ramEdit : QHexEdit) : Option QHexEdit :=
  let r := getAddressString ok text
  let address := r.2
  let e : QHexEdit := { ramEdit with focus := true }
  if !r.1 then some e
  else
    match hex2int address with
    | none => none
    | some v =>
        let int_address : Int := v - 0xD00000
        if int_address < -2147483648 then none
        else if int_address > 0x657FF ∨ QString.less address [] = true then some e
        else some { e with cursorPosition := toInt32 (int_address * 2) }

/-- An editor before any call. -/
def QHexEdit.start : QHexEdit :=
  { data := [], addressOffset := 0, cursorPosition := 0, line := 0, focus := false }

/-! ## gui/qt/mainwindow.cpp: the register fields of the debugger

The objects `cpu`, `lcd` and `backlight` of the core are records holding the
members the window reads and writes; every member holds the value the source
assigns to it. -/

/-- The member `cpu.registers.flags`. -/
structure Flags where
  Z : Bool
  C : Bool
  H : Bool
  PV : Bool
  N : Bool
  S : Bool
  _5 : Bool
  _3 : Bool
deriving DecidableEq, Repr

/-- The member `cpu.registers`. -/
structure Registers where
  AF : Nat
  HL : Nat
  DE : Nat
  BC : Nat
  IX : Nat
  IY : Nat
  _AF : Nat
  _HL : Nat
  _DE : Nat
  _BC : Nat
  SPL : Nat
  SPS : Nat
  MBASE : Nat
  I : Nat
  R : Nat
  PC : Nat
  flags : Flags
deriving DecidableEq, Repr

/-- The object `cpu`. -/
structure Cpu where
  registers : Registers
  IM : Nat
  halted : Bool
  ADL : Bool
  MADL : Bool
  IEF1 : Bool
  IEF2 : Bool
deriving DecidableEq, Repr

/-- The object `lcd`. -/
structure Lcd where
  upbase : Nat
  upcurr : Nat
  control : Nat
deriving DecidableEq, Repr

/-- The objects of the core the debugger fields show. -/
structure Core where
  cpu : Cpu
  lcd : Lcd
  brightness : Nat
deriving DecidableEq, Repr

/-- The fields of the debugger tab: the text of every line edit, the state of
every check box and the value of the brightness slider. -/
structure DebugView where
  afregView : QString
  hlregView : QString
  deregView : QString
  bcregView : QString
  ixregView : QString
  iyregView : QString
  af_regView : QString
  hl_regView : QString
  de_regView : QString
  bc_regView : QString
  splregView : QString
  spsregView : QString
  mbregView : QString
  iregView : QString
  rregView : QString
  imregView : QString
  pcregView : QString
  lcdbaseView : QString
  lcdcurrView : QString
  bppView : QString
  checkZ : Bool
  checkC : Bool
  checkHC : Bool
  checkPV : Bool
  checkN : Bool
  checkS : Bool
  check5 : Bool
  check3 : Bool
  checkHalted : Bool
  checkADL : Bool
  checkMADL : Bool
  checkIEF1 : Bool
  checkIEF2 : Bool
  checkPowered : Bool
  checkBEPO : Bool
  checkBEBO : Bool
  checkBGR : Bool
  checkSleep : Bool
  brightnessSlider : Int
deriving DecidableEq, Repr

/-- The method `QString::toInt()` in base 10: white space around the number is
ignored, a sign may precede the digits; the result is 0 when the text is not a
number or does not fit an `int`. -/
def QString.toInt (s : QString) : Int :=
  let t := ((s.dropWhile isspace).reverse.dropWhile isspace).reverse
  let sg : Bool × QString :=
    match t with
    | c :: r => if c = '-' then (true, r) else if c = '+' then (false, r) else (false, t)
    | [] => (false, t)
  if sg.2.isEmpty || !sg.2.all (fun c => decide (48 ≤ c.toNat ∧ c.toNat ≤ 57)) then 0
  else
    let v : Int := sg.2.foldl (fun acc c => acc * 10 + ((c.toNat - 48 : Nat) : Int)) 0
    let r : Int := if sg.1 then -v else v
    if -2147483648 ≤ r ∧ r ≤ 2147483647 then r else 0

/-- The text `populateDebugWindow` puts into `bppView`: its `switch` on
`(lcd.control >> 1) & 7`. -/
def bppText (control : Nat) : QString :=
  match (control >>> 1) &&& 7 with
  | 0 => "01".toList
  | 1 => "02".toList
  | 2 => "04".toList
  | 3 => "08".toList
  | 4 => "16".toList
  | 5 => "24".toList
  | 6 => "16".toList
  | _ => "12".toList

/-- The value `bpp` of `updateDebuggerChanges`: its `switch` on
`bppView->text().toInt()`, starting from `bpp = 0`. -/
def bppOfText (text : QString) : Nat :=
  let n := QString.toInt text
  if n = 1 then 0
  else if n = 2 then 1
  else if n = 4 then 2
  else if n = 8 then 3
  else if n = 24 then 5
  else if n = 16 then 6
  else if n = 12 then 7
  else 0

/-- The register fields as `MainWindow::populateDebugWindow` fills them from the
core (the frequency and battery fields are left out; `checkSleep` is
cleared). -/
def populateDebugWindow_fields (c : Core) (ui : DebugView) : DebugView :=
  let r := c.cpu.registers
  { ui with
    afregView := int2hex r.AF 4,
    hlregView := int2hex r.HL 6,
    deregView := int2hex r.DE 6,
    bcregView := int2hex r.BC 6,
    ixregView := int2hex r.IX 6,
    iyregView := int2hex r.IY 6,
    af_regView := int2hex r._AF 4,
    hl_regView := int2hex r._HL 6,
    de_regView := int2hex r._DE 6,
    bc_regView := int2hex r._BC 6,
    spsregView := int2hex r.SPS 4,
    splregView := int2hex r.SPL 6,
    mbregView := int2hex r.MBASE 2,
    iregView := int2hex r.I 4,
    imregView := int2hex (c.cpu.IM - (if c.cpu.IM ≠ 0 then 1 else 0)) 1,
    pcregView := int2hex r.PC 6,
    rregView := int2hex ((r.R >>> 1) ||| (r.R <<< 7)) 2,
    lcdbaseView := int2hex c.lcd.upbase 6,
    lcdcurrView := int2hex c.lcd.upcurr 6,
    bppView := bppText c.lcd.control,
    checkSleep := false,
    check3 := r.flags._3,
    check5 := r.flags._5,
    checkZ := r.flags.Z,
    checkC := r.flags.C,
    checkHC := r.flags.H,
    checkPV := r.flags.PV,
    checkN := r.flags.N,
    checkS := r.flags.S,
    checkADL := c.cpu.ADL,
    checkMADL := c.cpu.MADL,
    checkHalted := c.cpu.halted,
    checkIEF1 := c.cpu.IEF1,
    checkIEF2 := c.cpu.IEF2,
    checkPowered := decide (c.lcd.control &&& 0x800 ≠ 0),
    checkBEPO := decide (c.lcd.control &&& 0x400 ≠ 0),
    checkBEBO := decide (c.lcd.control &&& 0x200 ≠ 0),
    checkBGR := decide (c.lcd.control &&& 0x100 ≠ 0),
    brightnessSlider := Int.ofNat c.brightness }

/-- Setting (`|= m`) or clearing (`&= ~m`) the bits `m` of a word, as the check
box tells. -/
def setOrClear (checked : Bool) (x m : Nat) : Nat :=
  if checked then x ||| m else clearBits x m

/-- The texts of the fields `updateDebuggerChanges` converts with `hex2int`. -/
def DebugView.hexTexts (ui : DebugView) : List QString :=
  [ui.afregView, ui.hlregView, ui.deregView, ui.bcregView, ui.ixregView, ui.iyregView,
   ui.af_regView, ui.hl_regView, ui.de_regView, ui.bc_regView, ui.splregView, ui.spsregView,
   ui.mbregView, ui.iregView, ui.rregView, ui.imregView, ui.pcregView, ui.lcdbaseView,
   ui.lcdcurrView]

/-- The values `hex2int` gives for a list of texts, converted from the first to
the last; `none` when one of the conversions throws. -/
def hexValues : List QString → Option (List Int)
  | [] => some []
  | t :: ts =>
      match hex2int t with
      | none => none
      | some v =>
          match hexValues ts with
          | none => none
          | some vs => some (v :: vs)

/-- The stores of `MainWindow::updateDebuggerChanges` into `cpu`, `lcd` and
`backlight` from the fields `ui`; `debuggerOn` is the member tested first.
The result is the core after the stores and the calls made (`cpu_flush` is
recorded, not run).  `none` stands for the exception of `hex2int` at one of the
texts; `v i` is the value of the text number `i` of `hexTexts`.  `R` and `IM`
are eight bits wide. -/
def updateDebuggerChanges_stores (debuggerOn : Bool) (ui : DebugView) (c : Core) :
    Option (Core × List Call) :=
  if debuggerOn = true then some (c, [])
  else
    match hexValues ui.hexTexts with
    | none => none
    | some vs =>
        let v : Nat → Int := fun i => vs.getD i 0
        let R0 := toUInt8 (v 14)
        let IM0 := toUInt8 (v 15)
        let uiPC := toUInt32 (v 16)
        let registers : Registers :=
          { AF := toUInt16 (v 0), HL := toUInt32 (v 1), DE := toUInt32 (v 2),
            BC := toUInt32 (v 3), IX := toUInt32 (v 4), IY := toUInt32 (v 5),
            _AF := toUInt16 (v 6), _HL := toUInt32 (v 7), _DE := toUInt32 (v 8),
            _BC := toUInt32 (v 9), SPL := toUInt32 (v 10), SPS := toUInt16 (v 11),
            MBASE := toUInt8 (v 12), I := toUInt16 (v 13),
            R := ((R0 <<< 1) ||| (R0 >>> 7)) % 256,
            PC := c.cpu.registers.PC,
            flags :=
              { Z := ui.checkZ, C := ui.checkC, H := ui.checkHC, PV := ui.checkPV,
                N := ui.checkN, S := ui.checkS, _5 := ui.check5, _3 := ui.check3 } }
        let cpu : Cpu :=
          { registers := registers, IM := (IM0 + (if IM0 ≠ 0 then 1 else 0)) % 256,
            halted := ui.checkHalted, ADL := c.cpu.ADL, MADL := ui.checkMADL,
            IEF1 := ui.checkIEF1, IEF2 := ui.checkIEF2 }
        let calls : List Call :=
          if c.cpu.registers.PC ≠ uiPC then [Call.cpu_flush uiPC ui.checkADL] else []
        let control1 := clearBits c.lcd.control 14
        let bpp := bppOfText ui.bppView
        let control2 := control1 ||| (bpp <<< 1)
        let control3 := setOrClear ui.checkPowered control2 0x800
        let control4 := setOrClear ui.checkBEPO control3 0x400
        let control5 := setOrClear ui.checkBEBO control4 0x200
        let control6 := setOrClear ui.checkBGR control5 0x100
        some
          ({ cpu := cpu,
             lcd := { upbase := toUInt32 (v 17), upcurr := toUInt32 (v 18),
                      control := control6 },
             brightness := toUInt8 ui.brightnessSlider }, calls)

/-- Fields with empty texts and nothing checked. -/
def DebugView.start : DebugView :=
  { afregView := [], hlregView := [], deregView := [], bcregView := [], ixregView := [],
    iyregView := [], af_regView := [], hl_regView := [], de_regView := [], bc_regView := [],
    splregView := [], spsregView := [], mbregView := [], iregView := [], rregView := [],
    imregView := [], pcregView := [], lcdbaseView := [], lcdcurrView := [], bppView := [],
    checkZ := false, checkC := false, checkHC := false, checkPV := false, checkN := false,
    checkS := false, check5 := false, check3 := false, checkHalted := false,
    checkADL := false, checkMADL := false, checkIEF1 := false, checkIEF2 := false,
    checkPowered := false, checkBEPO := false, checkBEBO := false, checkBGR := false,
    checkSleep := false, brightnessSlider := 0 }

/-- A core for examples: `R = 0x81`, `PC = 0x001234`, 16 bits per pixel in the
1555 format (`lcd.control = 0x808`: bits 1-3 hold 4, the power bit is set), all
else zero. -/
def demoCore : Core :=
  { cpu :=
      { registers :=
          { AF := 0, HL := 0, DE := 0, BC := 0, IX := 0, IY := 0, _AF := 0, _HL := 0,
            _DE := 0, _BC := 0, SPL := 0, SPS := 0, MBASE := 0, I := 0, R := 0x81,
            PC := 0x1234,
            flags := { Z := false, C := false, H := false, PV := false, N := false,
                       S := false, _5 := false, _3 := false } },
        IM := 0, halted := false, ADL := true, MADL := false, IEF1 := false, IEF2 := false },
    lcd := { upbase := 0xD40000, upcurr := 0xD40000, control := 0x808 },
    brightness := 0xFF }


/-- The example core with another value of `R`. -/
def coreWithR (R : Nat) : Core :=
  { demoCore with
    cpu := { demoCore.cpu with registers := { demoCore.cpu.registers with R := R } } }

/-- The fields shown for the example core, with the program counter edited to
`001000` and the ADL box cleared. -/
def demoView : DebugView :=
  { populateDebugWindow_fields demoCore DebugView.start with
    pcregView := "001000".toList, checkADL := false }

/-! ## gui/qt/mainwindow.cpp: editing and toggling breakpoints -/

/-- The text of the item in column `col` of a breakpoint row: the address in
column 0, nothing in the check box columns. -/
def BreakRow.text (r : BreakRow) (col : Nat) : Option QString :=
  if col = 0 then some r.address
  else if col ≤ 3 then some []
  else none

/-- The check state of the item in column `col` of a breakpoint row, for the
check box columns. -/
def BreakRow.checkState (r : BreakRow) (col : Nat) : Option Bool :=
  if col = 1 then some r.rBreak
  else if col = 2 then some r.wBreak
  else if col = 3 then some r.eBreak
  else none

/-- The function `MainWindow::setPreviousBreakpointAddress(curr_item)` for the
item in row `row` and column `col`. -/
def setPreviousBreakpointAddress (w : MainWindow) (row col : Nat) : Option MainWindow :=
  match w.breakpointView[row]? with
  | none => none
  | some r =>
      match r.text col with
      | none => none
      | some t =>
          if t.isEmpty then some w
          else
            match hex2int r.address with
            | none => none
            | some v => some { w with prevBreakpointAddress := toUInt32 v }

/-- The loop of `changeBreakpointAddress` over all rows: whether some row other
than `row` carries the text `addressString`. -/
def changeBreakpointAddress_loop (addressString : QString) (row : Nat) :
    List BreakRow → Nat → Bool
  | [], _ => false
  | r :: rs, i =>
      if r.address = addressString ∧ i ≠ row then true
      else changeBreakpointAddress_loop addressString row rs (i + 1)

/-- Replaces the address text of row `row`: `item(row, 0)->setText(t)`. -/
def setBreakText (w : MainWindow) (row : Nat) (t : QString) : MainWindow :=
  { w with breakpointView := w.breakpointView.modify (fun r => { r with address := t }) row }

/-- The column 0 branch of `changeBreakpointAddress` from the conversion of the
text `s` on (the text has passed the check for hexadecimal digits). -/
def changeBreakpointAddress_valid (D : DebugConsts) (w : MainWindow) (row : Nat)
    (s : QString) : Option MainWindow :=
  match hex2int s with
  | none => none
  | some v =>
      let address := toUInt32 v
      let addressString := int2hex address 6
      if changeBreakpointAddress_loop addressString row w.breakpointView 0 then
        some (setBreakText w row (int2hex w.prevBreakpointAddress 6))
      else
        match w.breakpointView[row]? with
        | none => none
        | some r =>
            let value :=
              (if r.rBreak then D.DBG_READ_BREAKPOINT else D.DBG_NO_HANDLE) |||
              (if r.wBreak then D.DBG_WRITE_BREAKPOINT else D.DBG_NO_HANDLE) |||
              (if r.eBreak then D.DBG_EXEC_BREAKPOINT else D.DBG_NO_HANDLE)
            let w1 := w.call (Call.debug_breakpoint_remove w.prevBreakpointAddress)
            let w2 := setBreakText w1 row addressString
            let w3 := w2.call (Call.debug_breakpoint_set address value true)
            some (w3.call (Call.updateDisasmView address true))

/-- The column 0 branch of `changeBreakpointAddress` as run by the `itemChanged`
signal that `setText` emits from inside the slot: the same code, where the
text can be rejected no more than once. -/
def changeBreakpointAddress_nested (D : DebugConsts) (w : MainWindow) (row : Nat) :
    Option MainWindow :=
  match w.breakpointView[row]? with
  | none => none
  | some r =>
      let s := toUpper r.address
      if (find_first_not_of s hexChars).isSome ∨ s.isEmpty then
        some (setBreakText w row (int2hex w.prevBreakpointAddress 6))
      else changeBreakpointAddress_valid D w row s

/-- The function `MainWindow::changeBreakpointAddress(item)` for the item in row
`row` and column `col`, whose new text or check state is already in the table.
In the branch that rejects the text of column 0 the signals of the table are
not blocked, so `setText` with a different text runs the slot once more. -/
def changeBreakpointAddress (D : DebugConsts) (w : MainWindow) (row col : Nat) :
    Option MainWindow :=
  match w.breakpointView[row]? with
  | none => none
  | some r =>
      if col > 0 then
        match hex2int r.address, r.checkState col with
        | some v, some checked =>
            let address := toUInt32 v
            let value :=
              if col = 3 then D.DBG_EXEC_BREAKPOINT
              else if col = 2 then D.DBG_WRITE_BREAKPOINT
              else if col = 1 then D.DBG_READ_BREAKPOINT
              else D.DBG_NO_HANDLE
            let w1 := w.call (Call.debug_breakpoint_set address value checked)
            some (w1.call (Call.updateDisasmView address true))
        | _, _ => none
      else
        let s := toUpper r.address
        if (find_first_not_of s hexChars).isSome ∨ s.isEmpty then
          let t := int2hex w.prevBreakpointAddress 6
          if t = r.address then some w
          else changeBreakpointAddress_nested D (setBreakText w row t) row
        else changeBreakpointAddress_valid D w row s

/-- The function `MainWindow::deleteBreakpoint`.  `next` is the selection the
table is left with by `removeRow`, which the selection model of the view
decides. -/
def deleteBreakpoint (next : Option Nat) (w : MainWindow) : Option MainWindow :=
  if w.breakpointView.length = 0 ∨ w.breakpointViewRow = none then some w
  else
    match w.breakpointViewRow with
    | none => some w
    | some currentRow =>
        match w.breakpointView[currentRow]? with
        | none => none
        | some r =>
            match hex2int r.address with
            | none => none
            | some v =>
                let address := toUInt32 v
                let w1 := w.call (Call.debug_breakpoint_remove address)
                let w2 : MainWindow :=
                  { w1 with breakpointView := w1.breakpointView.eraseIdx currentRow,
                            breakpointViewRow := next }
                some (w2.call (Call.updateDisasmView address true))

/-- The function `MainWindow::setBreakpointAddress`; `selected` is the text
`ui->disassemblyView->getSelectedAddress()` returns. -/
def setBreakpointAddress (D : DebugConsts) (selected : QString) (next : Option Nat)
    (w : MainWindow) : Option MainWindow :=
  match addBreakpoint D { w with currBreakpointAddress := selected } with
  | none => none
  | some (true, w1) => some w1
  | some (false, w1) => deleteBreakpoint next w1

/-- The address texts of the rows of the breakpoint table, in order. -/
def breakTexts (w : MainWindow) : List QString := w.breakpointView.map BreakRow.address

/-- Modelled from the spec: `debug_breakpoint_set(address, flags, enabled)` of
`debug/debug.c`.  The "breakpoint table" is "keyed by address, unique per
address; setting a previously-clear flag inserts an entry, clearing the last
flag removes it", so the call sets or clears the given flags of the address
and an entry exists while the flags are not zero. -/
def debug_breakpoint_set (bps : Nat → Nat) (address value : Nat) (set : Bool) : Nat → Nat :=
  fun q => if q = address then (if set then bps q ||| value else clearBits (bps q) value)
    else bps q

/-- Modelled from the spec: `debug_breakpoint_remove(address)` of
`debug/debug.c` removes the entry of the address: no flag of the address stays
set. -/
def debug_breakpoint_remove (bps : Nat → Nat) (address : Nat) : Nat → Nat :=
  fun q => if q = address then 0 else bps q

/-- The effect of a recorded call on the breakpoint flags of the core. -/
def Call.onBreakpoints (c : Call) (bps : Nat → Nat) : Nat → Nat :=
  match c with
  | Call.debug_breakpoint_set address value set =>
      CEmu.debug_breakpoint_set bps address value set
  | Call.debug_breakpoint_remove address => CEmu.debug_breakpoint_remove bps address
  | _ => bps

/-- The effect of a list of recorded calls, in order, on the breakpoint
flags. -/
def runOnBreakpoints (cs : List Call) (bps : Nat → Nat) : Nat → Nat :=
  cs.foldl (fun p c => c.onBreakpoints p) bps

/-- The flags checked in a breakpoint row, as `changeBreakpointAddress` combines
them. -/
def BreakRow.value (D : DebugConsts) (r : BreakRow) : Nat :=
  (if r.rBreak then D.DBG_READ_BREAKPOINT else D.DBG_NO_HANDLE) |||
  (if r.wBreak then D.DBG_WRITE_BREAKPOINT else D.DBG_NO_HANDLE) |||
  (if r.eBreak then D.DBG_EXEC_BREAKPOINT else D.DBG_NO_HANDLE)

/-- The flags checked in a port row, as `changePortValues` combines them. -/
def PortRow.value (K : DebugMasks) (D : DebugConsts) (r : PortRow) : Nat :=
  (if r.rBreak then K.DBG_PORT_READ else D.DBG_NO_HANDLE) |||
  (if r.wBreak then K.DBG_PORT_WRITE else D.DBG_NO_HANDLE) |||
  (if r.freeze then K.DBG_PORT_FREEZE else D.DBG_NO_HANDLE)

/-- The user presses the address cell of row `row` of the breakpoint table,
replaces its text by `text` and commits: `itemPressed` runs
`setPreviousBreakpointAddress`, and when the text has changed `itemChanged`
runs `changeBreakpointAddress`. -/
def editBreakpoint (D : DebugConsts) (row : Nat) (text : QString) (w : MainWindow) :
    Option MainWindow :=
  match setPreviousBreakpointAddress w row 0 with
  | none => none
  | some w1 =>
      match w1.breakpointView[row]? with
      | none => none
      | some r =>
          if r.address = text then some w1
          else changeBreakpointAddress D (setBreakText w1 row text) row 0

/-- The user replaces the text of the address cell of row `row` and commits
without a press of the cell before (the edit is started from the keyboard):
only `itemChanged` runs. -/
def typeBreakpoint (D : DebugConsts) (row : Nat) (text : QString) (w : MainWindow) :
    Option MainWindow :=
  match w.breakpointView[row]? with
  | none => none
  | some r =>
      if r.address = text then some w
      else changeBreakpointAddress D (setBreakText w row text) row 0

/-- The user replaces the text of the port cell of row `row` and commits without
a press of the cell before (the edit is started from the keyboard): only
`itemChanged` runs. -/
def typePort (K : DebugMasks) (D : DebugConsts) (portRead : Nat → Nat) (row : Nat)
    (text : QString) (w : MainWindow) : Option MainWindow :=
  match w.portView[row]? with
  | none => none
  | some r =>
      if r.port = text then some w
      else changePortValues K D portRead (setPortText w row text) row 0

/-! ## Address arithmetic -/

theorem port_range_lt (a : Nat) : port_range a < 0x10 := by
  unfold port_range
  have h := Nat.and_pow_two_sub_one_eq_mod (a >>> 12) 4
  norm_num at h
  rw [h]
  omega

theorem port_range_eq_shift {a : Nat} (h : a < 0x10000) : port_range a = a >>> 12 := by
  unfold port_range
  have h1 := Nat.and_pow_two_sub_one_eq_mod (a >>> 12) 4
  norm_num at h1
  rw [h1, Nat.shiftRight_eq_div_pow]
  omega

theorem addr_range_eq_mod (a : Nat) : addr_range a = a % 0x1000 := by
  unfold addr_range
  have h := Nat.and_pow_two_sub_one_eq_mod a 12
  norm_num at h
  exact h

theorem port_eq_self {a : Nat} (h : a < 0x10000) : port a = a := by
  unfold port
  rw [port_range_eq_shift h, addr_range_eq_mod, Nat.shiftLeft_eq, Nat.shiftRight_eq_div_pow]
  have hlt : a % 0x1000 < 2 ^ 12 := by omega
  have hor := Nat.mul_add_lt_is_or hlt (a / 2 ^ 12)
  rw [Nat.mul_comm (a / 2 ^ 12) (2 ^ 12), ← hor]
  omega

/-! ## The result of an access, written out -/

theorem effectsSince_append {R σ : Type} (s : Bus R σ) (p : σ) (l : List (Effect R)) :
    effectsSince s { periph := p, trace := s.trace ++ l } = l := by
  simp [effectsSince]

theorem effectsSince_self {R σ : Type} (s : Bus R σ) : effectsSince s s = [] := by
  simp [effectsSince]

theorem port_read_byte_eq {R σ : Type} (K : DebugMasks) (deref : R → eZ80portrange_t σ)
    (apb_map : List (Option R)) (ports : Nat → Nat) (a : Nat) (s : Bus R σ) (range : R)
    (ha : a < 0x10000) (hm : apb_map[a >>> 12]? = some (some range)) :
    port_read_byte K deref apb_map ports a s =
      some (((deref range).read_in (a &&& 0xFFF) s.periph).1,
        { periph := ((deref range).read_in (a &&& 0xFFF) s.periph).2,
          trace := s.trace ++
            ((if ports a &&& K.DBG_PORT_READ ≠ 0 then
                [Effect.open_debugger DebugReason.HIT_PORT_READ_BREAKPOINT a]
              else []) ++ [Effect.read_in range (a &&& 0xFFF)]) }) := by
  unfold port_read_byte
  simp only [Nat.mod_eq_of_lt ha, port_eq_self ha, port_range_eq_shift ha, hm]
  by_cases hr : ports a &&& K.DBG_PORT_READ = 0
  · simp [hr, addr_range]
  · simp [hr, addr_range, open_debugger]

theorem port_write_byte_eq {R σ : Type} (K : DebugMasks) (deref : R → eZ80portrange_t σ)
    (apb_map : List (Option R)) (ports : Nat → Nat) (a v : Nat) (s : Bus R σ) (range : R)
    (ha : a < 0x10000) (hv : v < 0x100) (hf : ports a &&& K.DBG_PORT_FREEZE = 0)
    (hm : apb_map[a >>> 12]? = some (some range)) :
    port_write_byte K deref apb_map ports a v s =
      some { periph := (deref range).write_out (a &&& 0xFFF) v s.periph,
             trace := s.trace ++
               (Effect.write_out range (a &&& 0xFFF) v ::
                 (if ports a &&& K.DBG_PORT_WRITE ≠ 0 then
                    [Effect.open_debugger DebugReason.HIT_PORT_WRITE_BREAKPOINT a]
                  else [])) } := by
  unfold port_write_byte
  simp only [Nat.mod_eq_of_lt ha, Nat.mod_eq_of_lt hv, port_eq_self ha, port_range_eq_shift ha, hm]
  by_cases hw : ports a &&& K.DBG_PORT_WRITE = 0
  · simp [hf, hw, addr_range]
  · simp [hf, hw, addr_range, open_debugger]

theorem port_write_byte_frozen_eq {R σ : Type} (K : DebugMasks) (deref : R → eZ80portrange_t σ)
    (apb_map : List (Option R)) (ports : Nat → Nat) (a v : Nat) (s : Bus R σ)
    (ha : a < 0x10000) (hf : ports a &&& K.DBG_PORT_FREEZE ≠ 0) :
    port_write_byte K deref apb_map ports a v s = some s := by
  unfold port_write_byte
  simp only [Nat.mod_eq_of_lt ha, port_eq_self ha]
  simp [hf]

theorem port_read_byte_some {R σ : Type} {K : DebugMasks} {deref : R → eZ80portrange_t σ}
    {apb_map : List (Option R)} {ports : Nat → Nat} {a : Nat} {s : Bus R σ}
    {x : Nat} {s1 : Bus R σ} (ha : a < 0x10000)
    (h : port_read_byte K deref apb_map ports a s = some (x, s1)) :
    ∃ range, apb_map[a >>> 12]? = some (some range) := by
  unfold port_read_byte at h
  simp only [Nat.mod_eq_of_lt ha, port_range_eq_shift ha] at h
  split at h
  · rename_i range hm
    exact ⟨range, hm⟩
  · simp at h

theorem port_write_byte_some {R σ : Type} {K : DebugMasks} {deref : R → eZ80portrange_t σ}
    {apb_map : List (Option R)} {ports : Nat → Nat} {a v : Nat} {s s1 : Bus R σ}
    (ha : a < 0x10000) (hf : ports a &&& K.DBG_PORT_FREEZE = 0)
    (h : port_write_byte K deref apb_map ports a v s = some s1) :
    ∃ range, apb_map[a >>> 12]? = some (some range) := by
  unfold port_write_byte at h
  simp only [Nat.mod_eq_of_lt ha, port_range_eq_shift ha, port_eq_self ha, hf] at h
  simp only [ne_eq, not_true_eq_false, if_false] at h
  split at h
  · rename_i range hm
    exact ⟨range, hm⟩
  · simp at h

theorem port_read_byte_congr_map {R σ : Type} (K : DebugMasks) (deref : R → eZ80portrange_t σ)
    (m m1 : List (Option R)) (ports : Nat → Nat) (a : Nat) (s : Bus R σ)
    (h : m1[port_range (a % 0x10000)]? = m[port_range (a % 0x10000)]?) :
    port_read_byte K deref m1 ports a s = port_read_byte K deref m ports a s := by
  unfold port_read_byte
  simp only [h]

theorem port_write_byte_congr_map {R σ : Type} (K : DebugMasks) (deref : R → eZ80portrange_t σ)
    (m m1 : List (Option R)) (ports : Nat → Nat) (a v : Nat) (s : Bus R σ)
    (h : m1[port_range (a % 0x10000)]? = m[port_range (a % 0x10000)]?) :
    port_write_byte K deref m1 ports a v s = port_write_byte K deref m ports a v s := by
  unfold port_write_byte
  simp only [h]

theorem port_read_byte_congr_ports {R σ : Type} (K : DebugMasks) (deref : R → eZ80portrange_t σ)
    (m : List (Option R)) (ports ports1 : Nat → Nat) (a : Nat) (s : Bus R σ)
    (h : ports1 (port (a % 0x10000)) = ports (port (a % 0x10000))) :
    port_read_byte K deref m ports1 a s = port_read_byte K deref m ports a s := by
  unfold port_read_byte
  simp only [h]

theorem port_write_byte_congr_ports {R σ : Type} (K : DebugMasks) (deref : R → eZ80portrange_t σ)
    (m : List (Option R)) (ports ports1 : Nat → Nat) (a v : Nat) (s : Bus R σ)
    (h : ports1 (port (a % 0x10000)) = ports (port (a % 0x10000))) :
    port_write_byte K deref m ports1 a v s = port_write_byte K deref m ports a v s := by
  unfold port_write_byte
  simp only [h]

theorem apb_set_map_eq {R : Type} (apb_map : List (Option R)) (r : Nat) (range : Option R)
    (hr : r < 0x10) : apb_set_map apb_map (r : Int) range = some (apb_map.set r range) := by
  unfold apb_set_map
  have h1 : (0 : Int) ≤ (r : Int) ∧ (r : Int) < 0x10 := by omega
  rw [if_pos h1]
  simp

theorem apb_set_map_all_length {R : Type} (calls : List (Nat × Option R))
    (hcalls : ∀ c ∈ calls, c.1 < 0x10) (apb_map : List (Option R)) :
    ∃ m, apb_set_map_all apb_map (calls.map (fun c => ((c.1 : Int), c.2))) = some m ∧
      m.length = apb_map.length := by
  induction calls generalizing apb_map with
  | nil => exact ⟨apb_map, rfl, rfl⟩
  | cons c cs ih =>
      have hc : c.1 < 0x10 := hcalls c (List.mem_cons_self c cs)
      obtain ⟨m, hm, hlen⟩ := ih (fun d hd => hcalls d (List.mem_cons_of_mem c hd))
        (apb_map.set c.1 c.2)
      refine ⟨m, ?_, ?_⟩
      · simp only [List.map_cons, apb_set_map_all, apb_set_map_eq apb_map c.1 c.2 hc]
        exact hm
      · rw [hlen, List.length_set]

/-! ## The dispatcher: reads and writes -/

/-- C1: for a 16-bit port address `a` whose range `a >>> 12` has the handler
`range` registered, `port_read_byte a` returns the value `read_in` of that
handler yields for the offset `a &&& 0xFFF`, leaves the peripheral state that
call produces, and calls a handler exactly once, namely `read_in` of `range`
with that offset; no assumption is made on the monitor flags. -/
theorem port_read_byte_dispatch {R σ : Type} (K : DebugMasks) (deref : R → eZ80portrange_t σ)
    (apb_map : List (Option R)) (ports : Nat → Nat) (a : Nat) (s : Bus R σ) (range : R)
    (ha : a < 0x10000) (hm : apb_map[a >>> 12]? = some (some range)) :
    ∃ s1, port_read_byte K deref apb_map ports a s =
        some (((deref range).read_in (a &&& 0xFFF) s.periph).1, s1) ∧
      s1.periph = ((deref range).read_in (a &&& 0xFFF) s.periph).2 ∧
      (effectsSince s s1).filter Effect.isHandlerCall = [Effect.read_in range (a &&& 0xFFF)] := by
  refine ⟨_, port_read_byte_eq K deref apb_map ports a s range ha hm, rfl, ?_⟩
  rw [effectsSince_append]
  by_cases hr : ports a &&& K.DBG_PORT_READ = 0 <;>
    simp [hr, Effect.isHandlerCall, Effect.handler]

theorem port_read_byte_dispatch_witness :
    (0x3005 < 0x10000 ∧ demoMap[0x3005 >>> 12]? = some (some 0)) ∧
    ∃ s1, port_read_byte demoMasks demoDeref demoMap (fun _ => 1) 0x3005 demoBus =
        some (((demoDeref 0).read_in (0x3005 &&& 0xFFF) demoBus.periph).1, s1) ∧
      s1.periph = ((demoDeref 0).read_in (0x3005 &&& 0xFFF) demoBus.periph).2 ∧
      (effectsSince demoBus s1).filter Effect.isHandlerCall =
        [Effect.read_in 0 (0x3005 &&& 0xFFF)] :=
  ⟨⟨by decide, by decide⟩,
    port_read_byte_dispatch demoMasks demoDeref demoMap (fun _ => 1) 0x3005 demoBus 0
      (by decide) (by decide)⟩

/-- C2: for a 16-bit port address `a` whose FREEZE flag is clear, a byte `v`
and the handler `range` registered for the range `a >>> 12`,
`port_write_byte a v` calls a handler exactly once, namely `write_out` of
`range` with the offset `a &&& 0xFFF` and the value `v`, and leaves the
peripheral state that call produces. -/
theorem port_write_byte_dispatch {R σ : Type} (K : DebugMasks) (deref : R → eZ80portrange_t σ)
    (apb_map : List (Option R)) (ports : Nat → Nat) (a v : Nat) (s : Bus R σ) (range : R)
    (ha : a < 0x10000) (hv : v < 0x100) (hf : ports a &&& K.DBG_PORT_FREEZE = 0)
    (hm : apb_map[a >>> 12]? = some (some range)) :
    ∃ s1, port_write_byte K deref apb_map ports a v s = some s1 ∧
      s1.periph = (deref range).write_out (a &&& 0xFFF) v s.periph ∧
      (effectsSince s s1).filter Effect.isHandlerCall =
        [Effect.write_out range (a &&& 0xFFF) v] := by
  refine ⟨_, port_write_byte_eq K deref apb_map ports a v s range ha hv hf hm, rfl, ?_⟩
  rw [effectsSince_append]
  by_cases hw : ports a &&& K.DBG_PORT_WRITE = 0 <;>
    simp [hw, Effect.isHandlerCall, Effect.handler]

theorem port_write_byte_dispatch_witness :
    (0x3005 < 0x10000 ∧ 0xAB < 0x100 ∧ (fun _ : Nat => 2) 0x3005 &&& demoMasks.DBG_PORT_FREEZE = 0 ∧
      demoMap[0x3005 >>> 12]? = some (some 0)) ∧
    ∃ s1, port_write_byte demoMasks demoDeref demoMap (fun _ => 2) 0x3005 0xAB demoBus = some s1 ∧
      s1.periph = (demoDeref 0).write_out (0x3005 &&& 0xFFF) 0xAB demoBus.periph ∧
      (effectsSince demoBus s1).filter Effect.isHandlerCall =
        [Effect.write_out 0 (0x3005 &&& 0xFFF) 0xAB] :=
  ⟨⟨by decide, by decide, by decide, by decide⟩,
    port_write_byte_dispatch demoMasks demoDeref demoMap (fun _ => 2) 0x3005 0xAB demoBus 0
      (by decide) (by decide) (by decide) (by decide)⟩

/-- C3: for a 16-bit port `a` whose FREEZE flag is set, `port_write_byte a v`
returns with the bus exactly as it was, whatever the range map holds: no
handler is called, the peripheral state is the one before the call, and so
every handler read of every offset gives afterwards what it gave before. -/
theorem port_write_byte_frozen_no_handler {R σ : Type} (K : DebugMasks)
    (deref : R → eZ80portrange_t σ) (apb_map : List (Option R)) (ports : Nat → Nat)
    (a v : Nat) (s : Bus R σ) (ha : a < 0x10000) (hf : ports a &&& K.DBG_PORT_FREEZE ≠ 0) :
    ∃ s1, port_write_byte K deref apb_map ports a v s = some s1 ∧
      (effectsSince s s1).filter Effect.isHandlerCall = [] ∧
      s1.periph = s.periph ∧
      ∀ (range : R) (off : Nat),
        (deref range).read_in off s1.periph = (deref range).read_in off s.periph := by
  refine ⟨s, port_write_byte_frozen_eq K deref apb_map ports a v s ha hf, ?_, rfl, ?_⟩
  · simp [effectsSince_self]
  · intro range off
    rfl

theorem port_write_byte_frozen_no_handler_witness :
    (0x3005 < 0x10000 ∧ (fun _ : Nat => 4) 0x3005 &&& demoMasks.DBG_PORT_FREEZE ≠ 0) ∧
    ∃ s1, port_write_byte demoMasks demoDeref demoMap (fun _ => 4) 0x3005 0xAB demoBus = some s1 ∧
      (effectsSince demoBus s1).filter Effect.isHandlerCall = [] ∧
      s1.periph = demoBus.periph ∧
      ∀ (range : Nat) (off : Nat),
        (demoDeref range).read_in off s1.periph = (demoDeref range).read_in off demoBus.periph :=
  ⟨⟨by decide, by decide⟩,
    port_write_byte_frozen_no_handler demoMasks demoDeref demoMap (fun _ => 4) 0x3005 0xAB demoBus
      (by decide) (by decide)⟩

/-- C4: for a 16-bit port `a` whose FREEZE flag is set, `port_write_byte a v`
calls `open_debugger` not at all, so no port-write-breakpoint event is raised;
nothing is assumed on the WRITE flag, which may be set together with FREEZE. -/
theorem port_write_byte_frozen_no_event {R σ : Type} (K : DebugMasks)
    (deref : R → eZ80portrange_t σ) (apb_map : List (Option R)) (ports : Nat → Nat)
    (a v : Nat) (s : Bus R σ) (ha : a < 0x10000) (hf : ports a &&& K.DBG_PORT_FREEZE ≠ 0) :
    ∃ s1, port_write_byte K deref apb_map ports a v s = some s1 ∧
      (effectsSince s s1).filter Effect.isDebuggerCall = [] ∧
      ∀ p, Effect.open_debugger DebugReason.HIT_PORT_WRITE_BREAKPOINT p ∉ effectsSince s s1 := by
  refine ⟨s, port_write_byte_frozen_eq K deref apb_map ports a v s ha hf, ?_, ?_⟩
  · simp [effectsSince_self]
  · intro p
    simp [effectsSince_self]

theorem port_write_byte_frozen_no_event_witness :
    (0x3005 < 0x10000 ∧ (fun _ : Nat => 6) 0x3005 &&& demoMasks.DBG_PORT_FREEZE ≠ 0 ∧
      (fun _ : Nat => 6) 0x3005 &&& demoMasks.DBG_PORT_WRITE ≠ 0) ∧
    ∃ s1, port_write_byte demoMasks demoDeref demoMap (fun _ => 6) 0x3005 0xAB demoBus = some s1 ∧
      (effectsSince demoBus s1).filter Effect.isDebuggerCall = [] ∧
      ∀ p, Effect.open_debugger DebugReason.HIT_PORT_WRITE_BREAKPOINT p ∉
        effectsSince demoBus s1 :=
  ⟨⟨by decide, by decide, by decide⟩,
    port_write_byte_frozen_no_event demoMasks demoDeref demoMap (fun _ => 6) 0x3005 0xAB demoBus
      (by decide) (by decide)⟩

/-- C5: for a 16-bit port `a` whose FREEZE flag is clear, `port_write_byte a v`
raises `HIT_PORT_WRITE_BREAKPOINT` carrying `a` if and only if the WRITE flag of
`a` is set.  The effects of the call are the handler's `write_out` followed, when
WRITE is set, by that one event and nothing else: the event is raised once and
after the write. -/
theorem port_write_byte_event_iff {R σ : Type} (K : DebugMasks) (deref : R → eZ80portrange_t σ)
    (apb_map : List (Option R)) (ports : Nat → Nat) (a v : Nat) (s : Bus R σ) (range : R)
    (ha : a < 0x10000) (hv : v < 0x100) (hf : ports a &&& K.DBG_PORT_FREEZE = 0)
    (hm : apb_map[a >>> 12]? = some (some range)) :
    ∃ s1, port_write_byte K deref apb_map ports a v s = some s1 ∧
      (Effect.open_debugger DebugReason.HIT_PORT_WRITE_BREAKPOINT a ∈ effectsSince s s1 ↔
        ports a &&& K.DBG_PORT_WRITE ≠ 0) ∧
      effectsSince s s1 =
        Effect.write_out range (a &&& 0xFFF) v ::
          (if ports a &&& K.DBG_PORT_WRITE ≠ 0 then
            [Effect.open_debugger DebugReason.HIT_PORT_WRITE_BREAKPOINT a]
          else []) := by
  refine ⟨_, port_write_byte_eq K deref apb_map ports a v s range ha hv hf hm, ?_, ?_⟩
  · rw [effectsSince_append]
    by_cases hw : ports a &&& K.DBG_PORT_WRITE = 0 <;> simp [hw]
  · rw [effectsSince_append]

theorem port_write_byte_event_iff_witness :
    (0x3005 < 0x10000 ∧ 0xAB < 0x100 ∧ (fun _ : Nat => 2) 0x3005 &&& demoMasks.DBG_PORT_FREEZE = 0 ∧
      demoMap[0x3005 >>> 12]? = some (some 0)) ∧
    ∃ s1, port_write_byte demoMasks demoDeref demoMap (fun _ => 2) 0x3005 0xAB demoBus = some s1 ∧
      (Effect.open_debugger DebugReason.HIT_PORT_WRITE_BREAKPOINT 0x3005 ∈ effectsSince demoBus s1 ↔
        (fun _ : Nat => 2) 0x3005 &&& demoMasks.DBG_PORT_WRITE ≠ 0) ∧
      effectsSince demoBus s1 =
        Effect.write_out 0 (0x3005 &&& 0xFFF) 0xAB ::
          (if (fun _ : Nat => 2) 0x3005 &&& demoMasks.DBG_PORT_WRITE ≠ 0 then
            [Effect.open_debugger DebugReason.HIT_PORT_WRITE_BREAKPOINT 0x3005]
          else []) :=
  ⟨⟨by decide, by decide, by decide, by decide⟩,
    port_write_byte_event_iff demoMasks demoDeref demoMap (fun _ => 2) 0x3005 0xAB demoBus 0
      (by decide) (by decide) (by decide) (by decide)⟩

/-- C6, as the code has it: for a 16-bit port `a` with the handler `range`
registered for its range, the effects of `port_read_byte a` are, when the READ
flag of `a` is set, first one `open_debugger` call with
`HIT_PORT_READ_BREAKPOINT` and the port id `a` and then the handler's `read_in`,
whose value is returned; when the READ flag is clear the only effect is the
handler's `read_in`, and no event is raised. -/
theorem port_read_byte_event_then_read {R σ : Type} (K : DebugMasks)
    (deref : R → eZ80portrange_t σ) (apb_map : List (Option R)) (ports : Nat → Nat)
    (a : Nat) (s : Bus R σ) (range : R)
    (ha : a < 0x10000) (hm : apb_map[a >>> 12]? = some (some range)) :
    ∃ s1, port_read_byte K deref apb_map ports a s =
        some (((deref range).read_in (a &&& 0xFFF) s.periph).1, s1) ∧
      (ports a &&& K.DBG_PORT_READ ≠ 0 →
        effectsSince s s1 =
          [Effect.open_debugger DebugReason.HIT_PORT_READ_BREAKPOINT a,
           Effect.read_in range (a &&& 0xFFF)]) ∧
      (ports a &&& K.DBG_PORT_READ = 0 →
        effectsSince s s1 = [Effect.read_in range (a &&& 0xFFF)]) := by
  refine ⟨_, port_read_byte_eq K deref apb_map ports a s range ha hm, ?_, ?_⟩
  · intro hr
    rw [effectsSince_append]
    simp [hr]
  · intro hr
    rw [effectsSince_append]
    simp [hr]

theorem port_read_byte_event_then_read_witness :
    (0x3005 < 0x10000 ∧ demoMap[0x3005 >>> 12]? = some (some 0) ∧
      (fun _ : Nat => 1) 0x3005 &&& demoMasks.DBG_PORT_READ ≠ 0) ∧
    ∃ s1, port_read_byte demoMasks demoDeref demoMap (fun _ => 1) 0x3005 demoBus =
        some (((demoDeref 0).read_in (0x3005 &&& 0xFFF) demoBus.periph).1, s1) ∧
      effectsSince demoBus s1 =
        [Effect.open_debugger DebugReason.HIT_PORT_READ_BREAKPOINT 0x3005,
         Effect.read_in 0 (0x3005 &&& 0xFFF)] :=
  ⟨⟨by decide, by decide, by decide⟩,
    (port_read_byte_event_then_read demoMasks demoDeref demoMap (fun _ => 1) 0x3005 demoBus 0
      (by decide) (by decide)).elim
      (fun s1 h => ⟨s1, h.1, h.2.1 (by decide)⟩)⟩

/-- C6, as stated, fails: on port `0x3005` with the READ flag set, the call of
`port_read_byte` returns the handler's byte with the `open_debugger` call first
in the sequence of its effects and the handler's `read_in` second, so the read
does not precede the notification. -/
theorem port_read_byte_read_not_first :
    (fun _ : Nat => 1) 0x3005 &&& demoMasks.DBG_PORT_READ ≠ 0 ∧
    (port_read_byte demoMasks demoDeref demoMap (fun _ => 1) 0x3005 demoBus).map
        (fun r => (r.1, effectsSince demoBus r.2)) =
      some (12, [Effect.open_debugger DebugReason.HIT_PORT_READ_BREAKPOINT 0x3005,
                 Effect.read_in 0 5]) ∧
    (port_read_byte demoMasks demoDeref demoMap (fun _ => 1) 0x3005 demoBus).map
        (fun r => decide ((effectsSince demoBus r.2).indexOf (Effect.read_in 0 5) <
          (effectsSince demoBus r.2).indexOf
            (Effect.open_debugger DebugReason.HIT_PORT_READ_BREAKPOINT 0x3005))) =
      some false := by
  refine ⟨by decide, by decide, by decide⟩

/-! ## The range map -/

/-- C7: after `apb_set_map r h` with `r` in `0 .. 15`, a read and a non-frozen
write of a 16-bit port whose top four bits are `r` call `read_in` and
`write_out` of `h` and no other handler; an access to a port of another range
behaves exactly as with the map before the call; and whatever call through a
handler an access performs, that handler is the one the map holds for the
port's own range. -/
theorem apb_set_map_isolation {R σ : Type} (K : DebugMasks) (deref : R → eZ80portrange_t σ)
    (apb_map : List (Option R)) (ports : Nat → Nat) (r : Nat) (h : R) (a v : Nat) (s : Bus R σ)
    (hlen : apb_map.length = 0x10) (hr : r < 0x10) (ha : a < 0x10000) (hv : v < 0x100) :
    ∃ m1, apb_set_map apb_map (r : Int) (some h) = some m1 ∧
      (a >>> 12 = r →
        (∃ s1, port_read_byte K deref m1 ports a s =
            some (((deref h).read_in (a &&& 0xFFF) s.periph).1, s1) ∧
          s1.periph = ((deref h).read_in (a &&& 0xFFF) s.periph).2 ∧
          (effectsSince s s1).filter Effect.isHandlerCall = [Effect.read_in h (a &&& 0xFFF)]) ∧
        (ports a &&& K.DBG_PORT_FREEZE = 0 →
          ∃ s1, port_write_byte K deref m1 ports a v s = some s1 ∧
            s1.periph = (deref h).write_out (a &&& 0xFFF) v s.periph ∧
            (effectsSince s s1).filter Effect.isHandlerCall =
              [Effect.write_out h (a &&& 0xFFF) v])) ∧
      (a >>> 12 ≠ r →
        port_read_byte K deref m1 ports a s = port_read_byte K deref apb_map ports a s ∧
        port_write_byte K deref m1 ports a v s = port_write_byte K deref apb_map ports a v s) ∧
      (∀ x s1 e g, port_read_byte K deref m1 ports a s = some (x, s1) →
        e ∈ effectsSince s s1 → e.handler = some g → m1[a >>> 12]? = some (some g)) ∧
      (∀ s1 e g, port_write_byte K deref m1 ports a v s = some s1 →
        e ∈ effectsSince s s1 → e.handler = some g → m1[a >>> 12]? = some (some g)) := by
  refine ⟨apb_map.set r (some h), apb_set_map_eq apb_map r (some h) hr, ?_, ?_, ?_, ?_⟩
  · intro hra
    have hm : (apb_map.set r (some h))[a >>> 12]? = some (some h) := by
      rw [hra, List.getElem?_set]
      simp [hlen, hr]
    refine ⟨?_, ?_⟩
    · refine ⟨_, port_read_byte_eq K deref _ ports a s h ha hm, rfl, ?_⟩
      rw [effectsSince_append]
      by_cases hrd : ports a &&& K.DBG_PORT_READ = 0 <;>
        simp [hrd, Effect.isHandlerCall, Effect.handler]
    · intro hf
      refine ⟨_, port_write_byte_eq K deref _ ports a v s h ha hv hf hm, rfl, ?_⟩
      rw [effectsSince_append]
      by_cases hw : ports a &&& K.DBG_PORT_WRITE = 0 <;>
        simp [hw, Effect.isHandlerCall, Effect.handler]
  · intro hra
    have hm : (apb_map.set r (some h))[port_range (a % 0x10000)]? =
        apb_map[port_range (a % 0x10000)]? := by
      rw [Nat.mod_eq_of_lt ha, port_range_eq_shift ha, List.getElem?_set]
      simp [Ne.symm hra]
    exact ⟨port_read_byte_congr_map K deref apb_map _ ports a s hm,
      port_write_byte_congr_map K deref apb_map _ ports a v s hm⟩
  · intro x s1 e g hres he hg
    obtain ⟨range, hm⟩ := port_read_byte_some ha hres
    rw [port_read_byte_eq K deref _ ports a s range ha hm] at hres
    simp only [Option.some.injEq, Prod.mk.injEq] at hres
    rw [← hres.2, effectsSince_append] at he
    rw [hm]
    by_cases hrd : ports a &&& K.DBG_PORT_READ = 0
    · simp [hrd] at he
      subst he
      simp [Effect.handler] at hg
      simp [hg]
    · simp [hrd] at he
      rcases he with he | he
      · subst he
        simp [Effect.handler] at hg
      · subst he
        simp [Effect.handler] at hg
        simp [hg]
  · intro s1 e g hres he hg
    by_cases hf : ports a &&& K.DBG_PORT_FREEZE = 0
    · obtain ⟨range, hm⟩ := port_write_byte_some ha hf hres
      rw [port_write_byte_eq K deref _ ports a v s range ha hv hf hm] at hres
      simp only [Option.some.injEq] at hres
      rw [← hres, effectsSince_append] at he
      rw [hm]
      by_cases hw : ports a &&& K.DBG_PORT_WRITE = 0
      · simp [hw] at he
        subst he
        simp [Effect.handler] at hg
        simp [hg]
      · simp [hw] at he
        rcases he with he | he
        · subst he
          simp [Effect.handler] at hg
          simp [hg]
        · subst he
          simp [Effect.handler] at hg
    · rw [port_write_byte_frozen_eq K deref _ ports a v s ha hf] at hres
      simp only [Option.some.injEq] at hres
      rw [← hres, effectsSince_self] at he
      simp at he

theorem apb_set_map_isolation_witness :
    (demoMap.length = 0x10 ∧ 2 < 0x10 ∧ 0x2010 < 0x10000 ∧ 0xAB < 0x100) ∧
    ∃ m1, apb_set_map demoMap ((2 : Nat) : Int) (some 0) = some m1 ∧
      (0x2010 >>> 12 = 2 →
        (∃ s1, port_read_byte demoMasks demoDeref m1 (fun _ => 3) 0x2010 demoBus =
            some (((demoDeref 0).read_in (0x2010 &&& 0xFFF) demoBus.periph).1, s1) ∧
          s1.periph = ((demoDeref 0).read_in (0x2010 &&& 0xFFF) demoBus.periph).2 ∧
          (effectsSince demoBus s1).filter Effect.isHandlerCall =
            [Effect.read_in 0 (0x2010 &&& 0xFFF)]) ∧
        ((fun _ : Nat => 3) 0x2010 &&& demoMasks.DBG_PORT_FREEZE = 0 →
          ∃ s1, port_write_byte demoMasks demoDeref m1 (fun _ => 3) 0x2010 0xAB demoBus = some s1 ∧
            s1.periph = (demoDeref 0).write_out (0x2010 &&& 0xFFF) 0xAB demoBus.periph ∧
            (effectsSince demoBus s1).filter Effect.isHandlerCall =
              [Effect.write_out 0 (0x2010 &&& 0xFFF) 0xAB])) ∧
      (0x2010 >>> 12 ≠ 2 →
        port_read_byte demoMasks demoDeref m1 (fun _ => 3) 0x2010 demoBus =
          port_read_byte demoMasks demoDeref demoMap (fun _ => 3) 0x2010 demoBus ∧
        port_write_byte demoMasks demoDeref m1 (fun _ => 3) 0x2010 0xAB demoBus =
          port_write_byte demoMasks demoDeref demoMap (fun _ => 3) 0x2010 0xAB demoBus) ∧
      (∀ x s1 e g, port_read_byte demoMasks demoDeref m1 (fun _ => 3) 0x2010 demoBus = some (x, s1) →
        e ∈ effectsSince demoBus s1 → e.handler = some g → m1[0x2010 >>> 12]? = some (some g)) ∧
      (∀ s1 e g, port_write_byte demoMasks demoDeref m1 (fun _ => 3) 0x2010 0xAB demoBus = some s1 →
        e ∈ effectsSince demoBus s1 → e.handler = some g → m1[0x2010 >>> 12]? = some (some g)) :=
  ⟨⟨by decide, by decide, by decide, by decide⟩,
    apb_set_map_isolation demoMasks demoDeref demoMap (fun _ => 3) 2 0 0x2010 0xAB demoBus
      (by decide) (by decide) (by decide) (by decide)⟩

/-- C8: on a map of sixteen entries and for `r` in `0 .. 15`, `apb_set_map r range`
makes entry `r` equal to `range`, leaves every other entry as it was and keeps
the number of entries at sixteen; and any sequence of such calls, each with a
selector in `0 .. 15`, ends in a map of sixteen entries. -/
theorem apb_set_map_entries {R : Type} (apb_map : List (Option R)) (r : Nat) (range : Option R)
    (calls : List (Nat × Option R)) (hlen : apb_map.length = 0x10) (hr : r < 0x10)
    (hcalls : ∀ c ∈ calls, c.1 < 0x10) :
    (∃ m1, apb_set_map apb_map (r : Int) range = some m1 ∧
      m1[r]? = some range ∧ (∀ j, j ≠ r → m1[j]? = apb_map[j]?) ∧ m1.length = 0x10) ∧
    (∃ m2, apb_set_map_all apb_map (calls.map (fun c => ((c.1 : Int), c.2))) = some m2 ∧
      m2.length = 0x10) := by
  refine ⟨⟨apb_map.set r range, apb_set_map_eq apb_map r range hr, ?_, ?_, ?_⟩, ?_⟩
  · rw [List.getElem?_set]
    simp [hlen, hr]
  · intro j hj
    rw [List.getElem?_set]
    simp [Ne.symm hj]
  · rw [List.length_set, hlen]
  · obtain ⟨m, hm, hl⟩ := apb_set_map_all_length calls hcalls apb_map
    exact ⟨m, hm, hl.trans hlen⟩

theorem apb_set_map_entries_witness :
    ((apb_map_init Nat).length = 0x10 ∧ 3 < 0x10 ∧
      ∀ c ∈ [((3 : Nat), some (0 : Nat)), (0, some 1), (3, some 1), (15, none)], c.1 < 0x10) ∧
    (∃ m1, apb_set_map (apb_map_init Nat) ((3 : Nat) : Int) (some 0) = some m1 ∧
      m1[3]? = some (some 0) ∧ (∀ j, j ≠ 3 → m1[j]? = (apb_map_init Nat)[j]?) ∧
      m1.length = 0x10) ∧
    (∃ m2, apb_set_map_all (apb_map_init Nat)
        ([((3 : Nat), some (0 : Nat)), (0, some 1), (3, some 1), (15, none)].map
          (fun c => ((c.1 : Int), c.2))) = some m2 ∧
      m2.length = 0x10) :=
  ⟨⟨by decide, by decide, by decide⟩,
    apb_set_map_entries (apb_map_init Nat) 3 (some 0)
      [((3 : Nat), some (0 : Nat)), (0, some 1), (3, some 1), (15, none)]
      (by decide) (by decide) (by decide)⟩

/-- C9: with a map of sixteen entries that all hold a handler, `port_read_byte a`
and `port_write_byte a v` return a result for every address and value (the
parameters are converted to 16 and 8 bits): the selector computed from the
address is below sixteen, hence below the number of entries, and the entry
found there is not null. -/
theorem port_access_total {R σ : Type} (K : DebugMasks) (deref : R → eZ80portrange_t σ)
    (apb_map : List (Option R)) (ports : Nat → Nat) (a v : Nat) (s : Bus R σ)
    (hlen : apb_map.length = 0x10)
    (htotal : ∀ i, i < 0x10 → ∃ g, apb_map[i]? = some (some g)) :
    port_range (a % 0x10000) < apb_map.length ∧
    (port_read_byte K deref apb_map ports a s).isSome = true ∧
    (port_write_byte K deref apb_map ports a v s).isSome = true := by
  obtain ⟨g, hg⟩ := htotal (port_range (a % 0x10000)) (port_range_lt _)
  refine ⟨by rw [hlen]; exact port_range_lt _, ?_, ?_⟩
  · unfold port_read_byte
    simp only [hg]
    rfl
  · unfold port_write_byte
    simp only [hg]
    by_cases hf : ports (port (a % 0x10000)) &&& K.DBG_PORT_FREEZE = 0
    · by_cases hw : ports (port (a % 0x10000)) &&& K.DBG_PORT_WRITE = 0 <;> simp [hf, hw]
    · simp [hf]

theorem port_access_total_witness :
    (demoMap.length = 0x10 ∧ ∀ i, i < 0x10 → ∃ g, demoMap[i]? = some (some g)) ∧
    port_range (0xF3005 % 0x10000) < demoMap.length ∧
    (port_read_byte demoMasks demoDeref demoMap (fun _ => 3) 0xF3005 demoBus).isSome = true ∧
    (port_write_byte demoMasks demoDeref demoMap (fun _ => 3) 0xF3005 0x1AB demoBus).isSome = true :=
  ⟨⟨by decide, fun i hi => by interval_cases i <;> exact ⟨_, rfl⟩⟩,
    port_access_total demoMasks demoDeref demoMap (fun _ => 3) 0xF3005 0x1AB demoBus
      (by decide) (fun i hi => by interval_cases i <;> exact ⟨_, rfl⟩)⟩

/-- C10: for a 16-bit address `a` the port id `(port_range a << 12) | addr_range a`
is `a` itself.  Hence two flag tables that agree at `a` give the same result for
a read and for a write of `a`, whatever they hold for other port ids, and every
`open_debugger` call of such an access carries the port id `a`. -/
theorem port_id_is_addr {R σ : Type} (K : DebugMasks) (deref : R → eZ80portrange_t σ)
    (apb_map : List (Option R)) (ports ports1 : Nat → Nat) (a v : Nat) (s : Bus R σ)
    (ha : a < 0x10000) (hq : ports1 a = ports a) :
    port a = a ∧
    port_read_byte K deref apb_map ports1 a s = port_read_byte K deref apb_map ports a s ∧
    port_write_byte K deref apb_map ports1 a v s = port_write_byte K deref apb_map ports a v s ∧
    (∀ x s1 reason p, port_read_byte K deref apb_map ports a s = some (x, s1) →
      Effect.open_debugger reason p ∈ effectsSince s s1 → p = a) ∧
    (∀ s1 reason p, port_write_byte K deref apb_map ports a v s = some s1 →
      Effect.open_debugger reason p ∈ effectsSince s s1 → p = a) := by
  have hp : port (a % 0x10000) = a := by rw [Nat.mod_eq_of_lt ha, port_eq_self ha]
  refine ⟨port_eq_self ha, ?_, ?_, ?_, ?_⟩
  · exact port_read_byte_congr_ports K deref apb_map ports ports1 a s (by rw [hp]; exact hq)
  · exact port_write_byte_congr_ports K deref apb_map ports ports1 a v s (by rw [hp]; exact hq)
  · intro x s1 reason p hres he
    obtain ⟨range, hm⟩ := port_read_byte_some ha hres
    rw [port_read_byte_eq K deref _ ports a s range ha hm] at hres
    simp only [Option.some.injEq, Prod.mk.injEq] at hres
    rw [← hres.2, effectsSince_append] at he
    by_cases hrd : ports a &&& K.DBG_PORT_READ = 0
    · simp [hrd] at he
    · simp [hrd] at he
      exact he.2
  · intro s1 reason p hres he
    unfold port_write_byte at hres
    simp only [hp] at hres
    by_cases hf : ports a &&& K.DBG_PORT_FREEZE = 0
    · simp only [hf, ne_eq, not_true_eq_false, if_false] at hres
      split at hres
      · by_cases hw : ports a &&& K.DBG_PORT_WRITE = 0
        · simp [hw] at hres
          rw [← hres, effectsSince_append] at he
          simp at he
        · simp [hw, open_debugger] at hres
          rw [← hres] at he
          simp [effectsSince] at he
          exact he.2
      · simp at hres
    · simp [hf] at hres
      rw [← hres, effectsSince_self] at he
      simp at he

theorem port_id_is_addr_witness :
    (0x3005 < 0x10000 ∧
      (fun q : Nat => if q = 0x3005 then 3 else 7) 0x3005 =
        (fun q : Nat => if q = 0x3005 then 3 else 0) 0x3005) ∧
    port 0x3005 = 0x3005 ∧
    port_read_byte demoMasks demoDeref demoMap (fun q => if q = 0x3005 then 3 else 7) 0x3005 demoBus =
      port_read_byte demoMasks demoDeref demoMap (fun q => if q = 0x3005 then 3 else 0)
        0x3005 demoBus ∧
    port_write_byte demoMasks demoDeref demoMap (fun q => if q = 0x3005 then 3 else 7)
        0x3005 0xAB demoBus =
      port_write_byte demoMasks demoDeref demoMap (fun q => if q = 0x3005 then 3 else 0)
        0x3005 0xAB demoBus :=
  ⟨⟨by decide, by decide⟩,
    (port_id_is_addr demoMasks demoDeref demoMap (fun q => if q = 0x3005 then 3 else 0)
      (fun q => if q = 0x3005 then 3 else 7) 0x3005 0xAB demoBus (by decide) (by decide)).1,
    (port_id_is_addr demoMasks demoDeref demoMap (fun q => if q = 0x3005 then 3 else 0)
      (fun q => if q = 0x3005 then 3 else 7) 0x3005 0xAB demoBus (by decide) (by decide)).2.1,
    (port_id_is_addr demoMasks demoDeref demoMap (fun q => if q = 0x3005 then 3 else 0)
      (fun q => if q = 0x3005 then 3 else 7) 0x3005 0xAB demoBus (by decide) (by decide)).2.2.1⟩

/-! ## The breakpoint table -/

theorem addBreakpoint_loop_some (a : QString) (hne : a ≠ "000000".toList) :
    ∀ (rows : List BreakRow) (i0 : Nat), (∃ r ∈ rows, r.address = a) →
      ∃ i, addBreakpoint_loop a rows i0 = some i ∧ i0 ≤ i ∧
        (rows[i - i0]?).map BreakRow.address = some a := by
  intro rows
  induction rows with
  | nil => intro i0 h; simp at h
  | cons r rs ih =>
      intro i0 h
      by_cases hr : r.address = a
      · exact ⟨i0, by rw [addBreakpoint_loop, if_pos hr, if_pos hne], le_refl _, by simp [hr]⟩
      · have h1 : ∃ x ∈ rs, x.address = a := by
          obtain ⟨x, hx, hxa⟩ := h
          rcases List.mem_cons.mp hx with hx | hx
          · exact absurd (hx ▸ hxa) hr
          · exact ⟨x, hx, hxa⟩
        obtain ⟨i, hi, hle, hget⟩ := ih (i0 + 1) h1
        refine ⟨i, by rw [addBreakpoint_loop, if_neg hr]; exact hi, by omega, ?_⟩
        have : i - i0 = (i - (i0 + 1)) + 1 := by omega
        rw [this, List.getElem?_cons_succ]
        exact hget

theorem addBreakpoint_loop_none (a : QString) :
    ∀ (rows : List BreakRow) (i0 : Nat),
      (a = "000000".toList ∨ ∀ r ∈ rows, r.address ≠ a) →
      addBreakpoint_loop a rows i0 = none := by
  intro rows
  induction rows with
  | nil => intro i0 _; rfl
  | cons r rs ih =>
      intro i0 h
      rcases h with h | h
      · rw [addBreakpoint_loop]
        split
        · rw [if_neg (not_not.mpr h)]
          exact ih (i0 + 1) (Or.inl h)
        · exact ih (i0 + 1) (Or.inl h)
      · have hr : r.address ≠ a := h r (List.mem_cons_self r rs)
        rw [addBreakpoint_loop, if_neg hr]
        exact ih (i0 + 1) (Or.inr (fun x hx => h x (List.mem_cons_of_mem r hx)))

/-- C11, as the code has it: when the pending address string is hexadecimal, its
six-digit text is not `000000` and some row of the table carries that text,
`addBreakpoint` returns false, selects such a row, adds no row and makes no
call (so no `debug_breakpoint_set`).  The text `000000` is exempt from the
check. -/
theorem addBreakpoint_duplicate (D : DebugConsts) (w : MainWindow) (v : Int)
    (hcur : w.currBreakpointAddress ≠ [])
    (hhex : find_first_not_of (toUpper w.currBreakpointAddress) hexChars = none)
    (hv : hex2int (toUpper w.currBreakpointAddress) = some v)
    (hin : ∃ r ∈ w.breakpointView, r.address = int2hex (toUInt32 v) 6)
    (hne : int2hex (toUInt32 v) 6 ≠ "000000".toList) :
    ∃ i w1, addBreakpoint D w = some (false, w1) ∧
      w1 = { w with breakpointViewRow := some i } ∧
      w1.breakpointView = w.breakpointView ∧ callsSince w w1 = [] ∧
      (w.breakpointView[i]?).map BreakRow.address = some (int2hex (toUInt32 v) 6) := by
  obtain ⟨i, hi, _, hget⟩ := addBreakpoint_loop_some _ hne w.breakpointView 0 hin
  have he : w.currBreakpointAddress.isEmpty = false := by
    cases hc : w.currBreakpointAddress with
    | nil => exact absurd hc hcur
    | cons c cs => rfl
  refine ⟨i, { w with breakpointViewRow := some i }, ?_, rfl, rfl, ?_, by simpa using hget⟩
  · unfold addBreakpoint
    simp [he, hhex, hv, hi]
  · simp [callsSince]

theorem addBreakpoint_duplicate_witness :
    ("10".toList ≠ [] ∧ find_first_not_of (toUpper "10".toList) hexChars = none ∧
      hex2int (toUpper "10".toList) = some 16 ∧
      int2hex (toUInt32 16) 6 ≠ "000000".toList) ∧
    ∃ i w1,
      addBreakpoint demoConsts
        { MainWindow.start with
          currBreakpointAddress := "10".toList,
          breakpointView := [⟨"000020".toList, false, true, false⟩,
                             ⟨"000010".toList, false, false, true⟩] } = some (false, w1) ∧
      w1 = { ({ MainWindow.start with
          currBreakpointAddress := "10".toList,
          breakpointView := [⟨"000020".toList, false, true, false⟩,
                             ⟨"000010".toList, false, false, true⟩] } : MainWindow) with
          breakpointViewRow := some i } ∧
      w1.breakpointView = [⟨"000020".toList, false, true, false⟩,
                           ⟨"000010".toList, false, false, true⟩] ∧
      callsSince { MainWindow.start with
          currBreakpointAddress := "10".toList,
          breakpointView := [⟨"000020".toList, false, true, false⟩,
                             ⟨"000010".toList, false, false, true⟩] } w1 = [] ∧
      (([⟨"000020".toList, false, true, false⟩,
         ⟨"000010".toList, false, false, true⟩] : List BreakRow)[i]?).map BreakRow.address =
        some (int2hex (toUInt32 16) 6) :=
  ⟨⟨by decide, by decide, by decide, by decide⟩,
    addBreakpoint_duplicate demoConsts
      { MainWindow.start with
        currBreakpointAddress := "10".toList,
        breakpointView := [⟨"000020".toList, false, true, false⟩,
                           ⟨"000010".toList, false, false, true⟩] } 16
      (by decide) (by decide) (by decide)
      ⟨⟨"000010".toList, false, false, true⟩, by decide, by decide⟩ (by decide)⟩

/-- C11, as stated, fails: with one row `000000` in the table and nothing
pending (the address then is `000000`), `addBreakpoint` returns true, appends a
second row `000000` and calls `debug_breakpoint_set(0, DBG_EXEC_BREAKPOINT, true)`. -/
theorem addBreakpoint_zero_twice :
    (addBreakpoint demoConsts
        { MainWindow.start with breakpointView := [⟨"000000".toList, false, false, true⟩] }).map
      (fun r => (r.1, r.2.breakpointView.map BreakRow.address, r.2.calls)) =
    some (true, ["000000".toList, "000000".toList],
      [Call.debug_breakpoint_set 0 demoConsts.DBG_EXEC_BREAKPOINT true,
       Call.updateDisasmView 0 true]) := by
  decide

theorem addPort_loop_false (a : QString) :
    ∀ (rows : List PortRow), (a = "0000".toList ∨ ∀ r ∈ rows, r.port ≠ a) →
      addPort_loop a rows = false := by
  intro rows
  induction rows with
  | nil => intro _; rfl
  | cons r rs ih =>
      intro h
      rcases h with h | h
      · rw [addPort_loop]
        split
        · rw [if_neg (not_not.mpr h)]
          exact ih (Or.inl h)
        · exact ih (Or.inl h)
      · have hr : r.port ≠ a := h r (List.mem_cons_self r rs)
        rw [addPort_loop, if_neg hr]
        exact ih (Or.inr (fun x hx => h x (List.mem_cons_of_mem r hx)))

theorem isEmpty_eq_false_of_ne_nil {s : QString} (h : s ≠ []) : s.isEmpty = false := by
  cases s with
  | nil => exact absurd rfl h
  | cons c cs => rfl

/-- C13, as the code has it: neither function checks the range of the id.  A
pending hexadecimal breakpoint address above `0xFFFFFF` whose six-character
text is in no row is given a row by `addBreakpoint`, which calls
`debug_breakpoint_set(address, DBG_EXEC_BREAKPOINT, true)` and returns true,
whatever the pending port id is; a pending hexadecimal port id above `0xFFFF`
is converted to 16 bits by `addPort`, which reads that port and, when its
four-digit text is in no row, appends a row for it, whatever the pending
breakpoint address is. -/
theorem add_out_of_range_accepted (D : DebugConsts) (portRead : Nat → Nat) (w : MainWindow) :
    (∀ v : Int, w.currBreakpointAddress ≠ [] →
      find_first_not_of (toUpper w.currBreakpointAddress) hexChars = none →
      hex2int (toUpper w.currBreakpointAddress) = some v → 0xFFFFFF < v →
      (∀ r ∈ w.breakpointView, r.address ≠ int2hex (toUInt32 v) 6) →
      ∃ w1, addBreakpoint D w = some (true, w1) ∧
        w1.breakpointView =
          w.breakpointView ++ [⟨w.currBreakpointAddress, false, false, true⟩] ∧
        callsSince w w1 =
          [Call.debug_breakpoint_set (toUInt32 v) D.DBG_EXEC_BREAKPOINT true,
           Call.updateDisasmView (toUInt32 v) true]) ∧
    (∀ u : Int, w.currPortAddress ≠ [] →
      find_first_not_of (toUpper w.currPortAddress) hexChars = none →
      hex2int (toUpper w.currPortAddress) = some u → 0xFFFF < u →
      (∀ r ∈ w.portView, r.port ≠ int2hex (toUInt16 u) 4) →
      ∃ w2, addPort portRead w = some w2 ∧
        w2.portView =
          w.portView ++ [⟨int2hex (toUInt16 u) 4, int2hex (portRead (toUInt16 u) % 256) 2,
                          false, false, false⟩] ∧
        callsSince w w2 = [Call.debug_port_read_byte (toUInt16 u)]) := by
  constructor
  · intro v hcurB hhexB hv _ hnewB
    unfold addBreakpoint
    simp only [isEmpty_eq_false_of_ne_nil hcurB, Bool.false_eq_true, if_false, hhexB,
      Option.isSome_none, hv,
      addBreakpoint_loop_none _ w.breakpointView 0 (Or.inr hnewB)]
    exact ⟨_, rfl, by simp [MainWindow.call], by simp [MainWindow.call, callsSince]⟩
  · intro u hcurP hhexP hu _ hnewP
    unfold addPort
    simp only [isEmpty_eq_false_of_ne_nil hcurP, Bool.false_eq_true, if_false, hhexP,
      Option.isSome_none, hu, MainWindow.call,
      addPort_loop_false _ w.portView (Or.inr hnewP)]
    exact ⟨_, rfl, by simp, by simp [callsSince]⟩

theorem add_out_of_range_accepted_witness :
    ("1000000".toList ≠ [] ∧
      find_first_not_of (toUpper "1000000".toList) hexChars = none ∧
      hex2int (toUpper "1000000".toList) = some 0x1000000 ∧ (0xFFFFFF : Int) < 0x1000000 ∧
      "12345".toList ≠ [] ∧
      find_first_not_of (toUpper "12345".toList) hexChars = none ∧
      hex2int (toUpper "12345".toList) = some 0x12345 ∧ (0xFFFF : Int) < 0x12345) ∧
    (∃ w1, addBreakpoint demoConsts
        { MainWindow.start with currBreakpointAddress := "1000000".toList } = some (true, w1) ∧
      w1.breakpointView = [] ++ [⟨"1000000".toList, false, false, true⟩] ∧
      callsSince { MainWindow.start with currBreakpointAddress := "1000000".toList } w1 =
        [Call.debug_breakpoint_set (toUInt32 0x1000000) demoConsts.DBG_EXEC_BREAKPOINT true,
         Call.updateDisasmView (toUInt32 0x1000000) true]) ∧
    (∃ w2, addPort (fun _ => 0x5A)
        { MainWindow.start with currPortAddress := "12345".toList } = some w2 ∧
      w2.portView =
        [] ++ [⟨int2hex (toUInt16 0x12345) 4,
                int2hex ((fun _ : Nat => 0x5A) (toUInt16 0x12345) % 256) 2,
                false, false, false⟩] ∧
      callsSince { MainWindow.start with currPortAddress := "12345".toList } w2 =
        [Call.debug_port_read_byte (toUInt16 0x12345)]) :=
  ⟨⟨by decide, by decide, by decide, by decide, by decide, by decide, by decide, by decide⟩,
    (add_out_of_range_accepted demoConsts (fun _ => 0x5A)
      { MainWindow.start with currBreakpointAddress := "1000000".toList }).1 0x1000000
      (by decide) (by decide) (by decide) (by decide) (by simp [MainWindow.start]),
    (add_out_of_range_accepted demoConsts (fun _ => 0x5A)
      { MainWindow.start with currPortAddress := "12345".toList }).2 0x12345
      (by decide) (by decide) (by decide) (by decide) (by simp [MainWindow.start])⟩

/-- C13, as stated, fails: the pending breakpoint address `1000000`, above
`0xFFFFFF`, is given a row by `addBreakpoint`, which calls `debug_breakpoint_set`
for the address `0x1000000` and returns true; the pending port id `12345`, above
`0xFFFF`, makes `addPort` read port `0x2345` and append the row `2345`. -/
theorem add_out_of_range_not_rejected :
    (addBreakpoint demoConsts
        { MainWindow.start with currBreakpointAddress := "1000000".toList }).map
      (fun r => (r.1, r.2.breakpointView.map BreakRow.address, r.2.calls)) =
      some (true, ["1000000".toList],
        [Call.debug_breakpoint_set 0x1000000 demoConsts.DBG_EXEC_BREAKPOINT true,
         Call.updateDisasmView 0x1000000 true]) ∧
    (addPort (fun _ => 0x5A) { MainWindow.start with currPortAddress := "12345".toList }).map
      (fun r => (r.portView.map PortRow.port, r.calls)) =
      some (["2345".toList], [Call.debug_port_read_byte 0x2345]) := by
  refine ⟨by decide, by decide⟩

theorem findEntry_first (input : Nat) :
    ∀ (texts : List QString) (i0 : Nat), (∀ t ∈ texts, hex2int t ≠ none) →
      (∃ t ∈ texts, (hex2int t).map toUInt32 = some input) →
      ∃ k, findEntry input texts i0 = some (i0 + k) ∧
        (∃ t, texts[k]? = some t ∧ (hex2int t).map toUInt32 = some input) ∧
        ∀ j, j < k → ∀ t, texts[j]? = some t → (hex2int t).map toUInt32 ≠ some input := by
  intro texts
  induction texts with
  | nil => intro i0 _ h; simp at h
  | cons t ts ih =>
      intro i0 hp hh
      have ht : hex2int t ≠ none := hp t (List.mem_cons_self t ts)
      obtain ⟨v, hv⟩ := Option.ne_none_iff_exists'.mp ht
      by_cases heq : toUInt32 v = input
      · refine ⟨0, ?_, ⟨t, by simp, by simp [hv, heq]⟩, ?_⟩
        · rw [findEntry, hv]
          simp [heq]
        · intro j hj
          omega
      · have hh1 : ∃ x ∈ ts, (hex2int x).map toUInt32 = some input := by
          obtain ⟨x, hx, hxa⟩ := hh
          rcases List.mem_cons.mp hx with hx | hx
          · subst hx
            rw [hv] at hxa
            simp at hxa
            exact absurd hxa heq
          · exact ⟨x, hx, hxa⟩
        obtain ⟨k, hk, hat, hbefore⟩ :=
          ih (i0 + 1) (fun x hx => hp x (List.mem_cons_of_mem t hx)) hh1
        refine ⟨k + 1, ?_, ?_, ?_⟩
        · rw [findEntry, hv]
          simp only [ne_eq, heq, not_false_eq_true, if_true]
          rw [hk]
          congr 1
          omega
        · simpa using hat
        · intro j hj x hx
          cases j with
          | zero =>
              simp at hx
              subst hx
              rw [hv]
              simpa using heq
          | succ j =>
              simp at hx
              exact hbefore j (by omega) x hx

/-- C17: for a breakpoint table whose row texts all convert and one of whose
rows stands for the address `input`, `processDebugCommand(reason, input)` with
`reason` one of the three memory breakpoint reasons returns, selects the first
row whose address is `input`, shows the text of that row in `breakChangeLabel`
and `Read`, `Write` or `Executed` for the reason in `breakTypeLabel`, leaves the
breakpoint table as it was and makes no call besides the refresh of the memory
and disassembly views. -/
theorem processDebugCommand_breakpoint (D : DebugConsts) (pc : Nat) (reason : Int) (input : Nat)
    (w : MainWindow) (hin : input < 4294967296)
    (hreason : reason = D.HIT_READ_BREAKPOINT ∨ reason = D.HIT_WRITE_BREAKPOINT ∨
      reason = D.HIT_EXEC_BREAKPOINT)
    (hnum : reason ≤ D.NUM_DBG_COMMANDS)
    (hport : reason ≠ D.HIT_PORT_READ_BREAKPOINT ∧ reason ≠ D.HIT_PORT_WRITE_BREAKPOINT)
    (hdist : D.HIT_READ_BREAKPOINT ≠ D.HIT_WRITE_BREAKPOINT ∧
      D.HIT_READ_BREAKPOINT ≠ D.HIT_EXEC_BREAKPOINT ∧
      D.HIT_WRITE_BREAKPOINT ≠ D.HIT_EXEC_BREAKPOINT)
    (hparse : ∀ r ∈ w.breakpointView, r.addr ≠ none)
    (hhas : ∃ r ∈ w.breakpointView, r.addr = some input) :
    ∃ row r w1, processDebugCommand D pc reason input w = some w1 ∧
      w.breakpointView[row]? = some r ∧ r.addr = some input ∧
      (∀ j, j < row → ∀ x, w.breakpointView[j]? = some x → x.addr ≠ some input) ∧
      w1.breakpointViewRow = some row ∧
      w1.breakChangeLabel = r.address ∧
      (reason = D.HIT_READ_BREAKPOINT → w1.breakTypeLabel = "Read".toList) ∧
      (reason = D.HIT_WRITE_BREAKPOINT → w1.breakTypeLabel = "Write".toList) ∧
      (reason = D.HIT_EXEC_BREAKPOINT → w1.breakTypeLabel = "Executed".toList) ∧
      w1.breakpointView = w.breakpointView ∧
      callsSince w w1 =
        (if reason ≠ D.HIT_EXEC_BREAKPOINT then [Call.memUpdate input] else []) ++
          [Call.updateDisasmView pc true] := by
  have hp1 : ∀ t ∈ w.breakpointView.map BreakRow.address, hex2int t ≠ none := by
    intro t ht
    obtain ⟨r, hr, hrt⟩ := List.mem_map.mp ht
    have := hparse r hr
    rw [← hrt]
    intro hn
    exact this (by simp [BreakRow.addr, hn])
  have hh1 : ∃ t ∈ w.breakpointView.map BreakRow.address,
      (hex2int t).map toUInt32 = some input := by
    obtain ⟨r, hr, hra⟩ := hhas
    exact ⟨r.address, List.mem_map.mpr ⟨r, hr, rfl⟩, hra⟩
  obtain ⟨k, hk, ⟨t, htk, hta⟩, hbefore⟩ := findEntry_first input _ 0 hp1 hh1
  rw [List.getElem?_map] at htk
  obtain ⟨r, hrk, hrt⟩ := Option.map_eq_some'.mp htk
  have hmod : input % 4294967296 = input := Nat.mod_eq_of_lt hin
  have hnum1 : ¬ reason > D.NUM_DBG_COMMANDS := by omega
  have hnp : ¬ (reason = D.HIT_PORT_READ_BREAKPOINT ∨ reason = D.HIT_PORT_WRITE_BREAKPOINT) := by
    intro h
    rcases h with h | h
    · exact hport.1 h
    · exact hport.2 h
  simp only [Nat.zero_add] at hk
  have hra : r.addr = some input := by rw [BreakRow.addr, hrt]; exact hta
  have hfirst : ∀ j, j < k → ∀ x, w.breakpointView[j]? = some x → x.addr ≠ some input := by
    intro j hj x hx
    exact hbefore j hj x.address (by rw [List.getElem?_map, hx]; rfl)
  have hres : processDebugCommand D pc reason input w =
      some ((if reason ≠ D.HIT_EXEC_BREAKPOINT then
          ({ w with breakChangeLabel := r.address,
                    breakTypeLabel :=
                      if reason = D.HIT_READ_BREAKPOINT then "Read".toList
                      else if reason = D.HIT_WRITE_BREAKPOINT then "Write".toList
                      else "Executed".toList,
                    breakpointViewRow := some k } : MainWindow).call (Call.memUpdate input)
        else
          { w with breakChangeLabel := r.address,
                   breakTypeLabel :=
                     if reason = D.HIT_READ_BREAKPOINT then "Read".toList
                     else if reason = D.HIT_WRITE_BREAKPOINT then "Write".toList
                     else "Executed".toList,
                   breakpointViewRow := some k }).call (Call.updateDisasmView pc true)) := by
    unfold processDebugCommand
    simp only [hmod, hnum1, if_false, hreason, if_true, hk, hrk, hnp]
    by_cases hex : reason = D.HIT_EXEC_BREAKPOINT
    · simp only [ne_eq, hex, not_true_eq_false, if_false]
    · simp only [ne_eq, hex, not_false_eq_true, if_true]
  refine ⟨k, r, _, hres, hrk, hra, hfirst, ?_, ?_, ?_, ?_, ?_, ?_, ?_⟩
  · by_cases hex : reason = D.HIT_EXEC_BREAKPOINT <;> simp [hex, MainWindow.call]
  · by_cases hex : reason = D.HIT_EXEC_BREAKPOINT <;> simp [hex, MainWindow.call]
  · intro h
    have hex : reason ≠ D.HIT_EXEC_BREAKPOINT := by rw [h]; exact hdist.2.1
    rw [if_pos hex]
    simp only [MainWindow.call, if_pos h]
  · intro h
    have hex : reason ≠ D.HIT_EXEC_BREAKPOINT := by rw [h]; exact hdist.2.2
    have hrd : reason ≠ D.HIT_READ_BREAKPOINT := by rw [h]; exact fun e => hdist.1 e.symm
    rw [if_pos hex]
    simp only [MainWindow.call, if_neg hrd, if_pos h]
  · intro h
    have hrd : reason ≠ D.HIT_READ_BREAKPOINT := by rw [h]; exact fun e => hdist.2.1 e.symm
    have hwr : reason ≠ D.HIT_WRITE_BREAKPOINT := by rw [h]; exact fun e => hdist.2.2 e.symm
    rw [if_neg (not_not.mpr h)]
    simp only [MainWindow.call, if_neg hrd, if_neg hwr]
  · by_cases hex : reason = D.HIT_EXEC_BREAKPOINT <;> simp [hex, MainWindow.call]
  · by_cases hex : reason = D.HIT_EXEC_BREAKPOINT <;> simp [hex, MainWindow.call, callsSince]

theorem processDebugCommand_breakpoint_witness :
    ((0x10 : Nat) < 4294967296 ∧
      ((2 : Int) = demoConsts.HIT_READ_BREAKPOINT ∨ (2 : Int) = demoConsts.HIT_WRITE_BREAKPOINT ∨
        (2 : Int) = demoConsts.HIT_EXEC_BREAKPOINT) ∧
      (2 : Int) ≤ demoConsts.NUM_DBG_COMMANDS) ∧
    ∃ row r w1,
      processDebugCommand demoConsts 0x100 2 0x10
        { MainWindow.start with
          breakpointView := [⟨"000010".toList, false, false, true⟩,
                             ⟨"000020".toList, false, true, false⟩] } = some w1 ∧
      ([⟨"000010".toList, false, false, true⟩,
        ⟨"000020".toList, false, true, false⟩] : List BreakRow)[row]? = some r ∧
      r.addr = some 0x10 ∧
      w1.breakpointViewRow = some row ∧
      w1.breakChangeLabel = r.address ∧
      w1.breakTypeLabel = "Executed".toList ∧
      w1.breakpointView = [⟨"000010".toList, false, false, true⟩,
                           ⟨"000020".toList, false, true, false⟩] :=
  (processDebugCommand_breakpoint demoConsts 0x100 2 0x10
      { MainWindow.start with
        breakpointView := [⟨"000010".toList, false, false, true⟩,
                           ⟨"000020".toList, false, true, false⟩] }
      (by decide) (by decide) (by decide) (by decide) (by decide)
      (by decide) ⟨⟨"000010".toList, false, false, true⟩, by decide, by decide⟩).elim
    (fun row h => h.elim (fun r h1 => h1.elim (fun w1 h2 =>
      ⟨⟨by decide, by decide, by decide⟩,
        row, r, w1, h2.1, h2.2.1, h2.2.2.1, h2.2.2.2.2.1, h2.2.2.2.2.2.1,
        h2.2.2.2.2.2.2.2.2.1 rfl, h2.2.2.2.2.2.2.2.2.2.1⟩)))

/-! ## Entering the debugger and stepping -/

theorem map_port_modify_data (d : QString) :
    ∀ (l : List PortRow) (i : Nat),
      (l.modify (fun x => { x with data := d }) i).map PortRow.port = l.map PortRow.port := by
  intro l
  induction l with
  | nil => intro i; simp
  | cons r rs ih =>
      intro i
      cases i with
      | zero => simp
      | succ i => simp [ih i]

theorem upperDigit_facts : ∀ d, d < 16 →
    isspace (upperDigit d) = false ∧ upperDigit d ≠ '-' ∧ upperDigit d ≠ '+' ∧ upperDigit d ≠ 'x' ∧ upperDigit d ≠ 'X' ∧
    digitValue (upperDigit d) = some d ∧ toUpperChar (upperDigit d) = upperDigit d ∧ upperDigit d ∈ hexChars ∧
    (digitChar d = '0' ↔ d = 0) := by
  decide

theorem number16_digits (a : Nat) :
    number16 a ≠ [] ∧ ∀ c ∈ number16 a, ∃ d, d < 16 ∧ c = digitChar d := by
  unfold number16
  simp only
  split
  · exact ⟨by simp, fun c hc => ⟨0, by norm_num, by simpa using hc⟩⟩
  · rename_i l hne
    refine ⟨fun h => hne h, ?_⟩
    intro c hc
    have hmem := (List.dropWhile_sublist _).subset hc
    simp only [List.map_cons, List.map_nil, List.mem_cons, List.mem_singleton,
      List.not_mem_nil, or_false] at hmem
    rcases hmem with h | h | h | h | h | h | h | h <;>
      exact ⟨_, Nat.mod_lt _ (by norm_num), h⟩

theorem rightJustified_two (m : QString) (hne : m ≠ [])
    (hall : ∀ c ∈ m, ∃ d, d < 16 ∧ c = digitChar d) :
    ∃ a b, a < 16 ∧ b < 16 ∧ rightJustified m 2 '0' true = [digitChar a, digitChar b] := by
  cases m with
  | nil => exact absurd rfl hne
  | cons c1 t =>
      obtain ⟨d1, hd1, e1⟩ := hall c1 (List.mem_cons_self _ _)
      cases t with
      | nil =>
          refine ⟨0, d1, by norm_num, hd1, ?_⟩
          rw [e1]
          rfl
      | cons c2 t2 =>
          obtain ⟨d2, hd2, e2⟩ := hall c2 (List.mem_cons_of_mem _ (List.mem_cons_self _ _))
          refine ⟨d1, d2, hd1, hd2, ?_⟩
          rw [e1, e2]
          simp [rightJustified]

/-- The two-character text `int2hex(a, 2)` consists of two upper-case
hexadecimal digits, whatever `a` is. -/
theorem int2hex2_form (a : Nat) :
    ∃ d1 d0, d1 < 16 ∧ d0 < 16 ∧ int2hex a 2 = [upperDigit d1, upperDigit d0] := by
  obtain ⟨hne, hall⟩ := number16_digits (a % 4294967296)
  obtain ⟨d1, d0, h1, h0, hr⟩ := rightJustified_two _ hne hall
  refine ⟨d1, d0, h1, h0, ?_⟩
  unfold int2hex
  rw [show (2 % 256 : Nat) = 2 from rfl, hr]
  rfl

theorem hex2int_two (d1 d0 : Nat) (h1 : d1 < 16) (h0 : d0 < 16) :
    hex2int [upperDigit d1, upperDigit d0] = some (Int.ofNat (d1 * 16 + d0)) := by
  obtain ⟨s1, m1, p1, -, -, v1, -, -, -⟩ := upperDigit_facts d1 h1
  obtain ⟨-, -, -, -, -, v0, -, -, -⟩ := upperDigit_facts d0 h0
  unfold hex2int stoi16
  simp only [List.dropWhile, s1, m1, p1, if_false, List.map_cons, List.map_nil, v1, v0,
    List.takeWhile, Option.isSome_some, List.foldl_cons, List.foldl_nil, Option.getD_some]
  simp
  omega

/-- The text `int2hex(a, 2)` always converts. -/
theorem hex2int_int2hex2 (a : Nat) : ∃ d, hex2int (int2hex a 2) = some d := by
  obtain ⟨d1, d0, h1, h0, he⟩ := int2hex2_form a
  exact ⟨_, by rw [he]; exact hex2int_two d1 d0 h1 h0⟩

/-- A recorded call is `debug_port_read_byte` or `debug_port_write_byte`. -/
theorem portAccess_append {cs ds : List Call}
    (h1 : ∀ c ∈ cs, (∃ q, c = Call.debug_port_read_byte q) ∨
      ∃ q x, c = Call.debug_port_write_byte q x)
    (h2 : ∀ c ∈ ds, (∃ q, c = Call.debug_port_read_byte q) ∨
      ∃ q x, c = Call.debug_port_write_byte q x) :
    ∀ c ∈ cs ++ ds, (∃ q, c = Call.debug_port_read_byte q) ∨
      ∃ q x, c = Call.debug_port_write_byte q x := by
  intro c hc
  rcases List.mem_append.mp hc with h | h
  · exact h1 c h
  · exact h2 c h

theorem changePortValues_data_nested_ok (portRead : Nat → Nat) (w : MainWindow) (row : Nat)
    (r : PortRow) (d v : Int) (hr : w.portView[row]? = some r) (hd : hex2int r.data = some d)
    (hv : hex2int r.port = some v) :
    changePortValues_data_nested portRead w row =
      some { w with
        portView := w.portView.modify
          (fun x => { x with data := int2hex (portRead (toUInt16 v)) 2 }) row,
        calls := w.calls ++ [Call.debug_port_write_byte (toUInt16 v) (toUInt8 d),
          Call.debug_port_read_byte (toUInt16 v)] } := by
  unfold changePortValues_data_nested
  simp only [hr, hd, hv, MainWindow.call]
  simp

/-- When the port text and the data text of the row convert, the column 1
branch of `changePortValues` returns; it changes data texts only and calls
`debug_port_write_byte` and `debug_port_read_byte` only. -/
theorem changePortValues_data_ok (portRead : Nat → Nat) (w : MainWindow) (row : Nat)
    (r : PortRow) (d v : Int) (hr : w.portView[row]? = some r) (hd : hex2int r.data = some d)
    (hv : hex2int r.port = some v) :
    ∃ pv cs, changePortValues_data portRead w row =
        some { w with portView := pv, calls := w.calls ++ cs } ∧
      pv.map PortRow.port = w.portView.map PortRow.port ∧
      ∀ c ∈ cs, (∃ q, c = Call.debug_port_read_byte q) ∨
        ∃ q x, c = Call.debug_port_write_byte q x := by
  by_cases ht : int2hex (portRead (toUInt16 v)) 2 = r.data
  · refine ⟨w.portView, [Call.debug_port_write_byte (toUInt16 v) (toUInt8 d),
      Call.debug_port_read_byte (toUInt16 v)], ?_, rfl, ?_⟩
    · unfold changePortValues_data
      simp only [hr, hd, hv, ht, if_true, MainWindow.call]
      simp
    · intro c hc
      simp only [List.mem_cons, List.mem_singleton, List.not_mem_nil, or_false] at hc
      rcases hc with h | h
      · exact Or.inr ⟨_, _, h⟩
      · exact Or.inl ⟨_, h⟩
  · obtain ⟨d2, hd2⟩ := hex2int_int2hex2 (portRead (toUInt16 v))
    have hn := changePortValues_data_nested_ok portRead
      { w with
        portView := w.portView.modify
          (fun x => { x with data := int2hex (portRead (toUInt16 v)) 2 }) row,
        calls := w.calls ++ [Call.debug_port_write_byte (toUInt16 v) (toUInt8 d),
          Call.debug_port_read_byte (toUInt16 v)] }
      row { r with data := int2hex (portRead (toUInt16 v)) 2 } d2 v
      (by simp [List.getElem?_modify_eq, hr]) hd2 hv
    refine ⟨(w.portView.modify
        (fun x => { x with data := int2hex (portRead (toUInt16 v)) 2 }) row).modify
        (fun x => { x with data := int2hex (portRead (toUInt16 v)) 2 }) row,
      [Call.debug_port_write_byte (toUInt16 v) (toUInt8 d),
       Call.debug_port_read_byte (toUInt16 v),
       Call.debug_port_write_byte (toUInt16 v) (toUInt8 d2),
       Call.debug_port_read_byte (toUInt16 v)], ?_, ?_, ?_⟩
    · unfold changePortValues_data
      simp only [hr, hd, hv, ht, if_false, MainWindow.call]
      have e : w.calls ++ [Call.debug_port_write_byte (toUInt16 v) (toUInt8 d)] ++
          [Call.debug_port_read_byte (toUInt16 v)] =
          w.calls ++ [Call.debug_port_write_byte (toUInt16 v) (toUInt8 d),
            Call.debug_port_read_byte (toUInt16 v)] := by simp
      rw [e, hn]
      simp
    · simp only [map_port_modify_data]
    · intro c hc
      simp only [List.mem_cons, List.mem_singleton, List.not_mem_nil, or_false] at hc
      rcases hc with h | h | h | h
      · exact Or.inr ⟨_, _, h⟩
      · exact Or.inl ⟨_, h⟩
      · exact Or.inr ⟨_, _, h⟩
      · exact Or.inl ⟨_, h⟩

/-- When the port text of the row converts, `updatePortData` returns; it changes
data texts only and calls `debug_port_read_byte` and `debug_port_write_byte`
only. -/
theorem updatePortData_ok (portRead : Nat → Nat) (w : MainWindow) (i : Nat) (r : PortRow)
    (v : Int) (hr : w.portView[i]? = some r) (hv : hex2int r.port = some v) :
    ∃ pv cs, updatePortData portRead w i =
        some { w with portView := pv, calls := w.calls ++ cs } ∧
      pv.map PortRow.port = w.portView.map PortRow.port ∧
      pv.length = w.portView.length ∧
      ∀ c ∈ cs, (∃ q, c = Call.debug_port_read_byte q) ∨
        ∃ q x, c = Call.debug_port_write_byte q x := by
  by_cases ht : int2hex (portRead (toUInt16 v) % 256) 2 = r.data
  · refine ⟨w.portView, [Call.debug_port_read_byte (toUInt16 v)], ?_, rfl, rfl, ?_⟩
    · unfold updatePortData
      simp only [hr, hv, ht, if_true, MainWindow.call]
    · intro c hc
      exact Or.inl ⟨_, by simpa using hc⟩
  · obtain ⟨d2, hd2⟩ := hex2int_int2hex2 (portRead (toUInt16 v) % 256)
    obtain ⟨pv, cs, h, hmap, hcs⟩ := changePortValues_data_ok portRead
      { w with
        portView := w.portView.modify
          (fun x => { x with data := int2hex (portRead (toUInt16 v) % 256) 2 }) i,
        calls := w.calls ++ [Call.debug_port_read_byte (toUInt16 v)] }
      i { r with data := int2hex (portRead (toUInt16 v) % 256) 2 } d2 v
      (by simp [List.getElem?_modify_eq, hr]) hd2 hv
    refine ⟨pv, Call.debug_port_read_byte (toUInt16 v) :: cs, ?_, ?_, ?_, ?_⟩
    · unfold updatePortData
      simp only [hr, hv, ht, if_false, MainWindow.call]
      rw [h]
      simp
    · rw [hmap, map_port_modify_data]
    · have := congrArg List.length hmap
      simpa using this
    · intro c hc
      rcases List.mem_cons.mp hc with hc | hc
      · exact Or.inl ⟨_, hc⟩
      · exact hcs c hc

theorem populateDebugWindow_loop_ok (portRead : Nat → Nat) :
    ∀ (n i : Nat) (w : MainWindow),
      (∀ t ∈ w.portView.map PortRow.port, hex2int t ≠ none) → i + n ≤ w.portView.length →
      ∃ pv cs, populateDebugWindow_loop portRead n i w =
          some { w with portView := pv, calls := w.calls ++ cs } ∧
        pv.map PortRow.port = w.portView.map PortRow.port ∧
        ∀ c ∈ cs, (∃ q, c = Call.debug_port_read_byte q) ∨
          ∃ q x, c = Call.debug_port_write_byte q x := by
  intro n
  induction n with
  | zero =>
      intro i w _ _
      exact ⟨w.portView, [], by simp [populateDebugWindow_loop], rfl, by simp⟩
  | succ n ih =>
      intro i w hp hlen
      have hi : i < w.portView.length := by omega
      have hget : w.portView[i]? = some (w.portView[i]) := List.getElem?_eq_getElem hi
      have hpr : hex2int (w.portView[i]).port ≠ none :=
        hp _ (List.mem_map.mpr ⟨_, List.getElem_mem hi, rfl⟩)
      obtain ⟨v, hv⟩ := Option.ne_none_iff_exists'.mp hpr
      obtain ⟨pv1, cs1, hupd, hmap1, hlen1, hcs1⟩ :=
        updatePortData_ok portRead w i _ v hget hv
      have hp1 : ∀ t ∈ pv1.map PortRow.port, hex2int t ≠ none := by
        rw [hmap1]
        exact hp
      obtain ⟨pv, cs, hloop, hmap, hcs⟩ := ih (i + 1)
        { w with portView := pv1, calls := w.calls ++ cs1 } hp1
        (by simp only [hlen1]; omega)
      refine ⟨pv, cs1 ++ cs, ?_, ?_, portAccess_append hcs1 hcs⟩
      · rw [populateDebugWindow_loop, hupd]
        simp only [hloop]
        simp
      · rw [hmap, hmap1]

theorem runClearRunUntil_breakpoints (cs : List Call) :
    ∀ d : DebugData, (runClearRunUntil cs d).breakpoints = d.breakpoints ∧
      (runClearRunUntil cs d).ports = d.ports := by
  induction cs with
  | nil => intro d; exact ⟨rfl, rfl⟩
  | cons c cs ih =>
      intro d
      simp only [runClearRunUntil, List.foldl_cons]
      by_cases hc : c = Call.debug_clear_run_until
      · simp only [hc, if_true]
        exact ih (debug_clear_run_until d)
      · simp only [hc, if_false]
        exact ih d

theorem runClearRunUntil_append_clear (cs : List Call) (d : DebugData) :
    (runClearRunUntil (cs ++ [Call.debug_clear_run_until]) d).runUntil = none := by
  simp [runClearRunUntil, List.foldl_append, debug_clear_run_until]

theorem runClearRunUntil_append_other (cs : List Call) (c : Call)
    (hc : c ≠ Call.debug_clear_run_until) (d : DebugData) :
    runClearRunUntil (cs ++ [c]) d = runClearRunUntil cs d := by
  simp [runClearRunUntil, List.foldl_append, hc]

theorem runOnBreakpoints_no_calls :
    ∀ (cs : List Call) (bps : Nat → Nat), cs.filter Call.isBreakpointCall = [] →
      runOnBreakpoints cs bps = bps := by
  intro cs
  induction cs with
  | nil => intro bps _; rfl
  | cons c cs ih =>
      intro bps h
      have hc : Call.isBreakpointCall c = false := by
        cases hb : Call.isBreakpointCall c with
        | false => rfl
        | true => simp [List.filter, hb] at h
      have hrest : cs.filter Call.isBreakpointCall = [] := by
        simpa [List.filter, hc] using h
      have hstep : c.onBreakpoints bps = bps := by
        cases c <;> first | rfl | simp [Call.isBreakpointCall] at hc
      simp only [runOnBreakpoints, List.foldl_cons, hstep]
      exact ih bps hrest

/-- C15: when the texts of the port rows convert, `raiseDebugger` returns with
`debuggerOn` set.  The calls it makes are reads and writes of the monitored
ports (from `populateDebugWindow`), then `memUpdate`, `debug_clear_run_until`
and `setReceiveState(false)`: `debug_clear_run_until` is called, and neither
`debug_breakpoint_set` nor `debug_breakpoint_remove` is.  With the calls taken
as the specification describes them, the run-until marker is gone afterwards
whatever it was and the breakpoint flags of the core are the ones before; the
rows of the breakpoint table are unchanged. -/
theorem raiseDebugger_clears_run_until (portRead : Nat → Nat) (pc : Nat) (w : MainWindow)
    (d : DebugData) (hparse : ∀ r ∈ w.portView, r.id ≠ none) :
    ∃ w1, raiseDebugger portRead pc w = some w1 ∧
      w1.debuggerOn = true ∧
      Call.debug_clear_run_until ∈ callsSince w w1 ∧
      (runClearRunUntil (callsSince w w1) d).runUntil = none ∧
      (runClearRunUntil (callsSince w w1) d).breakpoints = d.breakpoints ∧
      w1.breakpointView = w.breakpointView ∧
      (callsSince w w1).filter Call.isBreakpointCall = [] ∧
      runOnBreakpoints (callsSince w w1) d.breakpoints = d.breakpoints ∧
      ∃ cs, callsSince w w1 =
          cs ++ [Call.memUpdate pc, Call.debug_clear_run_until, Call.setReceiveState false] ∧
        ∀ c ∈ cs, (∃ q, c = Call.debug_port_read_byte q) ∨
          ∃ q x, c = Call.debug_port_write_byte q x := by
  have hp : ∀ t ∈ w.portView.map PortRow.port, hex2int t ≠ none := by
    intro t ht
    obtain ⟨r, hr, hrt⟩ := List.mem_map.mp ht
    have := hparse r hr
    rw [← hrt]
    intro hn
    exact this (by simp [PortRow.id, hn])
  obtain ⟨pv, cs, hloop, _, hcs⟩ :=
    populateDebugWindow_loop_ok portRead w.portView.length 0 w hp (by omega)
  have hres : raiseDebugger portRead pc w =
      some { w with
        portView := pv,
        debuggerOn := true,
        stepInShortcut := w.stepInShortcut + 1,
        stepOverShortcut := w.stepOverShortcut + 1,
        stepNextShortcut := w.stepNextShortcut + 1,
        stepOutShortcut := w.stepOutShortcut + 1,
        calls := w.calls ++ (cs ++ [Call.memUpdate pc, Call.debug_clear_run_until,
          Call.setReceiveState false]) } := by
    unfold raiseDebugger populateDebugWindow
    simp only [hloop, setDebuggerState, MainWindow.call, if_true]
    simp
  have hsince : callsSince w
      { w with
        portView := pv,
        debuggerOn := true,
        stepInShortcut := w.stepInShortcut + 1,
        stepOverShortcut := w.stepOverShortcut + 1,
        stepNextShortcut := w.stepNextShortcut + 1,
        stepOutShortcut := w.stepOutShortcut + 1,
        calls := w.calls ++ (cs ++ [Call.memUpdate pc, Call.debug_clear_run_until,
          Call.setReceiveState false]) } =
      cs ++ [Call.memUpdate pc, Call.debug_clear_run_until, Call.setReceiveState false] := by
    simp [callsSince]
  have hfilter : (cs ++ [Call.memUpdate pc, Call.debug_clear_run_until,
      Call.setReceiveState false]).filter Call.isBreakpointCall = [] := by
    rw [List.filter_append]
    have h1 : cs.filter Call.isBreakpointCall = [] := by
      rw [List.filter_eq_nil_iff]
      intro c hc
      rcases hcs c hc with ⟨q, hq⟩ | ⟨q, x, hq⟩
      · rw [hq]
        simp [Call.isBreakpointCall]
      · rw [hq]
        simp [Call.isBreakpointCall]
    rw [h1]
    simp [Call.isBreakpointCall]
  refine ⟨_, hres, rfl, ?_, ?_, ?_, rfl, ?_, ?_, cs, hsince, hcs⟩
  · rw [hsince]
    simp
  · rw [hsince]
    have e : cs ++ [Call.memUpdate pc, Call.debug_clear_run_until, Call.setReceiveState false] =
        ((cs ++ [Call.memUpdate pc]) ++ [Call.debug_clear_run_until]) ++
          [Call.setReceiveState false] := by simp
    rw [e, runClearRunUntil_append_other _ _ (by decide), runClearRunUntil_append_clear]
  · exact (runClearRunUntil_breakpoints _ d).1
  · rw [hsince]
    exact hfilter
  · rw [hsince]
    exact runOnBreakpoints_no_calls _ _ hfilter

theorem raiseDebugger_clears_run_until_witness :
    (∀ r ∈ ([⟨"0010".toList, "00".toList, true, false, false⟩] : List PortRow), r.id ≠ none) ∧
    (raiseDebugger (fun _ => 0x5A) 0x100
        { MainWindow.start with
          portView := [⟨"0010".toList, "00".toList, true, false, false⟩],
          breakpointView := [⟨"000010".toList, false, false, true⟩] }).map MainWindow.calls =
      some [Call.debug_port_read_byte 0x10, Call.debug_port_write_byte 0x10 0x5A,
        Call.debug_port_read_byte 0x10, Call.memUpdate 0x100, Call.debug_clear_run_until,
        Call.setReceiveState false] ∧
    ∃ w1, raiseDebugger (fun _ => 0x5A) 0x100
        { MainWindow.start with
          portView := [⟨"0010".toList, "00".toList, true, false, false⟩],
          breakpointView := [⟨"000010".toList, false, false, true⟩] } = some w1 ∧
      w1.debuggerOn = true ∧
      Call.debug_clear_run_until ∈ callsSince
        { MainWindow.start with
          portView := [⟨"0010".toList, "00".toList, true, false, false⟩],
          breakpointView := [⟨"000010".toList, false, false, true⟩] } w1 ∧
      (runClearRunUntil (callsSince
        { MainWindow.start with
          portView := [⟨"0010".toList, "00".toList, true, false, false⟩],
          breakpointView := [⟨"000010".toList, false, false, true⟩] } w1)
        { ports := fun _ => 0, breakpoints := fun a => if a = 0x10 then 4 else 0,
          runUntil := some 0x20 }).runUntil = none ∧
      w1.breakpointView = [⟨"000010".toList, false, false, true⟩] ∧
      runOnBreakpoints (callsSince
        { MainWindow.start with
          portView := [⟨"0010".toList, "00".toList, true, false, false⟩],
          breakpointView := [⟨"000010".toList, false, false, true⟩] } w1)
        (fun a => if a = 0x10 then 4 else 0) = (fun a => if a = 0x10 then 4 else 0) := by
  refine ⟨by decide, by decide, ?_⟩
  obtain ⟨w1, h, hon, hmem, hrun, -, hview, -, hbps, -⟩ :=
    raiseDebugger_clears_run_until (fun _ => 0x5A) 0x100
      { MainWindow.start with
        portView := [⟨"0010".toList, "00".toList, true, false, false⟩],
        breakpointView := [⟨"000010".toList, false, false, true⟩] }
      { ports := fun _ => 0, breakpoints := fun a => if a = 0x10 then 4 else 0,
        runUntil := some 0x20 }
      (by decide)
  exact ⟨w1, h, hon, hmem, hrun, hview, hbps⟩

/-- C16: each of the four step functions returns the window unchanged, with no
call made, when `inDebugger` is false.  When `inDebugger` is true (and the
register texts convert) it disconnects its own shortcut, blocks the scroll bar
signals, clears `debuggerOn`, commits the edits and then emits the step signal
of its own kind; these two are its only calls. -/
theorem step_pressed (commitOk : Bool) (w : MainWindow) :
    (stepInPressed false commitOk w = some w ∧
      stepInPressed true true w =
        some ((({ w with stepInShortcut := 0, scrollBarBlocked := true,
                         debuggerOn := false } : MainWindow).call Call.commitEdits).call
          Call.setDebugStepInMode)) ∧
    (stepOverPressed false commitOk w = some w ∧
      stepOverPressed true true w =
        some ((({ w with scrollBarBlocked := true, stepOverShortcut := 0,
                         debuggerOn := false } : MainWindow).call Call.commitEdits).call
          Call.setDebugStepOverMode)) ∧
    (stepNextPressed false commitOk w = some w ∧
      stepNextPressed true true w =
        some ((({ w with scrollBarBlocked := true, stepNextShortcut := 0,
                         debuggerOn := false } : MainWindow).call Call.commitEdits).call
          Call.setDebugStepNextMode)) ∧
    (stepOutPressed false commitOk w = some w ∧
      stepOutPressed true true w =
        some ((({ w with scrollBarBlocked := true, stepOutShortcut := 0,
                         debuggerOn := false } : MainWindow).call Call.commitEdits).call
          Call.setDebugStepOutMode)) ∧
    ((stepInPressed true true w).map (callsSince w) =
      some [Call.commitEdits, Call.setDebugStepInMode]) ∧
    ((stepOverPressed true true w).map (callsSince w) =
      some [Call.commitEdits, Call.setDebugStepOverMode]) ∧
    ((stepNextPressed true true w).map (callsSince w) =
      some [Call.commitEdits, Call.setDebugStepNextMode]) ∧
    ((stepOutPressed true true w).map (callsSince w) =
      some [Call.commitEdits, Call.setDebugStepOutMode]) := by
  refine ⟨⟨?_, ?_⟩, ⟨?_, ?_⟩, ⟨?_, ?_⟩, ⟨?_, ?_⟩, ?_, ?_, ?_, ?_⟩
  · simp [stepInPressed]
  · simp [stepInPressed, updateDebuggerChanges]
  · simp [stepOverPressed]
  · simp [stepOverPressed, updateDebuggerChanges]
  · simp [stepNextPressed]
  · simp [stepNextPressed, updateDebuggerChanges]
  · simp [stepOutPressed]
  · simp [stepOutPressed, updateDebuggerChanges]
  · simp [stepInPressed, updateDebuggerChanges, callsSince, MainWindow.call]
  · simp [stepOverPressed, updateDebuggerChanges, callsSince, MainWindow.call]
  · simp [stepNextPressed, updateDebuggerChanges, callsSince, MainWindow.call]
  · simp [stepOutPressed, updateDebuggerChanges, callsSince, MainWindow.call]

/-! ## Saving and restoring an image -/

theorem restoreFromPath_restore_calls (restoreOk : Bool) (vat : List Nat) (path : QString)
    (w : MainWindow) :
    (callsSince w (restoreFromPath restoreOk vat path w).2).filter Call.isEmuRestore =
      [Call.emu_restore path (w.inReceivingMode && w.debuggerOn)] := by
  cases hr : w.inReceivingMode <;> cases hd : w.debuggerOn <;> cases restoreOk <;>
    simp [restoreFromPath, refreshVariableList, hr, hd, callsSince, MainWindow.call,
      Call.isEmuRestore]

/-- C18, as the code has it: `restoreFromPath` calls `emu_thread->restore(path)`
exactly once, and at that call `inReceivingMode` is true exactly when both
`inReceivingMode` and `debuggerOn` were true before: with `debuggerOn` false the
receiving mode is always settled first, with `debuggerOn` true
`refreshVariableList` returns before it changes `inReceivingMode`. -/
theorem restoreFromPath_receiving (restoreOk : Bool) (vat : List Nat) (path : QString)
    (w : MainWindow) :
    (callsSince w (restoreFromPath restoreOk vat path w).2).filter Call.isEmuRestore =
      [Call.emu_restore path (w.inReceivingMode && w.debuggerOn)] ∧
    (callsSince { w with debuggerOn := false }
        (restoreFromPath restoreOk vat path { w with debuggerOn := false }).2).filter
        Call.isEmuRestore =
      [Call.emu_restore path false] := by
  constructor
  · exact restoreFromPath_restore_calls restoreOk vat path w
  · rw [restoreFromPath_restore_calls]
    simp

/-- C18, as stated, fails: with `inReceivingMode` and `debuggerOn` both true,
`restoreFromPath` calls `emu_thread->restore` while `inReceivingMode` is still
true. -/
theorem restoreFromPath_receiving_not_settled :
    (callsSince { MainWindow.start with inReceivingMode := true, debuggerOn := true }
        (restoreFromPath true [] "a.ce".toList
          { MainWindow.start with inReceivingMode := true, debuggerOn := true }).2).filter
        Call.isEmuRestore =
      [Call.emu_restore "a.ce".toList true] := by
  decide

/-- C19 at the failing input: with `inReceivingMode` true (and `debuggerOn`
false), `saveToPath`, and with it `saveToFile` and `saveEmuState` for a
non-empty path, calls `emu_thread->save` while `inReceivingMode` is still true;
no function on this path looks at `inReceivingMode`. -/
theorem saveToPath_receiving_not_settled :
    callsSince { MainWindow.start with inReceivingMode := true }
        (saveToPath "a.ce".toList { MainWindow.start with inReceivingMode := true }) =
      [Call.emu_save "a.ce".toList true] ∧
    callsSince { MainWindow.start with inReceivingMode := true }
        (saveToFile "a.ce".toList { MainWindow.start with inReceivingMode := true }) =
      [Call.emu_save "a.ce".toList true] ∧
    callsSince { MainWindow.start with inReceivingMode := true }
        (saveEmuState "a.ce".toList { MainWindow.start with inReceivingMode := true }) =
      [Call.emu_save "a.ce".toList true] := by
  refine ⟨by decide, by decide, by decide⟩

/-- C20: `restoreFromPath` returns the value `emu_thread->restore(path)` returned,
so false exactly when the restore failed, and it calls the restore once;
`restoreEmuState` with no saved image path returns false and calls no
restore, and with a path it is `restoreFromPath` of that path. -/
theorem restore_result (restoreOk : Bool) (vat : List Nat) (path : QString) (c : Char)
    (w : MainWindow) :
    (restoreFromPath restoreOk vat path w).1 = restoreOk ∧
    ((callsSince w (restoreFromPath restoreOk vat path w).2).filter Call.isEmuRestore).length
      = 1 ∧
    (restoreEmuState [] restoreOk vat w).1 = false ∧
    (callsSince w (restoreEmuState [] restoreOk vat w).2).filter Call.isEmuRestore = [] ∧
    restoreEmuState (c :: path) restoreOk vat w = restoreFromPath restoreOk vat (c :: path) w := by
  refine ⟨?_, ?_, ?_, ?_, ?_⟩
  · cases restoreOk <;> simp [restoreFromPath]
  · rw [restoreFromPath_restore_calls restoreOk vat path w]
    rfl
  · simp [restoreEmuState]
  · simp [restoreEmuState, callsSince, MainWindow.call, Call.isEmuRestore]
  · simp [restoreEmuState]

/-! ## The port monitor table -/

theorem clearBits_or_or (x a b : Nat) :
    clearBits (clearBits ((x ||| a) ||| b) a) b = clearBits (clearBits x a) b := by
  apply Nat.eq_of_testBit_eq
  intro i
  simp only [clearBits, Nat.testBit_xor, Nat.testBit_and, Nat.testBit_or]
  cases x.testBit i <;> cases a.testBit i <;> cases b.testBit i <;> rfl

theorem checkPort_eq (K : DebugMasks) (D : DebugConsts) (portRead : Nat → Nat) (w : MainWindow)
    (row col : Nat) (b : Bool) (r : PortRow) (v : Int) (m : Nat)
    (hrow : w.portView[row]? = some r) (hv : hex2int r.port = some v)
    (hcol : (col = 2 ∧ m = K.DBG_PORT_READ) ∨ (col = 3 ∧ m = K.DBG_PORT_WRITE) ∨
      (col = 4 ∧ m = K.DBG_PORT_FREEZE))
    (hb : r.checkState col ≠ some b) :
    checkPort K D portRead row col b w =
      some { w with
        portView := w.portView.modify (fun x => x.setCheckState col b) row,
        calls := w.calls ++ [Call.debug_pmonitor_set (toUInt16 v) m b] } := by
  unfold checkPort
  simp only [hrow, hb, if_false]
  unfold changePortValues
  simp only [List.getElem?_modify_eq, hrow, Option.map_some']
  rcases hcol with ⟨hc, hm⟩ | ⟨hc, hm⟩ | ⟨hc, hm⟩ <;>
    subst hc <;> subst hm <;>
    simp [PortRow.setCheckState, PortRow.checkState, hv, MainWindow.call]

/-- C14, as the code has it: a change of the check box in column 2, 3 or 4 of a
port row makes exactly one call, `debug_pmonitor_set(port, f, checked)` with the
flag `f` of that column.  For a row with the three boxes unchecked whose port
has no flag besides READ and WRITE set in the core, checking and then
unchecking READ and WRITE leaves the port without any flag, so without an
entry, and changes no other port; checking one box afterwards leaves the port
with exactly the flag of that box. -/
theorem changePortValues_check_flags (K : DebugMasks) (D : DebugConsts) (portRead : Nat → Nat)
    (w : MainWindow) (row : Nat) (r : PortRow) (v : Int) (ports : Nat → Nat)
    (hrow : w.portView[row]? = some r) (hv : hex2int r.port = some v)
    (hr : r.rBreak = false) (hw : r.wBreak = false) (hfz : r.freeze = false)
    (hfree : clearBits (clearBits (ports (toUInt16 v)) K.DBG_PORT_READ) K.DBG_PORT_WRITE = 0) :
    ((checkPort K D portRead row 2 true w).map (callsSince w) =
        some [Call.debug_pmonitor_set (toUInt16 v) K.DBG_PORT_READ true] ∧
      (checkPort K D portRead row 3 true w).map (callsSince w) =
        some [Call.debug_pmonitor_set (toUInt16 v) K.DBG_PORT_WRITE true] ∧
      (checkPort K D portRead row 4 true w).map (callsSince w) =
        some [Call.debug_pmonitor_set (toUInt16 v) K.DBG_PORT_FREEZE true]) ∧
    ∃ w4, setThenClearReadWrite K D portRead row w = some w4 ∧
      callsSince w w4 =
        [Call.debug_pmonitor_set (toUInt16 v) K.DBG_PORT_READ true,
         Call.debug_pmonitor_set (toUInt16 v) K.DBG_PORT_WRITE true,
         Call.debug_pmonitor_set (toUInt16 v) K.DBG_PORT_READ false,
         Call.debug_pmonitor_set (toUInt16 v) K.DBG_PORT_WRITE false] ∧
      runOnPorts (callsSince w w4) ports (toUInt16 v) = 0 ∧
      (∀ q, q ≠ toUInt16 v → runOnPorts (callsSince w w4) ports q = ports q) ∧
      (checkPort K D portRead row 2 true w4).map
          (fun w5 => runOnPorts (callsSince w w5) ports (toUInt16 v)) =
        some K.DBG_PORT_READ ∧
      (checkPort K D portRead row 3 true w4).map
          (fun w5 => runOnPorts (callsSince w w5) ports (toUInt16 v)) =
        some K.DBG_PORT_WRITE ∧
      (checkPort K D portRead row 4 true w4).map
          (fun w5 => runOnPorts (callsSince w w5) ports (toUInt16 v)) =
        some K.DBG_PORT_FREEZE := by
  have h1 := checkPort_eq K D portRead w row 2 true r v K.DBG_PORT_READ hrow hv
    (Or.inl ⟨rfl, rfl⟩) (by simp [PortRow.checkState, hr])
  have hA3 := checkPort_eq K D portRead w row 3 true r v K.DBG_PORT_WRITE hrow hv
    (Or.inr (Or.inl ⟨rfl, rfl⟩)) (by simp [PortRow.checkState, hw])
  have hA4 := checkPort_eq K D portRead w row 4 true r v K.DBG_PORT_FREEZE hrow hv
    (Or.inr (Or.inr ⟨rfl, rfl⟩)) (by simp [PortRow.checkState, hfz])
  have h2 := checkPort_eq K D portRead
    { w with
      portView := w.portView.modify (fun x => x.setCheckState 2 true) row,
      calls := w.calls ++ [Call.debug_pmonitor_set (toUInt16 v) K.DBG_PORT_READ true] }
    row 3 true (r.setCheckState 2 true) v K.DBG_PORT_WRITE
    (by simp [hrow]) (by simpa [PortRow.setCheckState] using hv)
    (Or.inr (Or.inl ⟨rfl, rfl⟩)) (by simp [PortRow.checkState, PortRow.setCheckState, hw])
  have h3 := checkPort_eq K D portRead
    { w with
      portView := (w.portView.modify (fun x => x.setCheckState 2 true) row).modify
        (fun x => x.setCheckState 3 true) row,
      calls := w.calls ++ [Call.debug_pmonitor_set (toUInt16 v) K.DBG_PORT_READ true] ++
        [Call.debug_pmonitor_set (toUInt16 v) K.DBG_PORT_WRITE true] }
    row 2 false ((r.setCheckState 2 true).setCheckState 3 true) v K.DBG_PORT_READ
    (by simp [hrow]) (by simpa [PortRow.setCheckState] using hv)
    (Or.inl ⟨rfl, rfl⟩) (by simp [PortRow.checkState, PortRow.setCheckState])
  have h4 := checkPort_eq K D portRead
    { w with
      portView := ((w.portView.modify (fun x => x.setCheckState 2 true) row).modify
        (fun x => x.setCheckState 3 true) row).modify (fun x => x.setCheckState 2 false) row,
      calls := w.calls ++ [Call.debug_pmonitor_set (toUInt16 v) K.DBG_PORT_READ true] ++
        [Call.debug_pmonitor_set (toUInt16 v) K.DBG_PORT_WRITE true] ++
        [Call.debug_pmonitor_set (toUInt16 v) K.DBG_PORT_READ false] }
    row 3 false (((r.setCheckState 2 true).setCheckState 3 true).setCheckState 2 false) v
    K.DBG_PORT_WRITE
    (by simp [hrow]) (by simpa [PortRow.setCheckState] using hv)
    (Or.inr (Or.inl ⟨rfl, rfl⟩)) (by simp [PortRow.checkState, PortRow.setCheckState])
  have hchain : setThenClearReadWrite K D portRead row w = some
      { w with
        portView := (((w.portView.modify (fun x => x.setCheckState 2 true) row).modify
          (fun x => x.setCheckState 3 true) row).modify
            (fun x => x.setCheckState 2 false) row).modify (fun x => x.setCheckState 3 false) row,
        calls := w.calls ++ [Call.debug_pmonitor_set (toUInt16 v) K.DBG_PORT_READ true] ++
          [Call.debug_pmonitor_set (toUInt16 v) K.DBG_PORT_WRITE true] ++
          [Call.debug_pmonitor_set (toUInt16 v) K.DBG_PORT_READ false] ++
          [Call.debug_pmonitor_set (toUInt16 v) K.DBG_PORT_WRITE false] } := by
    unfold setThenClearReadWrite
    rw [h1, Option.some_bind, h2, Option.some_bind, h3, Option.some_bind, h4]
  have hzero : clearBits (clearBits ((ports (toUInt16 v) ||| K.DBG_PORT_READ) |||
      K.DBG_PORT_WRITE) K.DBG_PORT_READ) K.DBG_PORT_WRITE = 0 := by
    rw [clearBits_or_or]
    exact hfree
  have hrow4 : ((((w.portView.modify (fun x => x.setCheckState 2 true) row).modify
      (fun x => x.setCheckState 3 true) row).modify
        (fun x => x.setCheckState 2 false) row).modify
          (fun x => x.setCheckState 3 false) row)[row]? = some r := by
    simp only [List.getElem?_modify_eq, hrow, Option.map_some']
    cases r
    simp_all [PortRow.setCheckState]
  refine ⟨⟨?_, ?_, ?_⟩, _, hchain, ?_, ?_, ?_, ?_, ?_, ?_⟩
  · rw [h1]; simp [callsSince]
  · rw [hA3]; simp [callsSince]
  · rw [hA4]; simp [callsSince]
  · simp [callsSince]
  · simp only [callsSince, List.append_assoc, List.drop_left']
    simp [runOnPorts, Call.onPorts, debug_pmonitor_set, hzero]
  · intro q hq
    simp only [callsSince, List.append_assoc, List.drop_left']
    simp [runOnPorts, Call.onPorts, debug_pmonitor_set, hq]
  · rw [checkPort_eq K D portRead _ row 2 true r v K.DBG_PORT_READ hrow4 hv
      (Or.inl ⟨rfl, rfl⟩) (by simp [PortRow.checkState, hr])]
    simp only [Option.map_some', callsSince, List.append_assoc, List.drop_left']
    simp [runOnPorts, Call.onPorts, debug_pmonitor_set, hzero]
  · rw [checkPort_eq K D portRead _ row 3 true r v K.DBG_PORT_WRITE hrow4 hv
      (Or.inr (Or.inl ⟨rfl, rfl⟩)) (by simp [PortRow.checkState, hw])]
    simp only [Option.map_some', callsSince, List.append_assoc, List.drop_left']
    simp [runOnPorts, Call.onPorts, debug_pmonitor_set, hzero]
  · rw [checkPort_eq K D portRead _ row 4 true r v K.DBG_PORT_FREEZE hrow4 hv
      (Or.inr (Or.inr ⟨rfl, rfl⟩)) (by simp [PortRow.checkState, hfz])]
    simp only [Option.map_some', callsSince, List.append_assoc, List.drop_left']
    simp [runOnPorts, Call.onPorts, debug_pmonitor_set, hzero]

theorem changePortValues_check_flags_witness :
    (({ MainWindow.start with
        portView := [⟨"0010".toList, "00".toList, false, false, false⟩] } :
          MainWindow).portView[0]? = some ⟨"0010".toList, "00".toList, false, false, false⟩ ∧
      hex2int "0010".toList = some 16 ∧
      clearBits (clearBits ((fun _ : Nat => 3) (toUInt16 16)) demoMasks.DBG_PORT_READ)
        demoMasks.DBG_PORT_WRITE = 0) ∧
    ∃ w4, setThenClearReadWrite demoMasks demoConsts (fun _ => 0) 0
        { MainWindow.start with
          portView := [⟨"0010".toList, "00".toList, false, false, false⟩] } = some w4 ∧
      runOnPorts (callsSince
        { MainWindow.start with
          portView := [⟨"0010".toList, "00".toList, false, false, false⟩] } w4)
        (fun _ => 3) (toUInt16 16) = 0 ∧
      (checkPort demoMasks demoConsts (fun _ => 0) 0 4 true w4).map
          (fun w5 => runOnPorts (callsSince
            { MainWindow.start with
              portView := [⟨"0010".toList, "00".toList, false, false, false⟩] } w5)
            (fun _ => 3) (toUInt16 16)) =
        some demoMasks.DBG_PORT_FREEZE :=
  ⟨⟨by decide, by decide, by decide⟩,
    (changePortValues_check_flags demoMasks demoConsts (fun _ => 0)
      { MainWindow.start with
        portView := [⟨"0010".toList, "00".toList, false, false, false⟩] }
      0 ⟨"0010".toList, "00".toList, false, false, false⟩ 16 (fun _ => 3)
      (by decide) (by decide) rfl rfl rfl (by decide)).2.elim
      (fun w4 h => ⟨w4, h.1, h.2.2.1, h.2.2.2.2.2.2⟩)⟩

/-- C14, as stated, fails for a row whose FREEZE box is checked: after READ and
WRITE of port `0010` have been set and cleared again, the port still has its
FREEZE flag, so its entry is not removed. -/
theorem setThenClearReadWrite_keeps_freeze :
    (setThenClearReadWrite demoMasks demoConsts (fun _ => 0) 0
        { MainWindow.start with
          portView := [⟨"0010".toList, "00".toList, false, false, true⟩] }).map
      (fun w4 => (w4.portView, runOnPorts (callsSince
        { MainWindow.start with
          portView := [⟨"0010".toList, "00".toList, false, false, true⟩] } w4)
        (fun q => if q = 0x10 then demoMasks.DBG_PORT_FREEZE else 0) 0x10)) =
      some ([⟨"0010".toList, "00".toList, false, false, true⟩], demoMasks.DBG_PORT_FREEZE) := by
  decide

/-! ## The port ids of the port table -/

theorem int2hex4 (p : Nat) (hp : p < 65536) :
    int2hex p 4 = [upperDigit (p / 4096 % 16), upperDigit (p / 256 % 16), upperDigit (p / 16 % 16), upperDigit (p % 16)] := by
  have h32 : p % 4294967296 = p := Nat.mod_eq_of_lt (by omega)
  have e7 : p / 16 ^ 7 % 16 = 0 := by norm_num; omega
  have e6 : p / 16 ^ 6 % 16 = 0 := by norm_num; omega
  have e5 : p / 16 ^ 5 % 16 = 0 := by norm_num; omega
  have e4 : p / 16 ^ 4 % 16 = 0 := by norm_num; omega
  have e3 : p / 16 ^ 3 % 16 = p / 4096 % 16 := by norm_num
  have e2 : p / 16 ^ 2 % 16 = p / 256 % 16 := by norm_num
  have e1 : p / 16 ^ 1 % 16 = p / 16 % 16 := by norm_num
  have e0 : p / 16 ^ 0 % 16 = p % 16 := by norm_num
  have z : digitChar 0 = '0' := by decide
  have f3 := (upperDigit_facts (p / 4096 % 16) (Nat.mod_lt _ (by norm_num))).2.2.2.2.2.2.2.2
  have f2 := (upperDigit_facts (p / 256 % 16) (Nat.mod_lt _ (by norm_num))).2.2.2.2.2.2.2.2
  have f1 := (upperDigit_facts (p / 16 % 16) (Nat.mod_lt _ (by norm_num))).2.2.2.2.2.2.2.2
  have f0 := (upperDigit_facts (p % 16) (Nat.mod_lt _ (by norm_num))).2.2.2.2.2.2.2.2
  unfold int2hex number16
  simp only [h32, List.map_cons, List.map_nil, e7, e6, e5, e4, e3, e2, e1, e0, z]
  by_cases h3 : p / 4096 % 16 = 0
  · by_cases h2 : p / 256 % 16 = 0
    · by_cases h1 : p / 16 % 16 = 0
      · by_cases h0 : p % 16 = 0
        · simp [h3, h2, h1, h0, z, rightJustified, toUpper, upperDigit, List.dropWhile]
        · have := f0.not.mpr h0
          simp [h3, h2, h1, z, this, rightJustified, toUpper, upperDigit, List.dropWhile]
      · have := f1.not.mpr h1
        simp [h3, h2, z, this, rightJustified, toUpper, upperDigit, List.dropWhile]
    · have := f2.not.mpr h2
      simp [h3, z, this, rightJustified, toUpper, upperDigit, List.dropWhile]
  · have := f3.not.mpr h3
    simp [this, rightJustified, toUpper, upperDigit, List.dropWhile]

theorem hex2int_four (d3 d2 d1 d0 : Nat) (h3 : d3 < 16) (h2 : d2 < 16) (h1 : d1 < 16)
    (h0 : d0 < 16) :
    hex2int [upperDigit d3, upperDigit d2, upperDigit d1, upperDigit d0] = some (Int.ofNat (((d3 * 16 + d2) * 16 + d1) * 16 + d0)) := by
  obtain ⟨s3, m3, p3, -, -, v3, -, -, -⟩ := upperDigit_facts d3 h3
  obtain ⟨-, -, -, x2, X2, v2, -, -, -⟩ := upperDigit_facts d2 h2
  obtain ⟨-, -, -, -, -, v1, -, -, -⟩ := upperDigit_facts d1 h1
  obtain ⟨-, -, -, -, -, v0, -, -, -⟩ := upperDigit_facts d0 h0
  unfold hex2int stoi16
  simp only [List.dropWhile, s3, m3, p3, if_false, x2, X2, false_or, false_and, and_false,
    List.map_cons, List.map_nil, v3, v2, v1, v0, List.takeWhile, Option.isSome_some,
    List.foldl_cons, List.foldl_nil, Option.getD_some]
  simp
  omega

theorem hex2int_int2hex (p : Nat) (hp : p < 65536) : hex2int (int2hex p 4) = some (Int.ofNat p) := by
  have : ((p / 4096 % 16 * 16 + p / 256 % 16) * 16 + p / 16 % 16) * 16 + p % 16 = p := by omega
  rw [int2hex4 p hp, hex2int_four _ _ _ _ (Nat.mod_lt _ (by norm_num))
    (Nat.mod_lt _ (by norm_num)) (Nat.mod_lt _ (by norm_num)) (Nat.mod_lt _ (by norm_num)), this]

theorem int2hex_valid (p : Nat) (hp : p < 65536) :
    toUpper (int2hex p 4) = int2hex p 4 ∧ find_first_not_of (int2hex p 4) hexChars = none ∧
    (int2hex p 4).isEmpty = false := by
  rw [int2hex4 p hp]
  obtain ⟨-, -, -, -, -, -, u3, c3, -⟩ := upperDigit_facts (p / 4096 % 16) (Nat.mod_lt _ (by norm_num))
  obtain ⟨-, -, -, -, -, -, u2, c2, -⟩ := upperDigit_facts (p / 256 % 16) (Nat.mod_lt _ (by norm_num))
  obtain ⟨-, -, -, -, -, -, u1, c1, -⟩ := upperDigit_facts (p / 16 % 16) (Nat.mod_lt _ (by norm_num))
  obtain ⟨-, -, -, -, -, -, u0, c0, -⟩ := upperDigit_facts (p % 16) (Nat.mod_lt _ (by norm_num))
  refine ⟨by simp [toUpper, u3, u2, u1, u0], ?_, rfl⟩
  simp [find_first_not_of, c3, c2, c1, c0]

theorem TextsOk_nil : TextsOk [] := by
  refine ⟨by simp, ?_⟩
  intro i j a b _ ha
  simp at ha

theorem TextsOk_append (T : List QString) (x : QString) (p : Nat) (hp : p < 65536)
    (hx : x = int2hex p 4) (hnew : x = "0000".toList ∨ ∀ t ∈ T, t ≠ x) (h : TextsOk T) :
    TextsOk (T ++ [x]) := by
  refine ⟨?_, ?_⟩
  · intro t ht
    rcases List.mem_append.mp ht with ht | ht
    · exact h.1 t ht
    · simp at ht
      exact ⟨p, hp, ht.trans hx⟩
  · intro i j a b hij ha hb hab
    by_cases hi : i < T.length
    · by_cases hj : j < T.length
      · rw [List.getElem?_append_left hi] at ha
        rw [List.getElem?_append_left hj] at hb
        exact h.2 i j a b hij ha hb hab
      · rw [List.getElem?_append_left hi] at ha
        rw [List.getElem?_append_right (by omega)] at hb
        have hb1 : b = x := by
          cases hk : j - T.length with
          | zero => rw [hk] at hb; simpa using hb.symm
          | succ k => rw [hk] at hb; simp at hb
        rcases hnew with h0 | hne
        · rw [hab, hb1, h0]
        · exact absurd (hab.trans hb1) (hne a (List.mem_iff_getElem?.mpr ⟨i, ha⟩))
    · by_cases hj : j < T.length
      · rw [List.getElem?_append_left hj] at hb
        rw [List.getElem?_append_right (by omega)] at ha
        have ha1 : a = x := by
          cases hk : i - T.length with
          | zero => rw [hk] at ha; simpa using ha.symm
          | succ k => rw [hk] at ha; simp at ha
        rcases hnew with h0 | hne
        · rw [ha1, h0]
        · exact absurd (hab.symm.trans ha1) (hne b (List.mem_iff_getElem?.mpr ⟨j, hb⟩))
      · rw [List.getElem?_append_right (by omega)] at ha hb
        have hi0 : i - T.length = 0 := by
          cases hk : i - T.length with
          | zero => rfl
          | succ k => rw [hk] at ha; simp at ha
        have hj0 : j - T.length = 0 := by
          cases hk : j - T.length with
          | zero => rfl
          | succ k => rw [hk] at hb; simp at hb
        omega

theorem TextsOk_eraseIdx (T : List QString) (k : Nat) (h : TextsOk T) :
    TextsOk (T.eraseIdx k) := by
  refine ⟨fun t ht => h.1 t ((List.eraseIdx_sublist T k).subset ht), ?_⟩
  intro i j a b hij ha hb hab
  rw [List.getElem?_eraseIdx] at ha hb
  by_cases hi : i < k
  · by_cases hj : j < k
    · rw [if_pos hi] at ha
      rw [if_pos hj] at hb
      exact h.2 i j a b hij ha hb hab
    · rw [if_pos hi] at ha
      rw [if_neg hj] at hb
      exact h.2 i (j + 1) a b (by omega) ha hb hab
  · by_cases hj : j < k
    · rw [if_neg hi] at ha
      rw [if_pos hj] at hb
      exact h.2 (i + 1) j a b (by omega) ha hb hab
    · rw [if_neg hi] at ha
      rw [if_neg hj] at hb
      exact h.2 (i + 1) (j + 1) a b (by omega) ha hb hab

theorem TextsOk_set (T : List QString) (row : Nat) (x : QString) (p : Nat) (hp : p < 65536)
    (hx : x = int2hex p 4) (hnew : ∀ k t, k ≠ row → T[k]? = some t → t ≠ x) (h : TextsOk T) :
    TextsOk (T.set row x) := by
  refine ⟨?_, ?_⟩
  · intro t ht
    obtain ⟨n, hn⟩ := List.mem_iff_getElem?.mp ht
    rw [List.getElem?_set] at hn
    by_cases hr : row = n
    · rw [if_pos hr] at hn
      split at hn
      · simp at hn
        exact ⟨p, hp, hn ▸ hx⟩
      · simp at hn
    · rw [if_neg hr] at hn
      exact h.1 t (List.mem_iff_getElem?.mpr ⟨n, hn⟩)
  · intro i j a b hij ha hb hab
    rw [List.getElem?_set] at ha hb
    by_cases hi : row = i
    · have hj : row ≠ j := by omega
      rw [if_pos hi] at ha
      rw [if_neg hj] at hb
      split at ha
      · simp at ha
        exact absurd (hab.symm.trans ha.symm) (hnew j b (by omega) hb)
      · simp at ha
    · rw [if_neg hi] at ha
      by_cases hj : row = j
      · rw [if_pos hj] at hb
        split at hb
        · simp at hb
          exact absurd (hab.trans hb.symm) (hnew i a (by omega) ha)
        · simp at hb
      · rw [if_neg hj] at hb
        exact h.2 i j a b hij ha hb hab

theorem toUInt16_lt (v : Int) : toUInt16 v < 65536 := by
  unfold toUInt16
  omega

theorem addPort_loop_eq_false (a : QString) :
    ∀ (rows : List PortRow), addPort_loop a rows = false →
      a = "0000".toList ∨ ∀ r ∈ rows, r.port ≠ a := by
  intro rows
  induction rows with
  | nil => intro _; right; simp
  | cons r rs ih =>
      intro h
      rw [addPort_loop] at h
      by_cases hr : r.port = a
      · rw [if_pos hr] at h
        by_cases h0 : a = "0000".toList
        · exact Or.inl h0
        · rw [if_pos h0] at h
          simp at h
      · rw [if_neg hr] at h
        rcases ih h with h0 | hne
        · exact Or.inl h0
        · right
          intro x hx
          rcases List.mem_cons.mp hx with hx | hx
          · rw [hx]; exact hr
          · exact hne x hx

theorem addPort_texts (f : Nat → Nat) (w w1 : MainWindow) (h : addPort f w = some w1) :
    portTexts w1 = portTexts w ∨
    ∃ p, p < 65536 ∧ portTexts w1 = portTexts w ++ [int2hex p 4] ∧
      (int2hex p 4 = "0000".toList ∨ ∀ t ∈ portTexts w, t ≠ int2hex p 4) := by
  have hpv : ∀ c : Bool, (if c = true then { w with currPortAddress := "0000".toList }
      else w).portView = w.portView := by
    intro c; cases c <;> rfl
  unfold addPort at h
  simp only at h
  generalize hw' : (if w.currPortAddress.isEmpty = true then
    { w with currPortAddress := "0000".toList } else w) = w' at h
  have hpv' : w'.portView = w.portView := by rw [← hw']; exact hpv _
  split at h
  · left
    simp only [Option.some.injEq] at h
    rw [← h, portTexts, portTexts, hpv']
  · split at h
    · simp at h
    · rename_i v hv
      split at h
      · left
        simp only [Option.some.injEq] at h
        rw [← h]
        simp [portTexts, MainWindow.call, hpv']
      · rename_i hloop
        right
        refine ⟨toUInt16 v, toUInt16_lt v, ?_, ?_⟩
        · simp only [Option.some.injEq] at h
          rw [← h]
          simp [portTexts, MainWindow.call, hpv']
        · simp only [MainWindow.call, hpv', Bool.not_eq_true] at hloop
          rcases addPort_loop_eq_false _ _ hloop with h0 | hne
          · exact Or.inl h0
          · right
            intro t ht
            obtain ⟨r, hr, hrt⟩ := List.mem_map.mp ht
            rw [← hrt]
            exact hne r hr

theorem map_port_eraseIdx :
    ∀ (l : List PortRow) (k : Nat),
      (l.eraseIdx k).map PortRow.port = (l.map PortRow.port).eraseIdx k := by
  intro l
  induction l with
  | nil => intro k; simp
  | cons r rs ih =>
      intro k
      cases k with
      | zero => simp
      | succ k => simp [ih k]

theorem deletePort_texts (next : Option Nat) (w w1 : MainWindow)
    (h : deletePort next w = some w1) :
    portTexts w1 = portTexts w ∨ ∃ k, portTexts w1 = (portTexts w).eraseIdx k := by
  unfold deletePort at h
  split at h
  · left
    simp only [Option.some.injEq] at h
    rw [h]
  · split at h
    · left
      simp only [Option.some.injEq] at h
      rw [h]
    · rename_i k _
      split at h
      · simp at h
      · split at h
        · simp at h
        · right
          refine ⟨k, ?_⟩
          simp only [Option.some.injEq] at h
          rw [← h]
          simp [portTexts, MainWindow.call, map_port_eraseIdx]

theorem map_port_modify_port (t : QString) :
    ∀ (l : List PortRow) (i : Nat),
      (l.modify (fun x => { x with port := t }) i).map PortRow.port =
        (l.map PortRow.port).set i t := by
  intro l
  induction l with
  | nil => intro i; simp
  | cons r rs ih =>
      intro i
      cases i with
      | zero => simp
      | succ i => simp [ih i]

theorem portTexts_setPortText (w : MainWindow) (row : Nat) (t : QString) :
    portTexts (setPortText w row t) = (portTexts w).set row t := by
  simp [portTexts, setPortText, map_port_modify_port]

theorem changePortValues_loop_eq_false (a : QString) (row : Nat) :
    ∀ (rows : List PortRow) (i0 : Nat), changePortValues_loop a row rows i0 = false →
      ∀ (k : Nat) (r : PortRow), rows[k]? = some r → i0 + k ≠ row → r.port ≠ a := by
  intro rows
  induction rows with
  | nil => intro i0 _ k r hk; simp at hk
  | cons x xs ih =>
      intro i0 h k r hk hne
      rw [changePortValues_loop] at h
      split at h
      · simp at h
      · rename_i hc
        cases k with
        | zero =>
            simp at hk
            subst hk
            intro hp
            exact hc ⟨hp, by simpa using hne⟩
        | succ k =>
            simp at hk
            exact ih (i0 + 1) h k r hk (by omega)

theorem changePortValues_valid_texts (K : DebugMasks) (D : DebugConsts) (f : Nat → Nat)
    (w w1 : MainWindow) (row : Nat) (s : QString)
    (h : changePortValues_valid K D f w row s = some w1) :
    ∃ x, portTexts w1 = (portTexts w).set row x ∧
      (x = int2hex w.prevPortAddress 4 ∨
        ∃ q, q < 65536 ∧ x = int2hex q 4 ∧
          ∀ (k : Nat) (t : QString), k ≠ row → (portTexts w)[k]? = some t → t ≠ x) := by
  unfold changePortValues_valid at h
  split at h
  · simp at h
  · rename_i v hv
    simp only at h
    split at h
    · simp only [Option.some.injEq] at h
      refine ⟨_, ?_, Or.inl rfl⟩
      rw [← h, portTexts_setPortText]
    · rename_i hloop
      split at h
      · simp at h
      · rename_i r hr
        simp only [Option.some.injEq] at h
        refine ⟨int2hex (toUInt16 v) 4, ?_, Or.inr ⟨toUInt16 v, toUInt16_lt v, rfl, ?_⟩⟩
        · rw [← h]
          simp [portTexts, setPortText, MainWindow.call, map_port_modify_data,
            map_port_modify_port]
        · intro k t hk ht
          simp only [portTexts, List.getElem?_map] at ht
          obtain ⟨r1, hr1, hr1t⟩ := Option.map_eq_some'.mp ht
          rw [← hr1t]
          simp only [Bool.not_eq_true] at hloop
          exact changePortValues_loop_eq_false _ row _ 0 hloop k r1 hr1 (by omega)

theorem changePortValues_nested_texts (K : DebugMasks) (D : DebugConsts) (f : Nat → Nat)
    (w w1 : MainWindow) (row : Nat)
    (h : changePortValues_nested K D f w row = some w1) :
    ∃ x, portTexts w1 = (portTexts w).set row x ∧
      (x = int2hex w.prevPortAddress 4 ∨
        ∃ q, q < 65536 ∧ x = int2hex q 4 ∧
          ∀ (k : Nat) (t : QString), k ≠ row → (portTexts w)[k]? = some t → t ≠ x) := by
  unfold changePortValues_nested at h
  split at h
  · simp at h
  · simp only at h
    split at h
    · simp only [Option.some.injEq] at h
      refine ⟨_, ?_, Or.inl rfl⟩
      rw [← h, portTexts_setPortText]
    · exact changePortValues_valid_texts K D f w w1 row _ h

theorem set_same (T : List QString) (row : Nat) (a : QString) (h : T[row]? = some a) :
    T.set row a = T := by
  apply List.ext_getElem?
  intro n
  rw [List.getElem?_set]
  by_cases hn : row = n
  · subst hn
    rw [if_pos rfl, h]
    have : row < T.length := by
      by_contra hc
      rw [List.getElem?_eq_none (by omega)] at h
      simp at h
    rw [if_pos this]
  · rw [if_neg hn]

theorem setPreviousPortValues_ok (w w1 : MainWindow) (row : Nat)
    (hinv : TextsOk (portTexts w)) (h : setPreviousPortValues w row 0 = some w1) :
    ∃ r p, w.portView[row]? = some r ∧ p < 65536 ∧ r.port = int2hex p 4 ∧
      w1 = { w with prevPortAddress := p } := by
  unfold setPreviousPortValues at h
  split at h
  · simp at h
  · rename_i r hr
    have hmem : r.port ∈ portTexts w :=
      List.mem_map.mpr ⟨r, List.mem_iff_getElem?.mpr ⟨row, hr⟩, rfl⟩
    obtain ⟨p, hp, hrp⟩ := hinv.1 _ hmem
    have hne : r.port.isEmpty = false := by rw [hrp]; exact (int2hex_valid p hp).2.2
    have hv : hex2int r.port = some (Int.ofNat p) := by rw [hrp]; exact hex2int_int2hex p hp
    have h16 : toUInt16 (Int.ofNat p) = p := by
      unfold toUInt16
      simp only [Int.ofNat_eq_coe]
      omega
    simp only [PortRow.text, if_true, hne, Bool.false_eq_true, if_false, hv, h16,
      Option.some.injEq] at h
    exact ⟨r, p, hr, hp, hrp, h.symm⟩

theorem editPort_texts (K : DebugMasks) (D : DebugConsts) (f : Nat → Nat)
    (w w1 : MainWindow) (row : Nat) (text : QString)
    (hinv : TextsOk (portTexts w)) (h : editPort K D f row text w = some w1) :
    portTexts w1 = portTexts w ∨
    ∃ q, q < 65536 ∧ portTexts w1 = (portTexts w).set row (int2hex q 4) ∧
      ∀ (k : Nat) (t : QString), k ≠ row → (portTexts w)[k]? = some t → t ≠ int2hex q 4 := by
  unfold editPort at h
  split at h
  · simp at h
  · rename_i wa hwa
    obtain ⟨r, p, hr, hp, hrp, hwa1⟩ := setPreviousPortValues_ok w wa row hinv hwa
    have hTrow : (portTexts w)[row]? = some r.port := by
      simp [portTexts, List.getElem?_map, hr]
    have hta : portTexts wa = portTexts w := by rw [hwa1]; rfl
    have hpa : wa.prevPortAddress = p := by rw [hwa1]
    have hra : wa.portView[row]? = some r := by rw [hwa1]; exact hr
    simp only [hra] at h
    split at h
    · left
      simp only [Option.some.injEq] at h
      rw [← h, hta]
    · rename_i hne
      -- the outcome of a set of the row text, in terms of the original texts
      have key : ∀ (wx : MainWindow) (y : QString),
          portTexts wx = (portTexts w).set row y → wx.prevPortAddress = p →
          (∃ x, portTexts w1 = (portTexts wx).set row x ∧
            (x = int2hex wx.prevPortAddress 4 ∨
              ∃ q, q < 65536 ∧ x = int2hex q 4 ∧
                ∀ (k : Nat) (t : QString), k ≠ row → (portTexts wx)[k]? = some t → t ≠ x)) →
          portTexts w1 = portTexts w ∨
          ∃ q, q < 65536 ∧ portTexts w1 = (portTexts w).set row (int2hex q 4) ∧
            ∀ (k : Nat) (t : QString), k ≠ row → (portTexts w)[k]? = some t →
              t ≠ int2hex q 4 := by
        intro wx y hwx hpx hex
        obtain ⟨x, hx, hxc⟩ := hex
        rw [hwx, List.set_set] at hx
        rcases hxc with hx0 | ⟨q, hq, hxq, hdist⟩
        · left
          rw [hx, hx0, hpx, ← hrp]
          exact set_same _ _ _ hTrow
        · right
          refine ⟨q, hq, by rw [hx, hxq], ?_⟩
          intro k t hk ht
          rw [← hxq]
          apply hdist k t hk
          rw [hwx, List.getElem?_set_ne (Ne.symm hk)]
          exact ht
      have htb : portTexts (setPortText wa row text) = (portTexts w).set row text := by
        rw [portTexts_setPortText, hta]
      have hpb : (setPortText wa row text).prevPortAddress = p := by
        simp [setPortText, hpa]
      have hrb : (setPortText wa row text).portView[row]? = some { r with port := text } := by
        simp [setPortText, hra]
      unfold changePortValues at h
      simp only [hrb] at h
      simp only [gt_iff_lt, Nat.not_lt_zero, if_false, if_true] at h
      split at h
      · -- the text is rejected: the slot runs again on the text put back
        split at h
        · rename_i heq
          exfalso
          apply hne
          rw [← heq, hpb, hrp]
        · apply key (setPortText (setPortText wa row text) row
            (int2hex (setPortText wa row text).prevPortAddress 4))
            (int2hex (setPortText wa row text).prevPortAddress 4) ?_ ?_
            (changePortValues_nested_texts K D f _ w1 row h)
          · rw [portTexts_setPortText, htb, List.set_set]
          · simp [setPortText, hpa]
      · exact key _ text htb hpb (changePortValues_valid_texts K D f _ w1 row _ h)

theorem PortOp_run_texts (K : DebugMasks) (D : DebugConsts) (op : PortOp) (w w1 : MainWindow)
    (hinv : TextsOk (portTexts w)) (h : op.run K D w = some w1) : TextsOk (portTexts w1) := by
  cases op with
  | add portRead =>
      rcases addPort_texts portRead w w1 h with he | ⟨p, hp, he, hnew⟩
      · rw [he]; exact hinv
      · rw [he]; exact TextsOk_append _ _ p hp rfl hnew hinv
  | edit portRead row text =>
      rcases editPort_texts K D portRead w w1 row text hinv h with he | ⟨q, hq, he, hnew⟩
      · rw [he]; exact hinv
      · rw [he]; exact TextsOk_set _ row _ q hq rfl hnew hinv
  | delete next =>
      rcases deletePort_texts next w w1 h with he | ⟨k, he⟩
      · rw [he]; exact hinv
      · rw [he]; exact TextsOk_eraseIdx _ k hinv
  | press row col =>
      have : portTexts w1 = portTexts w := by
        simp only [PortOp.run] at h
        unfold setPreviousPortValues at h
        split at h
        · simp at h
        · split at h
          · simp at h
          · split at h
            · simp only [Option.some.injEq] at h; rw [h]
            · split at h
              · simp at h
              · simp only [Option.some.injEq] at h; rw [← h]; rfl
      rw [this]; exact hinv
  | select row =>
      simp only [PortOp.run, Option.some.injEq] at h
      rw [← h]; exact hinv

theorem runPortOps_texts (K : DebugMasks) (D : DebugConsts) :
    ∀ (ops : List PortOp) (w w1 : MainWindow), TextsOk (portTexts w) →
      runPortOps K D ops w = some w1 → TextsOk (portTexts w1) := by
  intro ops
  induction ops with
  | nil =>
      intro w w1 hinv h
      simp only [runPortOps, Option.some.injEq] at h
      rw [← h]; exact hinv
  | cons op ops ih =>
      intro w w1 hinv h
      rw [runPortOps] at h
      split at h
      · simp at h
      · rename_i w2 h2
        exact ih w2 w1 (PortOp_run_texts K D op w w2 hinv h2) h

theorem TextsOk_id (w : MainWindow) (hinv : TextsOk (portTexts w)) (i : Nat) (r : PortRow)
    (hr : w.portView[i]? = some r) :
    ∃ p, p < 65536 ∧ r.port = int2hex p 4 ∧ r.id = some p := by
  have hmem : r.port ∈ portTexts w :=
    List.mem_map.mpr ⟨r, List.mem_iff_getElem?.mpr ⟨i, hr⟩, rfl⟩
  obtain ⟨p, hp, hrp⟩ := hinv.1 _ hmem
  refine ⟨p, hp, hrp, ?_⟩
  have h16 : toUInt16 (Int.ofNat p) = p := by
    unfold toUInt16
    simp only [Int.ofNat_eq_coe]
    omega
  rw [PortRow.id, hrp, hex2int_int2hex p hp, Option.map_some', h16]

/-- C12, as the code has it: starting from an empty port table, after every
sequence of `addPort`, `deletePort`, presses, changes of selection and edits of
a port cell made after pressing it (`setPreviousPortValues`, then
`changePortValues`), every row stands for a 16-bit port id, and two different
rows with the same port id both stand for port `0000`: the port ids other than
`0000` are pairwise distinct. -/
theorem port_ids_distinct (K : DebugMasks) (D : DebugConsts) (ops : List PortOp)
    (w0 w : MainWindow) (h0 : w0.portView = []) (hrun : runPortOps K D ops w0 = some w)
    (i j : Nat) (ri rj : PortRow) (hij : i ≠ j)
    (hi : w.portView[i]? = some ri) (hj : w.portView[j]? = some rj) :
    (∃ p, p < 65536 ∧ ri.id = some p) ∧ (ri.id = rj.id → ri.id = some 0 ∧ rj.id = some 0) := by
  have hinv0 : TextsOk (portTexts w0) := by
    rw [portTexts, h0]
    exact TextsOk_nil
  have hinv := runPortOps_texts K D ops w0 w hinv0 hrun
  obtain ⟨pi, hpi, hti, hidi⟩ := TextsOk_id w hinv i ri hi
  obtain ⟨pj, hpj, htj, hidj⟩ := TextsOk_id w hinv j rj hj
  refine ⟨⟨pi, hpi, hidi⟩, ?_⟩
  intro hid
  have hpp : pi = pj := by
    rw [hidi, hidj] at hid
    exact Option.some.inj hid
  have hTi : (portTexts w)[i]? = some ri.port := by simp [portTexts, List.getElem?_map, hi]
  have hTj : (portTexts w)[j]? = some rj.port := by simp [portTexts, List.getElem?_map, hj]
  have hzero := hinv.2 i j ri.port rj.port hij hTi hTj (by rw [hti, htj, hpp])
  have hz : hex2int "0000".toList = some 0 := by decide
  have hi0 : ri.id = some 0 := by
    rw [PortRow.id, hzero, hz]
    rfl
  exact ⟨hi0, by rw [← hid]; exact hi0⟩

theorem port_ids_distinct_witness :
    (MainWindow.start.portView = [] ∧
      (runPortOps demoMasks demoConsts
        [PortOp.add (fun _ => 0), PortOp.edit (fun _ => 0) 0 "10".toList,
         PortOp.add (fun _ => 0), PortOp.edit (fun _ => 0) 1 "0010".toList,
         PortOp.edit (fun _ => 0) 1 "zz".toList, PortOp.edit (fun _ => 0) 1 "20".toList,
         PortOp.add (fun _ => 0), PortOp.select (some 2), PortOp.delete none]
        MainWindow.start).map portTexts = some ["0010".toList, "0020".toList]) ∧
    ∃ w, runPortOps demoMasks demoConsts
        [PortOp.add (fun _ => 0), PortOp.edit (fun _ => 0) 0 "10".toList,
         PortOp.add (fun _ => 0), PortOp.edit (fun _ => 0) 1 "0010".toList,
         PortOp.edit (fun _ => 0) 1 "zz".toList, PortOp.edit (fun _ => 0) 1 "20".toList,
         PortOp.add (fun _ => 0), PortOp.select (some 2), PortOp.delete none]
        MainWindow.start = some w ∧
      ∀ (ri rj : PortRow), w.portView[0]? = some ri → w.portView[1]? = some rj →
        (∃ p, p < 65536 ∧ ri.id = some p) ∧
          (ri.id = rj.id → ri.id = some 0 ∧ rj.id = some 0) :=
  ⟨⟨rfl, by decide⟩,
    (Option.isSome_iff_exists.mp (by decide :
      (runPortOps demoMasks demoConsts
        [PortOp.add (fun _ => 0), PortOp.edit (fun _ => 0) 0 "10".toList,
         PortOp.add (fun _ => 0), PortOp.edit (fun _ => 0) 1 "0010".toList,
         PortOp.edit (fun _ => 0) 1 "zz".toList, PortOp.edit (fun _ => 0) 1 "20".toList,
         PortOp.add (fun _ => 0), PortOp.select (some 2), PortOp.delete none]
        MainWindow.start).isSome = true)).elim
      (fun w hw => ⟨w, hw, fun ri rj hi hj =>
        port_ids_distinct demoMasks demoConsts _ MainWindow.start w rfl hw 0 1 ri rj
          (by decide) hi hj⟩)⟩

/-- C12, as stated, fails: pressing Add twice on the empty table, with nothing
pending, gives two rows that both carry the port id `0000`. -/
theorem addPort_zero_twice :
    (runPortOps demoMasks demoConsts [PortOp.add (fun _ => 0), PortOp.add (fun _ => 0)]
        MainWindow.start).map (fun w => (portTexts w, w.portView.map PortRow.id)) =
      some (["0000".toList, "0000".toList], [some 0, some 0]) := by
  decide

/-- An edit of the port cell that is not preceded by a press of that cell uses
the port id remembered from elsewhere: with the rows `0001` and `0002`, the
second one pressed last, a rejected text in the first row puts `0002` there. -/
theorem changePortValues_stale_previous :
    (changePortValues demoMasks demoConsts (fun _ => 0)
        (setPortText
          { MainWindow.start with
            portView := [⟨"0001".toList, "00".toList, false, false, false⟩,
                         ⟨"0002".toList, "00".toList, false, false, false⟩],
            prevPortAddress := 2 } 0 "zz".toList) 0 0).map portTexts =
      some ["0002".toList, "0002".toList] := by
  decide

/-! ## Malformed input and the search of a hit -/

theorem find_first_not_of_isSome (set : QString) :
    ∀ (s : QString), (∃ c ∈ s, c ∉ set) → (find_first_not_of s set).isSome = true := by
  intro s h
  unfold find_first_not_of
  rw [List.findIdx?_isSome]
  obtain ⟨c, hc, hn⟩ := h
  rw [List.any_eq_true]
  exact ⟨c, hc, by simpa using hn⟩

/-- C28: when the pending breakpoint address holds, after upper-casing, a
character outside `0`-`9`, `A`-`F`, `addBreakpoint` returns false and leaves the
whole window as it was: no row added, no call made, the pending string kept,
whatever the pending port id is.  When the pending port id holds such a
character, `addPort` returns and leaves the whole window as it was, whatever
the pending breakpoint address is.  An empty pending string is handled exactly
as the pending string `000000` (`0000` for a port), that is, as address zero. -/
theorem add_rejects_malformed (D : DebugConsts) (portRead : Nat → Nat) (w : MainWindow) :
    ((∃ c ∈ toUpper w.currBreakpointAddress, c ∉ hexChars) →
      addBreakpoint D w = some (false, w)) ∧
    ((∃ c ∈ toUpper w.currPortAddress, c ∉ hexChars) → addPort portRead w = some w) ∧
    addBreakpoint D { w with currBreakpointAddress := [] } =
      addBreakpoint D { w with currBreakpointAddress := "000000".toList } ∧
    addPort portRead { w with currPortAddress := [] } =
      addPort portRead { w with currPortAddress := "0000".toList } ∧
    hex2int (toUpper "000000".toList) = some 0 ∧ hex2int (toUpper "0000".toList) = some 0 := by
  refine ⟨?_, ?_, rfl, rfl, by decide, by decide⟩
  · intro hB
    have hBe : w.currBreakpointAddress.isEmpty = false := by
      cases hc : w.currBreakpointAddress with
      | nil => rw [hc] at hB; simp [toUpper] at hB
      | cons c cs => rfl
    unfold addBreakpoint
    simp only [hBe, Bool.false_eq_true, if_false, find_first_not_of_isSome _ _ hB, if_true]
  · intro hP
    have hPe : w.currPortAddress.isEmpty = false := by
      cases hc : w.currPortAddress with
      | nil => rw [hc] at hP; simp [toUpper] at hP
      | cons c cs => rfl
    unfold addPort
    simp only [hPe, Bool.false_eq_true, if_false, find_first_not_of_isSome _ _ hP, if_true]

theorem add_rejects_malformed_witness :
    ((∃ c ∈ toUpper "12g4".toList, c ∉ hexChars) ∧ (∃ c ∈ toUpper "0x10".toList, c ∉ hexChars)) ∧
    addBreakpoint demoConsts { MainWindow.start with currBreakpointAddress := "12g4".toList } =
      some (false, { MainWindow.start with currBreakpointAddress := "12g4".toList }) ∧
    addPort (fun _ => 0x5A) { MainWindow.start with currPortAddress := "0x10".toList } =
      some { MainWindow.start with currPortAddress := "0x10".toList } :=
  ⟨⟨⟨'G', by decide, by decide⟩, ⟨'X', by decide, by decide⟩⟩,
    (add_rejects_malformed demoConsts (fun _ => 0x5A)
      { MainWindow.start with currBreakpointAddress := "12g4".toList }).1
      ⟨'G', by decide, by decide⟩,
    (add_rejects_malformed demoConsts (fun _ => 0x5A)
      { MainWindow.start with currPortAddress := "0x10".toList }).2.1
      ⟨'X', by decide, by decide⟩⟩

theorem processDebugCommand_memory_row (D : DebugConsts) (pc : Nat) (reason : Int) (input : Nat)
    (w : MainWindow) (k : Nat) (r : BreakRow) (hin : input < 4294967296)
    (hreason : reason = D.HIT_READ_BREAKPOINT ∨ reason = D.HIT_WRITE_BREAKPOINT ∨
      reason = D.HIT_EXEC_BREAKPOINT)
    (hnum : reason ≤ D.NUM_DBG_COMMANDS)
    (hport : reason ≠ D.HIT_PORT_READ_BREAKPOINT ∧ reason ≠ D.HIT_PORT_WRITE_BREAKPOINT)
    (hk : findEntry input (w.breakpointView.map BreakRow.address) 0 = some k)
    (hrk : w.breakpointView[k]? = some r) :
    (processDebugCommand D pc reason input w).map MainWindow.breakpointViewRow =
      some (some k) := by
  have hmod : input % 4294967296 = input := Nat.mod_eq_of_lt hin
  have hnum1 : ¬ reason > D.NUM_DBG_COMMANDS := by omega
  have hnp : ¬ (reason = D.HIT_PORT_READ_BREAKPOINT ∨ reason = D.HIT_PORT_WRITE_BREAKPOINT) := by
    intro h
    rcases h with h | h
    · exact hport.1 h
    · exact hport.2 h
  unfold processDebugCommand
  simp only [hmod, hnum1, if_false, hreason, if_true, hk, hrk, hnp]
  by_cases hex : reason = D.HIT_EXEC_BREAKPOINT
  · simp [hex, MainWindow.call]
  · simp [hex, MainWindow.call]

theorem processDebugCommand_port_row (D : DebugConsts) (pc : Nat) (reason : Int) (input : Nat)
    (w : MainWindow) (k : Nat) (r : PortRow) (hin : input < 4294967296)
    (hreason : reason = D.HIT_PORT_READ_BREAKPOINT ∨ reason = D.HIT_PORT_WRITE_BREAKPOINT)
    (hnum : reason ≤ D.NUM_DBG_COMMANDS)
    (hmem : reason ≠ D.HIT_READ_BREAKPOINT ∧ reason ≠ D.HIT_WRITE_BREAKPOINT ∧
      reason ≠ D.HIT_EXEC_BREAKPOINT)
    (hk : findEntry input (w.portView.map PortRow.port) 0 = some k)
    (hrk : w.portView[k]? = some r) :
    (processDebugCommand D pc reason input w).map MainWindow.portViewRow = some (some k) := by
  have hmod : input % 4294967296 = input := Nat.mod_eq_of_lt hin
  have hnum1 : ¬ reason > D.NUM_DBG_COMMANDS := by omega
  have hnm : ¬ (reason = D.HIT_READ_BREAKPOINT ∨ reason = D.HIT_WRITE_BREAKPOINT ∨
      reason = D.HIT_EXEC_BREAKPOINT) := by
    intro h
    rcases h with h | h | h
    · exact hmem.1 h
    · exact hmem.2.1 h
    · exact hmem.2.2 h
  unfold processDebugCommand
  simp only [hmod, hnum1, if_false, hnm, hreason, if_true, List.drop_zero, hk, hrk]
  simp [MainWindow.call]

/-- C29: for a reason above `NUM_DBG_COMMANDS`, `processDebugCommand` runs
`executeDebugCommand` and returns without looking at either table (it returns
also when the tables are empty).  For a memory reason and a breakpoint table
whose texts convert and that holds a row for the reported address, whatever
the port table holds, the search returns the first row whose key is the
reported one; that row lies below the row count, no row at or above the row
count is read, and the row is selected.  The same holds for a port reason and
a port table of that kind, whatever the breakpoint table holds. -/
theorem processDebugCommand_search (D : DebugConsts) (pc : Nat) (input : Nat) (w : MainWindow)
    (hin : input < 4294967296) :
    (∀ reasonB : Int,
      (reasonB = D.HIT_READ_BREAKPOINT ∨ reasonB = D.HIT_WRITE_BREAKPOINT ∨
        reasonB = D.HIT_EXEC_BREAKPOINT) →
      reasonB ≤ D.NUM_DBG_COMMANDS →
      (reasonB ≠ D.HIT_PORT_READ_BREAKPOINT ∧ reasonB ≠ D.HIT_PORT_WRITE_BREAKPOINT) →
      (∀ r ∈ w.breakpointView, hex2int r.address ≠ none) →
      (∃ r ∈ w.breakpointView, (hex2int r.address).map toUInt32 = some input) →
      ∃ row r, findEntry input (w.breakpointView.map BreakRow.address) 0 = some row ∧
        row < w.breakpointView.length ∧ w.breakpointView[row]? = some r ∧
        (hex2int r.address).map toUInt32 = some input ∧
        (∀ j x, j < row → w.breakpointView[j]? = some x →
          (hex2int x.address).map toUInt32 ≠ some input) ∧
        (processDebugCommand D pc reasonB input w).map MainWindow.breakpointViewRow =
          some (some row)) ∧
    (∀ reasonP : Int,
      (reasonP = D.HIT_PORT_READ_BREAKPOINT ∨ reasonP = D.HIT_PORT_WRITE_BREAKPOINT) →
      reasonP ≤ D.NUM_DBG_COMMANDS →
      (reasonP ≠ D.HIT_READ_BREAKPOINT ∧ reasonP ≠ D.HIT_WRITE_BREAKPOINT ∧
        reasonP ≠ D.HIT_EXEC_BREAKPOINT) →
      (∀ r ∈ w.portView, hex2int r.port ≠ none) →
      (∃ r ∈ w.portView, (hex2int r.port).map toUInt32 = some input) →
      ∃ row r, findEntry input (w.portView.map PortRow.port) 0 = some row ∧
        row < w.portView.length ∧ w.portView[row]? = some r ∧
        (hex2int r.port).map toUInt32 = some input ∧
        (∀ j x, j < row → w.portView[j]? = some x →
          (hex2int x.port).map toUInt32 ≠ some input) ∧
        (processDebugCommand D pc reasonP input w).map MainWindow.portViewRow =
          some (some row)) ∧
    (∀ reasonC : Int, reasonC > D.NUM_DBG_COMMANDS →
      processDebugCommand D pc reasonC input w =
        some (executeDebugCommand w (toUInt32 (reasonC - D.DBG_PORT_RANGE)) (input % 256)) ∧
      (processDebugCommand D pc reasonC input
        { w with breakpointView := [], portView := [] }).isSome = true) := by
  refine ⟨?_, ?_, ?_⟩
  · intro reasonB hB hBn hBp hparseB hhasB
    have hp1 : ∀ t ∈ w.breakpointView.map BreakRow.address, hex2int t ≠ none := by
      intro t ht
      obtain ⟨r, hr, hrt⟩ := List.mem_map.mp ht
      rw [← hrt]
      exact hparseB r hr
    have hh1 : ∃ t ∈ w.breakpointView.map BreakRow.address,
        (hex2int t).map toUInt32 = some input := by
      obtain ⟨r, hr, hra⟩ := hhasB
      exact ⟨r.address, List.mem_map.mpr ⟨r, hr, rfl⟩, hra⟩
    obtain ⟨k, hk, ⟨t, htk, hta⟩, hbefore⟩ := findEntry_first input _ 0 hp1 hh1
    rw [List.getElem?_map] at htk
    obtain ⟨r, hrk, hrt⟩ := Option.map_eq_some'.mp htk
    simp only [Nat.zero_add] at hk
    have hlt : k < w.breakpointView.length := by
      by_contra hc
      rw [List.getElem?_eq_none (by omega)] at hrk
      simp at hrk
    refine ⟨k, r, hk, hlt, hrk, by rw [hrt]; exact hta, ?_,
      processDebugCommand_memory_row D pc reasonB input w k r hin hB hBn hBp hk hrk⟩
    intro j x hj hx
    exact hbefore j hj x.address (by rw [List.getElem?_map, hx]; rfl)
  · intro reasonP hP hPn hPm hparseP hhasP
    have hp1 : ∀ t ∈ w.portView.map PortRow.port, hex2int t ≠ none := by
      intro t ht
      obtain ⟨r, hr, hrt⟩ := List.mem_map.mp ht
      rw [← hrt]
      exact hparseP r hr
    have hh1 : ∃ t ∈ w.portView.map PortRow.port,
        (hex2int t).map toUInt32 = some input := by
      obtain ⟨r, hr, hra⟩ := hhasP
      exact ⟨r.port, List.mem_map.mpr ⟨r, hr, rfl⟩, hra⟩
    obtain ⟨k, hk, ⟨t, htk, hta⟩, hbefore⟩ := findEntry_first input _ 0 hp1 hh1
    rw [List.getElem?_map] at htk
    obtain ⟨r, hrk, hrt⟩ := Option.map_eq_some'.mp htk
    simp only [Nat.zero_add] at hk
    have hlt : k < w.portView.length := by
      by_contra hc
      rw [List.getElem?_eq_none (by omega)] at hrk
      simp at hrk
    refine ⟨k, r, hk, hlt, hrk, by rw [hrt]; exact hta, ?_,
      processDebugCommand_port_row D pc reasonP input w k r hin hP hPn hPm hk hrk⟩
    intro j x hj hx
    exact hbefore j hj x.port (by rw [List.getElem?_map, hx]; rfl)
  · intro reasonC hC
    constructor
    · unfold processDebugCommand
      simp only [hC, if_true, Nat.mod_eq_of_lt hin]
    · unfold processDebugCommand
      simp only [hC, if_true]
      rfl

theorem processDebugCommand_search_witness :
    ((0x10 : Nat) < 4294967296 ∧ (2 : Int) ≤ demoConsts.NUM_DBG_COMMANDS ∧
      (7 : Int) ≤ demoConsts.NUM_DBG_COMMANDS ∧ (9 : Int) > demoConsts.NUM_DBG_COMMANDS) ∧
    (∃ row r, findEntry 0x10
        (([⟨"000020".toList, false, true, false⟩,
           ⟨"000010".toList, false, false, true⟩] : List BreakRow).map BreakRow.address) 0 =
          some row ∧
      row < 2 ∧
      ([⟨"000020".toList, false, true, false⟩,
        ⟨"000010".toList, false, false, true⟩] : List BreakRow)[row]? = some r ∧
      (hex2int r.address).map toUInt32 = some 0x10 ∧
      (processDebugCommand demoConsts 0x100 2 0x10
        { MainWindow.start with
          breakpointView := [⟨"000020".toList, false, true, false⟩,
                             ⟨"000010".toList, false, false, true⟩] }).map
        MainWindow.breakpointViewRow = some (some row)) ∧
    (∃ row r, findEntry 0x10
        (([⟨"0020".toList, "00".toList, false, true, false⟩,
           ⟨"0010".toList, "00".toList, true, false, false⟩] : List PortRow).map
          PortRow.port) 0 = some row ∧
      row < 2 ∧
      ([⟨"0020".toList, "00".toList, false, true, false⟩,
        ⟨"0010".toList, "00".toList, true, false, false⟩] : List PortRow)[row]? = some r ∧
      (hex2int r.port).map toUInt32 = some 0x10 ∧
      (processDebugCommand demoConsts 0x100 7 0x10
        { MainWindow.start with
          portView := [⟨"0020".toList, "00".toList, false, true, false⟩,
                       ⟨"0010".toList, "00".toList, true, false, false⟩] }).map
        MainWindow.portViewRow = some (some row)) ∧
    (processDebugCommand demoConsts 0x100 9 0x10 MainWindow.start).isSome = true :=
  ⟨⟨by decide, by decide, by decide, by decide⟩,
    ((processDebugCommand_search demoConsts 0x100 0x10
      { MainWindow.start with
        breakpointView := [⟨"000020".toList, false, true, false⟩,
                           ⟨"000010".toList, false, false, true⟩] } (by decide)).1 2
      (by decide) (by decide) (by decide) (by decide)
      ⟨⟨"000010".toList, false, false, true⟩, by decide, by decide⟩).elim
      (fun row h => h.elim (fun r h1 =>
        ⟨row, r, h1.1, h1.2.1, h1.2.2.1, h1.2.2.2.1, h1.2.2.2.2.2⟩)),
    ((processDebugCommand_search demoConsts 0x100 0x10
      { MainWindow.start with
        portView := [⟨"0020".toList, "00".toList, false, true, false⟩,
                     ⟨"0010".toList, "00".toList, true, false, false⟩] } (by decide)).2.1 7
      (by decide) (by decide) (by decide) (by decide)
      ⟨⟨"0010".toList, "00".toList, true, false, false⟩, by decide, by decide⟩).elim
      (fun row h => h.elim (fun r h1 =>
        ⟨row, r, h1.1, h1.2.1, h1.2.2.1, h1.2.2.2.1, h1.2.2.2.2.2⟩)),
    ((processDebugCommand_search demoConsts 0x100 0x10 MainWindow.start (by decide)).2.2 9
      (by decide)).2⟩

/-! ## Saving on close -/

theorem NoSaveBetween_refl (w : MainWindow) : NoSaveBetween w w :=
  ⟨[], by simp, rfl, rfl⟩

theorem NoSaveBetween_trans {w w1 w2 : MainWindow} (h1 : NoSaveBetween w w1)
    (h2 : NoSaveBetween w1 w2) : NoSaveBetween w w2 := by
  obtain ⟨c1, e1, f1, k1⟩ := h1
  obtain ⟨c2, e2, f2, k2⟩ := h2
  refine ⟨c1 ++ c2, by rw [e2, e1, List.append_assoc], ?_, k2.trans k1⟩
  rw [List.filter_append, f1, f2]
  rfl

theorem refreshVariableList_noSave (vat : List Nat) (w : MainWindow) :
    NoSaveBetween w (refreshVariableList vat w) := by
  unfold refreshVariableList
  cases hd : w.debuggerOn <;> cases hr : w.inReceivingMode
  · exact ⟨[Call.setReceiveState true], by simp [hd, hr, MainWindow.call],
      by simp [Call.isEmuSave], by simp [hd, hr, MainWindow.call]⟩
  · exact ⟨[Call.setReceiveState false], by simp [hd, hr, MainWindow.call],
      by simp [Call.isEmuSave], by simp [hd, hr, MainWindow.call]⟩
  · exact ⟨[], by simp [hd], by simp, by simp [hd]⟩
  · exact ⟨[], by simp [hd], by simp, by simp [hd]⟩

theorem setDebuggerState_noSave (state : Bool) (w : MainWindow) :
    NoSaveBetween w (setDebuggerState state w) := by
  unfold setDebuggerState
  cases state
  · exact ⟨[Call.setReceiveState false], by simp [MainWindow.call],
      by simp [Call.isEmuSave], by simp [MainWindow.call]⟩
  · exact ⟨[Call.debug_clear_run_until, Call.setReceiveState false], by simp [MainWindow.call],
      by simp [Call.isEmuSave], by simp [MainWindow.call]⟩

theorem updateDebuggerChanges_noSave (commitOk : Bool) (w w1 : MainWindow)
    (h : updateDebuggerChanges commitOk w = some w1) : NoSaveBetween w w1 := by
  unfold updateDebuggerChanges at h
  split at h
  · simp only [Option.some.injEq] at h
    rw [← h]
    exact NoSaveBetween_refl w
  · split at h
    · simp only [Option.some.injEq] at h
      rw [← h]
      exact ⟨[Call.commitEdits], by simp [MainWindow.call], by simp [Call.isEmuSave],
        by simp [MainWindow.call]⟩
    · simp at h

theorem changeDebuggerState_noSave (romEmpty commitOk : Bool) (vat : List Nat)
    (w w1 : MainWindow) (h : changeDebuggerState romEmpty commitOk vat w = some w1) :
    NoSaveBetween w w1 := by
  unfold changeDebuggerState at h
  split at h
  · simp only [Option.some.injEq] at h
    rw [← h]
    exact NoSaveBetween_refl w
  · simp only at h
    have hflip : NoSaveBetween w { w with debuggerOn := !w.debuggerOn } :=
      ⟨[], by simp, rfl, rfl⟩
    have hsig : ∀ x : MainWindow, NoSaveBetween x (x.call (Call.debuggerChangedState x.debuggerOn)) :=
      fun x => ⟨[Call.debuggerChangedState x.debuggerOn], by simp [MainWindow.call],
        by simp [Call.isEmuSave], by simp [MainWindow.call]⟩
    split at h
    · simp at h
    · rename_i w3 hr
      simp only [Option.some.injEq] at h
      rw [← h]
      refine NoSaveBetween_trans ?_ (hsig w3)
      split at hr
      · split at hr
        · simp at hr
        · rename_i w2 hu
          have h2 := NoSaveBetween_trans hflip
            (NoSaveBetween_trans (setDebuggerState_noSave false _)
              (updateDebuggerChanges_noSave commitOk _ w2 hu))
          split at hr
          · simp only [Option.some.injEq] at hr
            rw [← hr]
            refine NoSaveBetween_trans h2 (NoSaveBetween_trans ?_
              (refreshVariableList_noSave vat _))
            exact ⟨[], by simp, rfl, rfl⟩
          · simp only [Option.some.injEq] at hr
            rw [← hr]
            exact h2
      · simp only [Option.some.injEq] at hr
        rw [← hr]
        exact hflip

/-- C21: `saved(false)` shows the warning, makes no `close()` call and leaves
`closeAfterSave` false (it resets it when it was set); `saved(true)` calls
`close()` exactly when `closeAfterSave` is set.  `closeEvent` calls
`emu_thread->save` at most once, and only when `closeAfterSave` was false and
save-on-close is enabled; in that case it sets `closeAfterSave` and the window
stays open, otherwise it stops the emulation and the window closes. -/
theorem saved_and_closeEvent (w : MainWindow) (inDebugger romEmpty commitOk saveOnClose : Bool)
    (vat : List Nat) (default_savedImage : QString) (b : Bool) (w1 : MainWindow)
    (hclose : closeEvent inDebugger romEmpty commitOk saveOnClose vat default_savedImage w =
      some (b, w1)) :
    ((callsSince w (saved false w)).filter Call.isClose = [] ∧
      (saved false w).closeAfterSave = false ∧
      Call.warning "Could not save".toList ∈ callsSince w (saved false w)) ∧
    ((callsSince w (saved true w)).filter Call.isClose =
      (if w.closeAfterSave then [Call.close] else [])) ∧
    ((callsSince w w1).filter Call.isEmuSave).length ≤ 1 ∧
    ((callsSince w w1).filter Call.isEmuSave ≠ [] →
      w.closeAfterSave = false ∧ saveOnClose = true ∧ b = false ∧ w1.closeAfterSave = true) ∧
    (w.closeAfterSave = true ∨ saveOnClose = false → b = true ∧ Call.emu_stop ∈ callsSince w w1) := by
  have hsaved : ((callsSince w (saved false w)).filter Call.isClose = [] ∧
      (saved false w).closeAfterSave = false ∧
      Call.warning "Could not save".toList ∈ callsSince w (saved false w)) ∧
    ((callsSince w (saved true w)).filter Call.isClose =
      (if w.closeAfterSave then [Call.close] else [])) := by
    cases hc : w.closeAfterSave <;>
      simp [saved, hc, callsSince, MainWindow.call, Call.isClose]
  refine ⟨hsaved.1, hsaved.2, ?_⟩
  unfold closeEvent at hclose
  simp only at hclose
  split at hclose
  · simp at hclose
  · rename_i wa hwa
    have ha : NoSaveBetween w wa := by
      split at hwa
      · exact changeDebuggerState_noSave romEmpty commitOk vat w wa hwa
      · simp only [Option.some.injEq] at hwa
        rw [← hwa]
        exact NoSaveBetween_refl w
    have hb : NoSaveBetween w (if wa.inReceivingMode = true then refreshVariableList vat wa
        else wa) := by
      split
      · exact NoSaveBetween_trans ha (refreshVariableList_noSave vat wa)
      · exact ha
    generalize (if wa.inReceivingMode = true then refreshVariableList vat wa else wa) = wb
      at hclose hb
    obtain ⟨cs, hcs, hfs, hk⟩ := hb
    split at hclose
    · rename_i hcond
      simp only [Bool.and_eq_true, Bool.not_eq_true', Option.some.injEq, Prod.mk.injEq]
        at hcond hclose
      obtain ⟨hb1, hw1⟩ := hclose
      rw [hk] at hcond
      by_cases hemp : default_savedImage.isEmpty = true
      · have hcalls : callsSince w w1 = cs ++ [Call.warning "Can't save image".toList] := by
          rw [← hw1]
          simp [saveEmuState, hemp, MainWindow.call, callsSince, hcs]
        rw [hcalls, List.filter_append, hfs]
        refine ⟨by simp [Call.isEmuSave], ?_, ?_⟩
        · intro h
          simp [Call.isEmuSave] at h
        · intro h
          rcases h with h | h
          · rw [h] at hcond; simp at hcond
          · rw [h] at hcond; simp at hcond
      · have hcalls : callsSince w w1 =
            cs ++ [Call.emu_save default_savedImage wb.inReceivingMode] := by
          rw [← hw1]
          simp [saveEmuState, saveToPath, hemp, MainWindow.call, callsSince, hcs]
        have hcl : w1.closeAfterSave = true := by
          rw [← hw1]
          simp [saveEmuState, saveToPath, hemp, MainWindow.call]
        rw [hcalls, List.filter_append, hfs]
        refine ⟨by simp [Call.isEmuSave], ?_, ?_⟩
        · intro _
          exact ⟨hcond.1, hcond.2, hb1.symm, hcl⟩
        · intro h
          rcases h with h | h
          · rw [h] at hcond; simp at hcond
          · rw [h] at hcond; simp at hcond
    · simp only [Option.some.injEq, Prod.mk.injEq] at hclose
      obtain ⟨hb1, hw1⟩ := hclose
      have hcalls : callsSince w w1 = cs ++ [Call.emu_stop] := by
        rw [← hw1]
        simp [MainWindow.call, callsSince, hcs]
      rw [hcalls, List.filter_append, hfs]
      refine ⟨by simp [Call.isEmuSave], ?_, ?_⟩
      · intro h
        simp [Call.isEmuSave] at h
      · intro _
        exact ⟨hb1.symm, by simp⟩

theorem saved_and_closeEvent_witness :
    closeEvent false false true true [] "cemu.img".toList MainWindow.start =
      some (false, saveEmuState "cemu.img".toList
        { MainWindow.start with closeAfterSave := true }) ∧
    ((callsSince MainWindow.start (saveEmuState "cemu.img".toList
        { MainWindow.start with closeAfterSave := true })).filter Call.isEmuSave).length ≤ 1 ∧
    (saved false (saveEmuState "cemu.img".toList
        { MainWindow.start with closeAfterSave := true })).closeAfterSave = false :=
  ⟨rfl,
   (saved_and_closeEvent MainWindow.start false false true true [] "cemu.img".toList false
      _ rfl).2.2.1,
   (saved_and_closeEvent (saveEmuState "cemu.img".toList
      { MainWindow.start with closeAfterSave := true }) false false true false []
      "cemu.img".toList true _ rfl).1.2.1⟩

/-! ## The memory editors -/

theorem hex2int_FFFFFF : hex2int "FFFFFF".toList = some 16777215 := by decide

/-- C24: at the last 24-bit address 0xFFFFFF the window is cut one byte short.
`memUpdate` (position not locked) loads `[0xFFEFFF, 0xFFFFFF)` and `memGoto`
loads `[0xFFFAFF, 0xFFFFFF)`: in both the end is clamped to 0xFFFFFF, so the
address itself is not among the loaded bytes, and the cursor is put one byte
past the loaded data. -/
theorem mem_window_last_address (debug_read_byte : Nat → Nat) (t : MemTab) :
    (∃ r, memUpdate debug_read_byte false 0xFFFFFF t = some r ∧
      r.memEdit.addressOffset = 0xFFEFFF ∧ r.memSize = 0x1000 ∧
      r.memEdit.data.length = 0x1000 ∧
      ¬ ((0xFFFFFF : Int) < r.memEdit.addressOffset + r.memSize) ∧
      r.memEdit.cursorPosition = 2 * r.memSize) ∧
    (∃ r, memGoto debug_read_byte "FFFFFF".toList t = some r ∧
      r.memEdit.addressOffset = 0xFFFAFF ∧ r.memSize = 0x500 ∧
      r.memEdit.data.length = 0x500 ∧
      ¬ ((0xFFFFFF : Int) < r.memEdit.addressOffset + r.memSize) ∧
      r.memEdit.cursorPosition = 2 * r.memSize) := by
  constructor
  · refine ⟨_, rfl, ?_⟩
    simp [toInt32, toUInt32]
  · unfold memGoto
    rw [hex2int_FFFFFF]
    refine ⟨_, rfl, ?_⟩
    simp

/-- For every 24-bit address the window of `memUpdate` (position not locked)
starts at or below the address, ends at or below 0xFFFFFF, has `memSize` bytes,
and holds the address exactly when the address is not 0xFFFFFF. -/
theorem memUpdate_window (debug_read_byte : Nat → Nat) (t : MemTab) (a : Nat)
    (ha : a ≤ 0xFFFFFF) :
    ∃ r, memUpdate debug_read_byte false a t = some r ∧
      0 ≤ r.memEdit.addressOffset ∧ r.memEdit.addressOffset ≤ Int.ofNat a ∧
      r.memEdit.addressOffset + r.memSize ≤ 0xFFFFFF ∧
      Int.ofNat r.memEdit.data.length = r.memSize ∧
      (Int.ofNat a < r.memEdit.addressOffset + r.memSize ↔ a ≠ 0xFFFFFF) := by
  have h1 : a % 4294967296 = a := Nat.mod_eq_of_lt (by omega)
  have h2 : toInt32 (Int.ofNat a) = Int.ofNat a := by
    unfold toInt32
    simp only [Int.ofNat_eq_coe]
    omega
  have hx0 : (0 : Int) ≤ Int.ofNat a := by simp
  have hx1 : Int.ofNat a ≤ 16777215 := by simp only [Int.ofNat_eq_coe]; omega
  have hx2 : a ≠ 16777215 ↔ Int.ofNat a ≠ 16777215 := by simp only [Int.ofNat_eq_coe]; omega
  unfold memUpdate
  rw [h1, h2, hx2]
  generalize Int.ofNat a = x at hx0 hx1
  have hs : ¬ (x - 4096 < -2147483648) := by omega
  by_cases hlow : x - 4096 < 0
  · simp only [Bool.false_eq_true, if_false, hs, hlow, if_true]
    refine ⟨_, rfl, ?_⟩
    have h8 : ¬ ((0 : Int) + 8192 > 16777215) := by decide
    simp only [List.length_map, List.length_range, Int.ofNat_eq_coe, h8, if_false]
    refine ⟨?_, ?_, ?_, ?_, ?_⟩ <;> omega
  · have hs2 : ¬ (x - 4096 + 8192 > 2147483647) := by omega
    by_cases hhi : x - 4096 + 8192 > 16777215
    · simp only [Bool.false_eq_true, if_false, hs, hlow, hhi, hs2, if_true]
      refine ⟨_, rfl, ?_⟩
      simp only [List.length_map, List.length_range, Int.ofNat_eq_coe]
      refine ⟨?_, ?_, ?_, ?_, ?_⟩ <;> omega
    · simp only [Bool.false_eq_true, if_false, hs, hlow, hhi, hs2, if_true]
      refine ⟨_, rfl, ?_⟩
      simp only [List.length_map, List.length_range, Int.ofNat_eq_coe]
      refine ⟨?_, ?_, ?_, ?_, ?_⟩ <;> omega

/-- C30: an accepted address below RAM moves the cursor.  For the dialog text
`0`, which `getAddressString` accepts, `ramGotoPressed` calls
`setCursorPosition` with `(0 - 0xD00000) << 1 = -27262976`: the second test of
its guard compares the string `address`, not `int_address`, with zero, and is
never true.  For `D00010`, inside RAM, the cursor is set to `2 * 0x10`; for
`D65800`, above RAM, only the focus is set. -/
theorem ramGotoPressed_below_ram :
    getAddressString true "0".toList = (true, "0".toList) ∧
    ramGotoPressed true "0".toList QHexEdit.start =
      some { QHexEdit.start with focus := true, cursorPosition := -27262976 } ∧
    ramGotoPressed true "D00010".toList QHexEdit.start =
      some { QHexEdit.start with focus := true, cursorPosition := 32 } ∧
    ramGotoPressed true "D65800".toList QHexEdit.start =
      some { QHexEdit.start with focus := true } ∧
    (∀ s : QString, QString.less s [] = false) := by
  refine ⟨by decide, by decide, by decide, by decide, ?_⟩
  intro s
  cases s <;> rfl

/-! ## The register fields of the debugger -/

/-- C22: for `R = 0x81` the field shows `40` and an unedited commit stores
`0x80`.  The value `R >> 1 | R << 7` passed to `int2hex` is `0x40C0`, not cut
to eight bits, and `rightJustified(2, '0', true)` keeps its first two digits;
the write-back of `0x40` is `0x80`, which is not the original `R`.  Of the
values 0, 1, 2, 3, 16, 17, 32, 33, 128, 129, 254, 255 only 0, 1, 17, 32, 128
and 254 come back unchanged. -/
theorem r_register_round_trip_fails :
    demoCore.cpu.registers.R = 0x81 ∧
    (populateDebugWindow_fields demoCore DebugView.start).rregView = "40".toList ∧
    hex2int "40".toList = some 0x40 ∧
    (updateDebuggerChanges_stores false (populateDebugWindow_fields demoCore DebugView.start)
      demoCore).map (fun r => r.1.cpu.registers.R) = some 0x80 ∧
    [0, 1, 2, 3, 16, 17, 32, 33, 128, 129, 254, 255].filter (fun R =>
      (updateDebuggerChanges_stores false
        (populateDebugWindow_fields (coreWithR R) DebugView.start) (coreWithR R)).map
          (fun r => r.1.cpu.registers.R) == some R) =
      [0, 1, 17, 32, 128, 254] := by
  refine ⟨rfl, by decide, by decide, by decide, by decide⟩

/-- C25: with bits 1-3 of `lcd.control` holding 4 the field shows `16`, which an
unedited commit maps to 6: `lcd.control` goes from `0x808` to `0x80C`.  The
`switch` of `updateDebuggerChanges` has no case giving 4.  The other seven
values of the three bits come back unchanged. -/
theorem bpp_round_trip_fails :
    (demoCore.lcd.control >>> 1) &&& 7 = 4 ∧
    (populateDebugWindow_fields demoCore DebugView.start).bppView = "16".toList ∧
    QString.toInt "16".toList = 16 ∧
    (updateDebuggerChanges_stores false (populateDebugWindow_fields demoCore DebugView.start)
      demoCore).map (fun r => r.1.lcd.control) = some 0x80C ∧
    ((0x80C : Nat) >>> 1) &&& 7 = 6 ∧
    (List.range 8).filter (fun m => bppOfText (bppText (m <<< 1)) == m) =
      [0, 1, 2, 3, 5, 6, 7] := by
  refine ⟨by decide, by decide, by decide, by decide, by decide, by decide⟩

theorem hexValues_hexTexts (ui : DebugView)
    (hall : ∀ t ∈ ui.hexTexts, (hex2int t).isSome = true) :
    ∃ vs, hexValues ui.hexTexts = some vs ∧ some (vs.getD 16 0) = hex2int ui.pcregView := by
  have h : ∀ t ∈ ui.hexTexts, ∃ v, hex2int t = some v := fun t ht =>
    Option.isSome_iff_exists.mp (hall t ht)
  simp only [DebugView.hexTexts, List.mem_cons, List.mem_singleton, forall_eq_or_imp,
    forall_eq, List.not_mem_nil, false_implies, implies_true, and_true] at h
  obtain ⟨⟨v0, h0⟩, ⟨v1, h1⟩, ⟨v2, h2⟩, ⟨v3, h3⟩, ⟨v4, h4⟩, ⟨v5, h5⟩, ⟨v6, h6⟩, ⟨v7, h7⟩,
    ⟨v8, h8⟩, ⟨v9, h9⟩, ⟨v10, h10⟩, ⟨v11, h11⟩, ⟨v12, h12⟩, ⟨v13, h13⟩, ⟨v14, h14⟩,
    ⟨v15, h15⟩, ⟨v16, h16⟩, ⟨v17, h17⟩, ⟨v18, h18⟩⟩ := h
  refine ⟨[v0, v1, v2, v3, v4, v5, v6, v7, v8, v9, v10, v11, v12, v13, v14, v15, v16, v17,
    v18], ?_, ?_⟩
  · simp [DebugView.hexTexts, hexValues, h0, h1, h2, h3, h4, h5, h6, h7, h8, h9, h10,
      h11, h12, h13, h14, h15, h16, h17, h18]
  · rw [h16]
    rfl

/-- C23: when every text converts, `updateDebuggerChanges` with the debugger off
calls `cpu_flush(uiPC, checkADL)` exactly when `cpu.registers.PC` differs from
`uiPC`, the value of the PC field, and makes no call otherwise; its own stores
leave `cpu.registers.PC` and `cpu.ADL` as they were, whatever the ADL box
holds.  With the debugger on it returns the core unchanged and makes no
call. -/
theorem updateDebuggerChanges_flush (ui : DebugView) (c : Core) (vPC : Int)
    (hall : ∀ t ∈ ui.hexTexts, (hex2int t).isSome = true)
    (hpc : hex2int ui.pcregView = some vPC) :
    (∃ c1, updateDebuggerChanges_stores false ui c =
        some (c1, if c.cpu.registers.PC ≠ toUInt32 vPC
          then [Call.cpu_flush (toUInt32 vPC) ui.checkADL] else []) ∧
      c1.cpu.registers.PC = c.cpu.registers.PC ∧ c1.cpu.ADL = c.cpu.ADL) ∧
    updateDebuggerChanges_stores true ui c = some (c, []) ∧
    (∀ (commitOk : Bool) (w : MainWindow), w.debuggerOn = true →
      updateDebuggerChanges commitOk w = some w) := by
  obtain ⟨vs, hvs, h16⟩ := hexValues_hexTexts ui hall
  rw [hpc, Option.some.injEq] at h16
  refine ⟨?_, rfl, fun commitOk w hw => by unfold updateDebuggerChanges; rw [if_pos hw]⟩
  unfold updateDebuggerChanges_stores
  simp only [Bool.false_eq_true, if_false, hvs, h16]
  exact ⟨_, rfl, rfl, rfl⟩

theorem updateDebuggerChanges_flush_witness :
    (updateDebuggerChanges_stores false demoView demoCore).map (fun r => r.2) =
      some [Call.cpu_flush 0x1000 false] := by
  obtain ⟨c1, h, -, -⟩ := (updateDebuggerChanges_flush demoView demoCore 0x1000 (by decide)
    (by decide)).1
  rw [h]
  rfl

/-! ## Six-digit address texts -/

theorem int2hex6 (p : Nat) (hp : p < 16777216) :
    int2hex p 6 = [upperDigit (p / 1048576 % 16), upperDigit (p / 65536 % 16),
      upperDigit (p / 4096 % 16), upperDigit (p / 256 % 16), upperDigit (p / 16 % 16),
      upperDigit (p % 16)] := by
  have h32 : p % 4294967296 = p := Nat.mod_eq_of_lt (by omega)
  have e7 : p / 16 ^ 7 % 16 = 0 := by norm_num; omega
  have e6 : p / 16 ^ 6 % 16 = 0 := by norm_num; omega
  have e5 : p / 16 ^ 5 % 16 = p / 1048576 % 16 := by norm_num
  have e4 : p / 16 ^ 4 % 16 = p / 65536 % 16 := by norm_num
  have e3 : p / 16 ^ 3 % 16 = p / 4096 % 16 := by norm_num
  have e2 : p / 16 ^ 2 % 16 = p / 256 % 16 := by norm_num
  have e1 : p / 16 ^ 1 % 16 = p / 16 % 16 := by norm_num
  have e0 : p / 16 ^ 0 % 16 = p % 16 := by norm_num
  have z : digitChar 0 = '0' := by decide
  have f5 := (upperDigit_facts (p / 1048576 % 16) (Nat.mod_lt _ (by norm_num))).2.2.2.2.2.2.2.2
  have f4 := (upperDigit_facts (p / 65536 % 16) (Nat.mod_lt _ (by norm_num))).2.2.2.2.2.2.2.2
  have f3 := (upperDigit_facts (p / 4096 % 16) (Nat.mod_lt _ (by norm_num))).2.2.2.2.2.2.2.2
  have f2 := (upperDigit_facts (p / 256 % 16) (Nat.mod_lt _ (by norm_num))).2.2.2.2.2.2.2.2
  have f1 := (upperDigit_facts (p / 16 % 16) (Nat.mod_lt _ (by norm_num))).2.2.2.2.2.2.2.2
  have f0 := (upperDigit_facts (p % 16) (Nat.mod_lt _ (by norm_num))).2.2.2.2.2.2.2.2
  unfold int2hex number16
  simp only [h32, List.map_cons, List.map_nil, e7, e6, e5, e4, e3, e2, e1, e0, z]
  by_cases h5 : p / 1048576 % 16 = 0
  · by_cases h4 : p / 65536 % 16 = 0
    · by_cases h3 : p / 4096 % 16 = 0
      · by_cases h2 : p / 256 % 16 = 0
        · by_cases h1 : p / 16 % 16 = 0
          · by_cases h0 : p % 16 = 0
            · simp [h5, h4, h3, h2, h1, h0, z, rightJustified, toUpper, upperDigit, List.dropWhile]
            · have := f0.not.mpr h0
              simp [h5, h4, h3, h2, h1, z, this, rightJustified, toUpper, upperDigit, List.dropWhile]
          · have := f1.not.mpr h1
            simp [h5, h4, h3, h2, z, this, rightJustified, toUpper, upperDigit, List.dropWhile]
        · have := f2.not.mpr h2
          simp [h5, h4, h3, z, this, rightJustified, toUpper, upperDigit, List.dropWhile]
      · have := f3.not.mpr h3
        simp [h5, h4, z, this, rightJustified, toUpper, upperDigit, List.dropWhile]
    · have := f4.not.mpr h4
      simp [h5, z, this, rightJustified, toUpper, upperDigit, List.dropWhile]
  · have := f5.not.mpr h5
    simp [this, rightJustified, toUpper, upperDigit, List.dropWhile]

theorem hex2int_six (d5 d4 d3 d2 d1 d0 : Nat) (h5 : d5 < 16) (h4 : d4 < 16) (h3 : d3 < 16)
    (h2 : d2 < 16) (h1 : d1 < 16) (h0 : d0 < 16) :
    hex2int [upperDigit d5, upperDigit d4, upperDigit d3, upperDigit d2, upperDigit d1,
      upperDigit d0] =
      some (Int.ofNat (((((d5 * 16 + d4) * 16 + d3) * 16 + d2) * 16 + d1) * 16 + d0)) := by
  obtain ⟨s5, m5, p5, -, -, v5, -, -, -⟩ := upperDigit_facts d5 h5
  obtain ⟨-, -, -, x4, X4, v4, -, -, -⟩ := upperDigit_facts d4 h4
  obtain ⟨-, -, -, -, -, v3, -, -, -⟩ := upperDigit_facts d3 h3
  obtain ⟨-, -, -, -, -, v2, -, -, -⟩ := upperDigit_facts d2 h2
  obtain ⟨-, -, -, -, -, v1, -, -, -⟩ := upperDigit_facts d1 h1
  obtain ⟨-, -, -, -, -, v0, -, -, -⟩ := upperDigit_facts d0 h0
  unfold hex2int stoi16
  simp only [List.dropWhile, s5, m5, p5, if_false, x4, X4, false_or, false_and, and_false,
    List.map_cons, List.map_nil, v5, v4, v3, v2, v1, v0, List.takeWhile, Option.isSome_some,
    List.foldl_cons, List.foldl_nil, Option.getD_some]
  simp
  omega

/-- The six-digit text of a 24-bit address: it is upper case, has only
hexadecimal digits, is not empty, and reads back as the address. -/
theorem int2hex6_facts (p : Nat) (hp : p < 16777216) :
    toUpper (int2hex p 6) = int2hex p 6 ∧ find_first_not_of (int2hex p 6) hexChars = none ∧
    (int2hex p 6).isEmpty = false ∧ hex2int (int2hex p 6) = some (Int.ofNat p) ∧
    toUInt32 (Int.ofNat p) = p ∧ (int2hex p 6 = "000000".toList → p = 0) := by
  have hval : hex2int (int2hex p 6) = some (Int.ofNat p) := by
    have : ((((p / 1048576 % 16 * 16 + p / 65536 % 16) * 16 + p / 4096 % 16) * 16 +
        p / 256 % 16) * 16 + p / 16 % 16) * 16 + p % 16 = p := by omega
    rw [int2hex6 p hp, hex2int_six _ _ _ _ _ _ (Nat.mod_lt _ (by norm_num))
      (Nat.mod_lt _ (by norm_num)) (Nat.mod_lt _ (by norm_num)) (Nat.mod_lt _ (by norm_num))
      (Nat.mod_lt _ (by norm_num)) (Nat.mod_lt _ (by norm_num)), this]
  have h0 : hex2int "000000".toList = some 0 := by decide
  refine ⟨?_, ?_, ?_, hval, ?_, ?_⟩
  · rw [int2hex6 p hp]
    obtain ⟨-, -, -, -, -, -, u5, -, -⟩ := upperDigit_facts (p / 1048576 % 16) (Nat.mod_lt _ (by norm_num))
    obtain ⟨-, -, -, -, -, -, u4, -, -⟩ := upperDigit_facts (p / 65536 % 16) (Nat.mod_lt _ (by norm_num))
    obtain ⟨-, -, -, -, -, -, u3, -, -⟩ := upperDigit_facts (p / 4096 % 16) (Nat.mod_lt _ (by norm_num))
    obtain ⟨-, -, -, -, -, -, u2, -, -⟩ := upperDigit_facts (p / 256 % 16) (Nat.mod_lt _ (by norm_num))
    obtain ⟨-, -, -, -, -, -, u1, -, -⟩ := upperDigit_facts (p / 16 % 16) (Nat.mod_lt _ (by norm_num))
    obtain ⟨-, -, -, -, -, -, u0, -, -⟩ := upperDigit_facts (p % 16) (Nat.mod_lt _ (by norm_num))
    simp [toUpper, u5, u4, u3, u2, u1, u0]
  · rw [int2hex6 p hp]
    obtain ⟨-, -, -, -, -, -, -, c5, -⟩ := upperDigit_facts (p / 1048576 % 16) (Nat.mod_lt _ (by norm_num))
    obtain ⟨-, -, -, -, -, -, -, c4, -⟩ := upperDigit_facts (p / 65536 % 16) (Nat.mod_lt _ (by norm_num))
    obtain ⟨-, -, -, -, -, -, -, c3, -⟩ := upperDigit_facts (p / 4096 % 16) (Nat.mod_lt _ (by norm_num))
    obtain ⟨-, -, -, -, -, -, -, c2, -⟩ := upperDigit_facts (p / 256 % 16) (Nat.mod_lt _ (by norm_num))
    obtain ⟨-, -, -, -, -, -, -, c1, -⟩ := upperDigit_facts (p / 16 % 16) (Nat.mod_lt _ (by norm_num))
    obtain ⟨-, -, -, -, -, -, -, c0, -⟩ := upperDigit_facts (p % 16) (Nat.mod_lt _ (by norm_num))
    simp [find_first_not_of, c5, c4, c3, c2, c1, c0]
  · rw [int2hex6 p hp]
    rfl
  · unfold toUInt32
    simp only [Int.ofNat_eq_coe]
    omega
  · intro h
    rw [h, h0] at hval
    simp only [Option.some.injEq, Int.ofNat_eq_coe] at hval
    omega

/-! ## Toggling a breakpoint from the disassembly -/

theorem breakRows_eraseIdx_perm :
    ∀ (l : List BreakRow) (i : Nat) (r : BreakRow), l[i]? = some r →
      (r :: l.eraseIdx i).Perm l := by
  intro l
  induction l with
  | nil => intro i r h; simp at h
  | cons x xs ih =>
      intro i r h
      cases i with
      | zero =>
          simp only [List.getElem?_cons_zero, Option.some.injEq] at h
          subst h
          simp
      | succ i =>
          simp only [List.getElem?_cons_succ] at h
          simp only [List.eraseIdx_cons_succ]
          exact (List.Perm.swap _ _ _).trans ((ih i r h).cons _)

theorem addBreakpoint_text_absent (D : DebugConsts) (w : MainWindow) (a : Nat)
    (ha : a < 16777216) (hcur : w.currBreakpointAddress = int2hex a 6)
    (habs : int2hex a 6 = "000000".toList ∨ ∀ r ∈ w.breakpointView, r.address ≠ int2hex a 6) :
    ∃ w1, addBreakpoint D w = some (true, w1) ∧
      w1.breakpointView = w.breakpointView ++ [⟨int2hex a 6, false, false, true⟩] ∧
      w1.calls = w.calls ++ [Call.debug_breakpoint_set a D.DBG_EXEC_BREAKPOINT true,
        Call.updateDisasmView a true] := by
  obtain ⟨hup, hfind, hemp, hval, h32, -⟩ := int2hex6_facts a ha
  have hloop := addBreakpoint_loop_none (int2hex a 6) w.breakpointView 0 habs
  unfold addBreakpoint
  simp only [hcur, hemp, Bool.false_eq_true, if_false, hup, hfind, Option.isSome_none, hval,
    h32, hloop]
  exact ⟨_, rfl, rfl, by simp [MainWindow.call]⟩

theorem addBreakpoint_text_present (D : DebugConsts) (w : MainWindow) (a : Nat)
    (ha : a < 16777216) (hcur : w.currBreakpointAddress = int2hex a 6)
    (hne : int2hex a 6 ≠ "000000".toList)
    (hin : ∃ r ∈ w.breakpointView, r.address = int2hex a 6) :
    ∃ i r, addBreakpoint D w = some (false, { w with breakpointViewRow := some i }) ∧
      w.breakpointView[i]? = some r ∧ r.address = int2hex a 6 := by
  obtain ⟨hup, hfind, hemp, hval, h32, -⟩ := int2hex6_facts a ha
  obtain ⟨i, hi, -, hget⟩ := addBreakpoint_loop_some _ hne w.breakpointView 0 hin
  simp only [Nat.sub_zero] at hget
  obtain ⟨r, hr, hra⟩ := Option.map_eq_some'.mp hget
  refine ⟨i, r, ?_, hr, hra⟩
  unfold addBreakpoint
  simp only [hcur, hemp, Bool.false_eq_true, if_false, hup, hfind, Option.isSome_none, hval,
    h32, hi]

theorem deleteBreakpoint_row (next : Option Nat) (w : MainWindow) (a i : Nat) (r : BreakRow)
    (ha : a < 16777216) (hsel : w.breakpointViewRow = some i)
    (hr : w.breakpointView[i]? = some r) (hra : r.address = int2hex a 6) :
    ∃ w1, deleteBreakpoint next w = some w1 ∧
      w1.breakpointView = w.breakpointView.eraseIdx i ∧
      w1.calls = w.calls ++ [Call.debug_breakpoint_remove a, Call.updateDisasmView a true] := by
  obtain ⟨-, -, -, hval, h32, -⟩ := int2hex6_facts a ha
  have hlen : w.breakpointView.length ≠ 0 := by
    intro h0
    rw [List.length_eq_zero] at h0
    rw [h0] at hr
    simp at hr
  unfold deleteBreakpoint
  rw [if_neg (by simp [hlen, hsel])]
  simp only [hsel, hr, hra, hval, h32]
  exact ⟨_, rfl, rfl, by simp [MainWindow.call]⟩

theorem setBreakpointAddress_absent (D : DebugConsts) (w : MainWindow) (a : Nat)
    (next : Option Nat) (ha : a < 16777216)
    (habs : int2hex a 6 = "000000".toList ∨ ∀ r ∈ w.breakpointView, r.address ≠ int2hex a 6) :
    ∃ w1, setBreakpointAddress D (int2hex a 6) next w = some w1 ∧
      w1.breakpointView = w.breakpointView ++ [⟨int2hex a 6, false, false, true⟩] ∧
      callsSince w w1 = [Call.debug_breakpoint_set a D.DBG_EXEC_BREAKPOINT true,
        Call.updateDisasmView a true] := by
  obtain ⟨w1, h1, hv, hc⟩ := addBreakpoint_text_absent D
    { w with currBreakpointAddress := int2hex a 6 } a ha rfl habs
  refine ⟨w1, ?_, hv, ?_⟩
  · unfold setBreakpointAddress
    rw [h1]
  · simp only at hc
    simp [callsSince, hc]

theorem setBreakpointAddress_present (D : DebugConsts) (w : MainWindow) (a : Nat)
    (next : Option Nat) (ha : a < 16777216) (hne : int2hex a 6 ≠ "000000".toList)
    (hin : ∃ r ∈ w.breakpointView, r.address = int2hex a 6) :
    ∃ i r w1, setBreakpointAddress D (int2hex a 6) next w = some w1 ∧
      w.breakpointView[i]? = some r ∧ r.address = int2hex a 6 ∧
      w1.breakpointView = w.breakpointView.eraseIdx i ∧
      callsSince w w1 = [Call.debug_breakpoint_remove a, Call.updateDisasmView a true] := by
  obtain ⟨i, r, h1, hr, hra⟩ := addBreakpoint_text_present D
    { w with currBreakpointAddress := int2hex a 6 } a ha rfl hne hin
  obtain ⟨w1, h2, hv, hc⟩ := deleteBreakpoint_row next
    { ({ w with currBreakpointAddress := int2hex a 6 } : MainWindow) with
      breakpointViewRow := some i } a i r ha rfl hr hra
  refine ⟨i, r, w1, ?_, hr, hra, hv, ?_⟩
  · unfold setBreakpointAddress
    rw [h1]
    exact h2
  · simp only at hc
    simp [callsSince, hc]

/-- C27, as the code has it: let `x` be the six-digit text of a 24-bit address
`a` other than zero.  If no row holds `x`, `setBreakpointAddress` appends one
row for `x` with only EXEC checked and calls
`debug_breakpoint_set(a, DBG_EXEC_BREAKPOINT, true)`.  If a row holds `x`, it
removes such a row and calls `debug_breakpoint_remove(a)`.  When `x` is in the
table at most once, applying it twice gives a table with the same address texts
as before, up to their order. -/
theorem setBreakpointAddress_toggle (D : DebugConsts) (w : MainWindow) (a : Nat)
    (next next2 : Option Nat) (ha0 : 0 < a) (ha : a < 16777216) :
    ((∀ r ∈ w.breakpointView, r.address ≠ int2hex a 6) →
      ∃ w1, setBreakpointAddress D (int2hex a 6) next w = some w1 ∧
        w1.breakpointView = w.breakpointView ++ [⟨int2hex a 6, false, false, true⟩] ∧
        callsSince w w1 = [Call.debug_breakpoint_set a D.DBG_EXEC_BREAKPOINT true,
          Call.updateDisasmView a true]) ∧
    ((∃ r ∈ w.breakpointView, r.address = int2hex a 6) →
      ∃ i r w1, setBreakpointAddress D (int2hex a 6) next w = some w1 ∧
        w.breakpointView[i]? = some r ∧ r.address = int2hex a 6 ∧
        w1.breakpointView = w.breakpointView.eraseIdx i ∧
        callsSince w w1 = [Call.debug_breakpoint_remove a, Call.updateDisasmView a true]) ∧
    (w.breakpointView.countP (fun r => decide (r.address = int2hex a 6)) ≤ 1 →
      ∃ w1 w2, setBreakpointAddress D (int2hex a 6) next w = some w1 ∧
        setBreakpointAddress D (int2hex a 6) next2 w1 = some w2 ∧
        (breakTexts w2).Perm (breakTexts w)) := by
  have hne : int2hex a 6 ≠ "000000".toList := by
    intro h
    have := (int2hex6_facts a ha).2.2.2.2.2 h
    omega
  refine ⟨fun habs => setBreakpointAddress_absent D w a next ha (Or.inr habs),
    fun hin => setBreakpointAddress_present D w a next ha hne hin, ?_⟩
  intro hcount
  by_cases hin : ∃ r ∈ w.breakpointView, r.address = int2hex a 6
  · obtain ⟨i, r, w1, h1, hr, hra, hv, -⟩ := setBreakpointAddress_present D w a next ha hne hin
    have hperm := breakRows_eraseIdx_perm w.breakpointView i r hr
    rw [← hv] at hperm
    have hc := hperm.countP_eq (fun r => decide (r.address = int2hex a 6))
    rw [List.countP_cons_of_pos _ _ (by simpa using hra)] at hc
    have hzero : w1.breakpointView.countP (fun r => decide (r.address = int2hex a 6)) = 0 := by
      omega
    have habs : ∀ r ∈ w1.breakpointView, r.address ≠ int2hex a 6 := by
      intro r1 hr1 he
      have := List.countP_eq_zero.mp hzero r1 hr1
      simp [he] at this
    obtain ⟨w2, h2, hv2, -⟩ := setBreakpointAddress_absent D w1 a next2 ha (Or.inr habs)
    refine ⟨w1, w2, h1, h2, ?_⟩
    unfold breakTexts
    have hp1 : (List.map BreakRow.address (r :: w1.breakpointView)).Perm
        (List.map BreakRow.address w.breakpointView) := hperm.map _
    rw [List.map_cons, hra] at hp1
    rw [hv2, List.map_append, List.map_cons, List.map_nil]
    exact (List.perm_append_comm.trans (by simp)).trans hp1
  · have habs : ∀ r ∈ w.breakpointView, r.address ≠ int2hex a 6 := fun r hr he =>
      hin ⟨r, hr, he⟩
    obtain ⟨w1, h1, hv, -⟩ := setBreakpointAddress_absent D w a next ha (Or.inr habs)
    have hin1 : ∃ r ∈ w1.breakpointView, r.address = int2hex a 6 :=
      ⟨⟨int2hex a 6, false, false, true⟩, by rw [hv]; simp, rfl⟩
    obtain ⟨i, r, w2, h2, hr, hra, hv2, -⟩ :=
      setBreakpointAddress_present D w1 a next2 ha hne hin1
    have hperm := breakRows_eraseIdx_perm w1.breakpointView i r hr
    rw [← hv2, hv] at hperm
    refine ⟨w1, w2, h1, h2, ?_⟩
    unfold breakTexts
    have hp1 : (List.map BreakRow.address (r :: w2.breakpointView)).Perm
        (List.map BreakRow.address (w.breakpointView ++ [⟨int2hex a 6, false, false, true⟩])) :=
      hperm.map _
    rw [List.map_cons, hra, List.map_append, List.map_cons, List.map_nil] at hp1
    exact List.Perm.cons_inv (hp1.trans (List.perm_append_comm.trans (by simp)))

theorem setBreakpointAddress_toggle_witness :
    (0 < 16 ∧ 16 < 16777216 ∧
      MainWindow.start.breakpointView.countP (fun r => decide (r.address = int2hex 16 6)) ≤ 1) ∧
    ∃ w1 w2, setBreakpointAddress demoConsts (int2hex 16 6) none MainWindow.start = some w1 ∧
      setBreakpointAddress demoConsts (int2hex 16 6) none w1 = some w2 ∧
      (breakTexts w2).Perm (breakTexts MainWindow.start) :=
  ⟨⟨by decide, by decide, by decide⟩,
    (setBreakpointAddress_toggle demoConsts MainWindow.start 16 none none (by decide)
      (by decide)).2.2 (by decide)⟩

/-- C27, as stated, fails for the address `000000`: on the empty table two
calls of `setBreakpointAddress` with `000000` selected leave two rows `000000`;
both calls call `debug_breakpoint_set(0, DBG_EXEC_BREAKPOINT, true)` and neither
calls `debug_breakpoint_remove`. -/
theorem setBreakpointAddress_zero_never_removes :
    ((setBreakpointAddress demoConsts "000000".toList none MainWindow.start).bind
        (setBreakpointAddress demoConsts "000000".toList none)).map
      (fun w => (breakTexts w, w.calls)) =
    some (["000000".toList, "000000".toList],
      [Call.debug_breakpoint_set 0 demoConsts.DBG_EXEC_BREAKPOINT true,
       Call.updateDisasmView 0 true,
       Call.debug_breakpoint_set 0 demoConsts.DBG_EXEC_BREAKPOINT true,
       Call.updateDisasmView 0 true]) := by
  decide

/-! ## Editing the key of a row -/

theorem changeBreakpointAddress_loop_true (a : QString) (row : Nat) :
    ∀ (rows : List BreakRow) (i0 : Nat),
      changeBreakpointAddress_loop a row rows i0 = true ↔
        ∃ k r, rows[k]? = some r ∧ i0 + k ≠ row ∧ r.address = a := by
  intro rows
  induction rows with
  | nil => intro i0; simp [changeBreakpointAddress_loop]
  | cons x xs ih =>
      intro i0
      rw [changeBreakpointAddress_loop]
      split
      · rename_i hc
        simp only [true_iff]
        exact ⟨0, x, by simp, by simpa using hc.2, hc.1⟩
      · rename_i hc
        rw [ih (i0 + 1)]
        constructor
        · rintro ⟨k, r, hk, hne, hra⟩
          exact ⟨k + 1, r, by simpa using hk, by omega, hra⟩
        · rintro ⟨k, r, hk, hne, hra⟩
          cases k with
          | zero =>
              simp only [List.getElem?_cons_zero, Option.some.injEq] at hk
              subst hk
              exact absurd ⟨hra, by simpa using hne⟩ hc
          | succ k =>
              exact ⟨k, r, by simpa using hk, by omega, hra⟩

theorem changePortValues_loop_true (a : QString) (row : Nat) :
    ∀ (rows : List PortRow) (i0 : Nat),
      changePortValues_loop a row rows i0 = true ↔
        ∃ k r, rows[k]? = some r ∧ i0 + k ≠ row ∧ r.port = a := by
  intro rows
  induction rows with
  | nil => intro i0; simp [changePortValues_loop]
  | cons x xs ih =>
      intro i0
      rw [changePortValues_loop]
      split
      · rename_i hc
        simp only [true_iff]
        exact ⟨0, x, by simp, by simpa using hc.2, hc.1⟩
      · rename_i hc
        rw [ih (i0 + 1)]
        constructor
        · rintro ⟨k, r, hk, hne, hra⟩
          exact ⟨k + 1, r, by simpa using hk, by omega, hra⟩
        · rintro ⟨k, r, hk, hne, hra⟩
          cases k with
          | zero =>
              simp only [List.getElem?_cons_zero, Option.some.injEq] at hk
              subst hk
              exact absurd ⟨hra, by simpa using hne⟩ hc
          | succ k =>
              exact ⟨k, r, by simpa using hk, by omega, hra⟩

/-- The accepting path of the column 0 branch of `changeBreakpointAddress`. -/
theorem changeBreakpointAddress_accept (D : DebugConsts) (w : MainWindow) (row : Nat)
    (r : BreakRow) (v : Int) (hr : w.breakpointView[row]? = some r)
    (hhex : find_first_not_of (toUpper r.address) hexChars = none)
    (hne : toUpper r.address ≠ [])
    (hv : hex2int (toUpper r.address) = some v)
    (hfree : ∀ (k : Nat) (x : BreakRow), w.breakpointView[k]? = some x → k ≠ row →
      x.address ≠ int2hex (toUInt32 v) 6) :
    ∃ w1, changeBreakpointAddress D w row 0 = some w1 ∧
      callsSince w w1 = [Call.debug_breakpoint_remove w.prevBreakpointAddress,
        Call.debug_breakpoint_set (toUInt32 v) (r.value D) true,
        Call.updateDisasmView (toUInt32 v) true] ∧
      w1.breakpointView[row]? = some { r with address := int2hex (toUInt32 v) 6 } ∧
      ∀ k, k ≠ row → w1.breakpointView[k]? = w.breakpointView[k]? := by
  have hloop : changeBreakpointAddress_loop (int2hex (toUInt32 v) 6) row w.breakpointView 0 =
      false := by
    rw [Bool.eq_false_iff]
    intro h
    obtain ⟨k, x, hk, hkr, hx⟩ := (changeBreakpointAddress_loop_true _ row _ 0).mp h
    exact hfree k x hk (by omega) hx
  have hemp : (toUpper r.address).isEmpty = false := isEmpty_eq_false_of_ne_nil hne
  unfold changeBreakpointAddress
  simp only [hr, gt_iff_lt, lt_irrefl, if_false, hhex, Option.isSome_none, Bool.false_eq_true,
    hemp, or_self]
  unfold changeBreakpointAddress_valid
  simp only [hv, hloop, Bool.false_eq_true, if_false, hr]
  refine ⟨_, rfl, ?_, ?_, ?_⟩
  · simp [callsSince, MainWindow.call, setBreakText, BreakRow.value]
  · simp [MainWindow.call, setBreakText, List.getElem?_modify_eq, hr]
  · intro k hk
    simp [MainWindow.call, setBreakText, List.getElem?_modify_ne _ _ (Ne.symm hk)]

/-- The rejecting paths of the column 0 branch of `changeBreakpointAddress`: the
text is empty or not hexadecimal, or its six-digit text is that of another
row. -/
theorem changeBreakpointAddress_reject (D : DebugConsts) (w : MainWindow) (row : Nat)
    (r : BreakRow) (hr : w.breakpointView[row]? = some r)
    (hprev : w.prevBreakpointAddress < 16777216)
    (hrej : (find_first_not_of (toUpper r.address) hexChars).isSome = true ∨
      toUpper r.address = [] ∨
      ∃ v, hex2int (toUpper r.address) = some v ∧
        ∃ (k : Nat) (x : BreakRow), w.breakpointView[k]? = some x ∧ k ≠ row ∧
          x.address = int2hex (toUInt32 v) 6) :
    ∃ w1, changeBreakpointAddress D w row 0 = some w1 ∧
      (callsSince w w1 = [] ∨
        callsSince w w1 = [Call.debug_breakpoint_remove w.prevBreakpointAddress,
          Call.debug_breakpoint_set w.prevBreakpointAddress (r.value D) true,
          Call.updateDisasmView w.prevBreakpointAddress true]) ∧
      w1.breakpointView[row]? =
        some { r with address := int2hex w.prevBreakpointAddress 6 } ∧
      ∀ k, k ≠ row → w1.breakpointView[k]? = w.breakpointView[k]? := by
  obtain ⟨hup, hfind, hemp, hval, h32, -⟩ := int2hex6_facts w.prevBreakpointAddress hprev
  by_cases hbad : (find_first_not_of (toUpper r.address) hexChars).isSome = true ∨
      (toUpper r.address).isEmpty = true
  · have htne : int2hex w.prevBreakpointAddress 6 ≠ r.address := by
      intro h
      rw [← h, hup, hfind, hemp] at hbad
      simp at hbad
    have hr1 : (setBreakText w row (int2hex w.prevBreakpointAddress 6)).breakpointView[row]? =
        some { r with address := int2hex w.prevBreakpointAddress 6 } := by
      simp [setBreakText, List.getElem?_modify_eq, hr]
    unfold changeBreakpointAddress
    simp only [hr, gt_iff_lt, lt_irrefl, if_false, hbad, if_true, htne]
    unfold changeBreakpointAddress_nested
    simp only [hr1, hup, hfind, hemp, Option.isSome_none, Bool.false_eq_true, or_self, if_false]
    unfold changeBreakpointAddress_valid
    simp only [hval, h32]
    split
    · refine ⟨_, rfl, Or.inl ?_, ?_, ?_⟩
      · simp [callsSince, setBreakText]
      · simp [setBreakText, List.getElem?_modify_eq, hr]
      · intro k hk
        simp [setBreakText, List.getElem?_modify_ne _ _ (Ne.symm hk)]
    · simp only [hr1]
      refine ⟨_, rfl, Or.inr ?_, ?_, ?_⟩
      · simp [callsSince, MainWindow.call, setBreakText, BreakRow.value]
      · simp [MainWindow.call, setBreakText, List.getElem?_modify_eq, hr]
      · intro k hk
        simp [MainWindow.call, setBreakText, List.getElem?_modify_ne _ _ (Ne.symm hk)]
  · have hdup : ∃ v, hex2int (toUpper r.address) = some v ∧
        ∃ (k : Nat) (x : BreakRow), w.breakpointView[k]? = some x ∧ k ≠ row ∧
          x.address = int2hex (toUInt32 v) 6 := by
      rcases hrej with h | h | h
      · exact absurd (Or.inl h) hbad
      · exact absurd (Or.inr (by rw [h]; rfl)) hbad
      · exact h
    obtain ⟨v, hv, k, x, hk, hkr, hx⟩ := hdup
    have hloop : changeBreakpointAddress_loop (int2hex (toUInt32 v) 6) row w.breakpointView 0 =
        true :=
      (changeBreakpointAddress_loop_true _ row _ 0).mpr ⟨k, x, hk, by omega, hx⟩
    unfold changeBreakpointAddress
    simp only [hr, gt_iff_lt, lt_irrefl, if_false, hbad]
    unfold changeBreakpointAddress_valid
    simp only [hv, hloop, if_true]
    refine ⟨_, rfl, Or.inl ?_, ?_, ?_⟩
    · simp [callsSince, setBreakText]
    · simp [setBreakText, List.getElem?_modify_eq, hr]
    · intro k hk
      simp [setBreakText, List.getElem?_modify_ne _ _ (Ne.symm hk)]

/-- After `debug_breakpoint_remove(p)` and `debug_breakpoint_set(p, value, true)`
the flags of `p` are `value`, and no other address is touched: breakpoint
flags that gave `p` the flags `value` before are the same afterwards. -/
theorem runOnBreakpoints_remove_set (p value : Nat) (bps : Nat → Nat) (h : bps p = value) :
    runOnBreakpoints [Call.debug_breakpoint_remove p, Call.debug_breakpoint_set p value true,
      Call.updateDisasmView p true] bps = bps := by
  funext q
  simp only [runOnBreakpoints, List.foldl_cons, List.foldl_nil, Call.onBreakpoints,
    debug_breakpoint_set, debug_breakpoint_remove, if_true]
  by_cases hq : q = p
  · simp [hq, h]
  · simp [hq]

/-- After `debug_pmonitor_remove(p)` and `debug_pmonitor_set(p, value, true)` the
flags of `p` are `value`, and no other port is touched. -/
theorem runOnPorts_remove_set (p value : Nat) (ports : Nat → Nat) (h : ports p = value) :
    runOnPorts [Call.debug_pmonitor_remove p, Call.debug_pmonitor_set p value true,
      Call.debug_port_read_byte p] ports = ports := by
  funext q
  simp only [runOnPorts, List.foldl_cons, List.foldl_nil, Call.onPorts,
    debug_pmonitor_set, debug_pmonitor_remove, if_true]
  by_cases hq : q = p
  · simp [hq, h]
  · simp [hq]

/-- The accepting path of the column 0 branch of `changePortValues`. -/
theorem changePortValues_accept (K : DebugMasks) (D : DebugConsts) (portRead : Nat → Nat)
    (w : MainWindow) (row : Nat) (r : PortRow) (v : Int) (hr : w.portView[row]? = some r)
    (hhex : find_first_not_of (toUpper r.port) hexChars = none)
    (hne : toUpper r.port ≠ [])
    (hv : hex2int (toUpper r.port) = some v)
    (hfree : ∀ (k : Nat) (x : PortRow), w.portView[k]? = some x → k ≠ row →
      x.port ≠ int2hex (toUInt16 v) 4) :
    ∃ w1, changePortValues K D portRead w row 0 = some w1 ∧
      callsSince w w1 = [Call.debug_pmonitor_remove w.prevPortAddress,
        Call.debug_pmonitor_set (toUInt16 v) (r.value K D) true,
        Call.debug_port_read_byte (toUInt16 v)] ∧
      w1.portView[row]? = some { r with port := int2hex (toUInt16 v) 4,
                                        data := int2hex (portRead (toUInt16 v)) 2 } ∧
      ∀ k, k ≠ row → w1.portView[k]? = w.portView[k]? := by
  have hloop : changePortValues_loop (int2hex (toUInt16 v) 4) row w.portView 0 = false := by
    rw [Bool.eq_false_iff]
    intro h
    obtain ⟨k, x, hk, hkr, hx⟩ := (changePortValues_loop_true _ row _ 0).mp h
    exact hfree k x hk (by omega) hx
  have hemp : (toUpper r.port).isEmpty = false := isEmpty_eq_false_of_ne_nil hne
  unfold changePortValues
  simp only [hr, gt_iff_lt, Nat.not_lt_zero, if_false, if_true, hhex, Option.isSome_none,
    Bool.false_eq_true, hemp, or_self]
  unfold changePortValues_valid
  simp only [hv, hloop, Bool.false_eq_true, if_false, hr]
  refine ⟨_, rfl, ?_, ?_, ?_⟩
  · simp [callsSince, MainWindow.call, setPortText, PortRow.value]
  · simp [MainWindow.call, setPortText, List.getElem?_modify_eq, hr]
  · intro k hk
    simp [MainWindow.call, setPortText, List.getElem?_modify_ne _ _ (Ne.symm hk)]

theorem toUInt16_ofNat (p : Nat) (hp : p < 65536) : toUInt16 (Int.ofNat p) = p := by
  unfold toUInt16
  simp only [Int.ofNat_eq_coe]
  omega

/-- The rejecting paths of the column 0 branch of `changePortValues`: the text
is empty or not hexadecimal, or its four-digit text is that of another row. -/
theorem changePortValues_reject (K : DebugMasks) (D : DebugConsts) (portRead : Nat → Nat)
    (w : MainWindow) (row : Nat) (r : PortRow) (hr : w.portView[row]? = some r)
    (hprev : w.prevPortAddress < 65536)
    (hrej : (find_first_not_of (toUpper r.port) hexChars).isSome = true ∨
      toUpper r.port = [] ∨
      ∃ v, hex2int (toUpper r.port) = some v ∧
        ∃ (k : Nat) (x : PortRow), w.portView[k]? = some x ∧ k ≠ row ∧
          x.port = int2hex (toUInt16 v) 4) :
    ∃ w1 r1, changePortValues K D portRead w row 0 = some w1 ∧
      (callsSince w w1 = [] ∨
        callsSince w w1 = [Call.debug_pmonitor_remove w.prevPortAddress,
          Call.debug_pmonitor_set w.prevPortAddress (r.value K D) true,
          Call.debug_port_read_byte w.prevPortAddress]) ∧
      w1.portView[row]? = some r1 ∧ r1.port = int2hex w.prevPortAddress 4 ∧
      r1.rBreak = r.rBreak ∧ r1.wBreak = r.wBreak ∧ r1.freeze = r.freeze ∧
      ∀ k, k ≠ row → w1.portView[k]? = w.portView[k]? := by
  obtain ⟨hup, hfind, hemp⟩ := int2hex_valid w.prevPortAddress hprev
  have hval := hex2int_int2hex w.prevPortAddress hprev
  have h16 := toUInt16_ofNat w.prevPortAddress hprev
  by_cases hbad : (find_first_not_of (toUpper r.port) hexChars).isSome = true ∨
      (toUpper r.port).isEmpty = true
  · have htne : int2hex w.prevPortAddress 4 ≠ r.port := by
      intro h
      rw [← h, hup, hfind, hemp] at hbad
      simp at hbad
    have hr1 : (setPortText w row (int2hex w.prevPortAddress 4)).portView[row]? =
        some { r with port := int2hex w.prevPortAddress 4 } := by
      simp [setPortText, List.getElem?_modify_eq, hr]
    unfold changePortValues
    simp only [hr, gt_iff_lt, Nat.not_lt_zero, if_false, if_true, hbad, htne]
    unfold changePortValues_nested
    simp only [hr1, hup, hfind, hemp, Option.isSome_none, Bool.false_eq_true, or_self, if_false]
    unfold changePortValues_valid
    simp only [hval, h16]
    split
    · refine ⟨_, { r with port := int2hex w.prevPortAddress 4 }, rfl, Or.inl ?_, ?_, rfl, rfl,
        rfl, rfl, ?_⟩
      · simp [callsSince, setPortText]
      · simp [setPortText, List.getElem?_modify_eq, hr]
      · intro k hk
        simp [setPortText, List.getElem?_modify_ne _ _ (Ne.symm hk)]
    · simp only [hr1]
      refine ⟨_, PortRow.mk (int2hex w.prevPortAddress 4) (int2hex (portRead w.prevPortAddress) 2)
        r.rBreak r.wBreak r.freeze, rfl, Or.inr ?_, ?_, rfl, rfl, rfl, rfl, ?_⟩
      · simp [callsSince, MainWindow.call, setPortText, PortRow.value]
      · simp [MainWindow.call, setPortText, List.getElem?_modify_eq, hr]
      · intro k hk
        simp [MainWindow.call, setPortText, List.getElem?_modify_ne _ _ (Ne.symm hk)]
  · have hdup : ∃ v, hex2int (toUpper r.port) = some v ∧
        ∃ (k : Nat) (x : PortRow), w.portView[k]? = some x ∧ k ≠ row ∧
          x.port = int2hex (toUInt16 v) 4 := by
      rcases hrej with h | h | h
      · exact absurd (Or.inl h) hbad
      · exact absurd (Or.inr (by rw [h]; rfl)) hbad
      · exact h
    obtain ⟨v, hv, k, x, hk, hkr, hx⟩ := hdup
    have hloop : changePortValues_loop (int2hex (toUInt16 v) 4) row w.portView 0 = true :=
      (changePortValues_loop_true _ row _ 0).mpr ⟨k, x, hk, by omega, hx⟩
    unfold changePortValues
    simp only [hr, gt_iff_lt, Nat.not_lt_zero, if_false, if_true, hbad]
    unfold changePortValues_valid
    simp only [hv, hloop, if_true]
    refine ⟨_, { r with port := int2hex w.prevPortAddress 4 }, rfl, Or.inl ?_, ?_, rfl, rfl,
        rfl, rfl, ?_⟩
    · simp [callsSince, setPortText]
    · simp [setPortText, List.getElem?_modify_eq, hr]
    · intro k hk
      simp [setPortText, List.getElem?_modify_ne _ _ (Ne.symm hk)]

/-- C26 at the failing inputs.  With one breakpoint row `000010` (one port row
`0000`), the cell pressed and its text replaced by `FFFFFFFF`, which is
hexadecimal, not empty and in no other row, `hex2int` throws: the function
does not return and the previous key is not removed.  With the text `1000000`
the breakpoint is set at `0x1000000` while the row shows `100000`.  With the
breakpoint rows `000010` and `000020`, added in this order, a text typed into
row 0 without a press of the cell removes the key remembered from the last
add: the calls are `debug_breakpoint_remove(0x20)` and a set of `0x30`, and the
old key `0x10` of the edited row is never removed.  With the port rows `0010`
and `0020`, each added as `0000` and then pressed and edited, the same typing
calls `debug_pmonitor_remove(0)`, the key remembered from the last press, and
never removes `0x10`. -/
theorem key_edit_not_moved :
    (find_first_not_of (toUpper "FFFFFFFF".toList) hexChars = none ∧
      hex2int (toUpper "FFFFFFFF".toList) = none) ∧
    ((setBreakpointAddress demoConsts "000010".toList none MainWindow.start).map breakTexts =
        some ["000010".toList] ∧
      (setBreakpointAddress demoConsts "000010".toList none MainWindow.start).bind
        (editBreakpoint demoConsts 0 "FFFFFFFF".toList) = none) ∧
    ((addPort (fun _ => 0) MainWindow.start).map portTexts = some ["0000".toList] ∧
      (addPort (fun _ => 0) MainWindow.start).bind
        (editPort demoMasks demoConsts (fun _ => 0) 0 "FFFFFFFF".toList) = none) ∧
    ((setBreakpointAddress demoConsts "000010".toList none MainWindow.start).bind
        (editBreakpoint demoConsts 0 "1000000".toList)).map
          (fun w => (breakTexts w, w.calls)) =
      some (["100000".toList],
        [Call.debug_breakpoint_set 0x10 demoConsts.DBG_EXEC_BREAKPOINT true,
         Call.updateDisasmView 0x10 true,
         Call.debug_breakpoint_remove 0x10,
         Call.debug_breakpoint_set 0x1000000 demoConsts.DBG_EXEC_BREAKPOINT true,
         Call.updateDisasmView 0x1000000 true]) ∧
    (((setBreakpointAddress demoConsts "000010".toList none MainWindow.start).bind
        (setBreakpointAddress demoConsts "000020".toList none)).bind
        (typeBreakpoint demoConsts 0 "30".toList)).map
          (fun w => (breakTexts w, w.calls)) =
      some (["000030".toList, "000020".toList],
        [Call.debug_breakpoint_set 0x10 demoConsts.DBG_EXEC_BREAKPOINT true,
         Call.updateDisasmView 0x10 true,
         Call.debug_breakpoint_set 0x20 demoConsts.DBG_EXEC_BREAKPOINT true,
         Call.updateDisasmView 0x20 true,
         Call.debug_breakpoint_remove 0x20,
         Call.debug_breakpoint_set 0x30 demoConsts.DBG_EXEC_BREAKPOINT true,
         Call.updateDisasmView 0x30 true]) ∧
    (((((addPort (fun _ => 0) MainWindow.start).bind
        (editPort demoMasks demoConsts (fun _ => 0) 0 "10".toList)).bind
        (addPort (fun _ => 0))).bind
        (editPort demoMasks demoConsts (fun _ => 0) 1 "20".toList)).bind
        (typePort demoMasks demoConsts (fun _ => 0) 0 "30".toList)).map
          (fun w => (portTexts w, w.calls)) =
      some (["0030".toList, "0020".toList],
        [Call.debug_port_read_byte 0,
         Call.debug_pmonitor_remove 0,
         Call.debug_pmonitor_set 0x10 demoConsts.DBG_NO_HANDLE true,
         Call.debug_port_read_byte 0x10,
         Call.debug_port_read_byte 0,
         Call.debug_pmonitor_remove 0,
         Call.debug_pmonitor_set 0x20 demoConsts.DBG_NO_HANDLE true,
         Call.debug_port_read_byte 0x20,
         Call.debug_pmonitor_remove 0,
         Call.debug_pmonitor_set 0x30 demoConsts.DBG_NO_HANDLE true,
         Call.debug_port_read_byte 0x30]) := by
  refine ⟨⟨by decide, by decide⟩, ⟨by decide, by decide⟩, ⟨by decide, by decide⟩, by decide,
    by decide, by decide⟩

/-! ## The bits of `lcd.control` a commit can change -/

theorem bppOfText_le (text : QString) : bppOfText text ≤ 7 := by
  unfold bppOfText
  simp only
  split_ifs <;> omega

theorem testBit_small (x i j : Nat) (hx : x < 2 ^ j) (hi : j ≤ i) : x.testBit i = false :=
  Nat.testBit_lt_two_pow (lt_of_lt_of_le hx (Nat.pow_le_pow_right (by norm_num) hi))

theorem setOrClear_testBit (checked : Bool) (x j i : Nat) (h : i ≠ j) :
    (setOrClear checked x (2 ^ j)).testBit i = x.testBit i := by
  have h2 : (2 ^ j).testBit i = false := by
    rw [Nat.testBit_two_pow]
    simp [Ne.symm h]
  unfold setOrClear clearBits
  cases checked
  · simp [Nat.testBit_xor, Nat.testBit_and, h2]
  · simp [Nat.testBit_or, h2]

/-- The stores of `updateDebuggerChanges` change no bit of `lcd.control` other
than the bits 1 to 3 and 8 to 11. -/
theorem updateDebuggerChanges_stores_control (ui : DebugView) (c c1 : Core) (cs : List Call)
    (h : updateDebuggerChanges_stores false ui c = some (c1, cs)) (i : Nat)
    (hi : i = 0 ∨ (4 ≤ i ∧ i ≤ 7) ∨ 12 ≤ i) :
    c1.lcd.control.testBit i = c.lcd.control.testBit i := by
  unfold updateDebuggerChanges_stores at h
  simp only [Bool.false_eq_true, if_false] at h
  split at h
  · simp at h
  · simp only [Option.some.injEq, Prod.mk.injEq] at h
    obtain ⟨hc, -⟩ := h
    rw [← hc]
    simp only
    have e11 : (0x800 : Nat) = 2 ^ 11 := by norm_num
    have e10 : (0x400 : Nat) = 2 ^ 10 := by norm_num
    have e9 : (0x200 : Nat) = 2 ^ 9 := by norm_num
    have e8 : (0x100 : Nat) = 2 ^ 8 := by norm_num
    rw [e11, e10, e9, e8, setOrClear_testBit _ _ 8 i (by omega),
      setOrClear_testBit _ _ 9 i (by omega), setOrClear_testBit _ _ 10 i (by omega),
      setOrClear_testBit _ _ 11 i (by omega)]
    have hb := bppOfText_le ui.bppView
    have h14 : (14 : Nat).testBit i = false := by
      rcases hi with h0 | h4 | h12
      · rw [h0]
        decide
      · exact testBit_small 14 i 4 (by norm_num) h4.1
      · exact testBit_small 14 i 4 (by norm_num) (by omega)
    have hbpp : (bppOfText ui.bppView <<< 1).testBit i = false := by
      rcases hi with h0 | h4 | h12
      · rw [h0]
        simp [Nat.shiftLeft_eq]
      · refine testBit_small _ i 4 ?_ h4.1
        rw [Nat.shiftLeft_eq]
        omega
      · refine testBit_small _ i 4 ?_ (by omega)
        rw [Nat.shiftLeft_eq]
        omega
    simp [clearBits, Nat.testBit_or, Nat.testBit_xor, Nat.testBit_and, h14, hbpp]

/-! ## A pressed edit with a key in range -/

/-- Where C26 holds for the breakpoint table: the address cell of a row with the
key `a` is pressed and its text replaced by the six-digit text of another
24-bit address `b` that no other row carries.  Then `debug_breakpoint_remove(a)`
and `debug_breakpoint_set(b, flags of the row, true)` are called, the row shows
`b` and no other row changes. -/
theorem editBreakpoint_moves (D : DebugConsts) (w : MainWindow) (row a b : Nat) (r : BreakRow)
    (hr : w.breakpointView[row]? = some r) (ha : a < 16777216)
    (hra : r.address = int2hex a 6) (hb : b < 16777216) (hne : int2hex a 6 ≠ int2hex b 6)
    (hfree : ∀ (k : Nat) (x : BreakRow), w.breakpointView[k]? = some x → k ≠ row →
      x.address ≠ int2hex b 6) :
    ∃ w1, editBreakpoint D row (int2hex b 6) w = some w1 ∧
      callsSince w w1 = [Call.debug_breakpoint_remove a,
        Call.debug_breakpoint_set b (r.value D) true, Call.updateDisasmView b true] ∧
      w1.breakpointView[row]? = some { r with address := int2hex b 6 } ∧
      ∀ k, k ≠ row → w1.breakpointView[k]? = w.breakpointView[k]? := by
  obtain ⟨-, -, hempa, hvala, h32a, -⟩ := int2hex6_facts a ha
  obtain ⟨hupb, hfindb, hempb, hvalb, h32b, -⟩ := int2hex6_facts b hb
  have hnil : int2hex b 6 ≠ [] := by
    intro h
    rw [h] at hempb
    simp at hempb
  have hacc := changeBreakpointAddress_accept D
    (setBreakText { w with prevBreakpointAddress := a } row (int2hex b 6)) row
    { r with address := int2hex b 6 } (Int.ofNat b)
    (by simp [setBreakText, List.getElem?_modify_eq, hr])
    (by simpa [hupb] using hfindb) (by simpa [hupb] using hnil)
    (by simpa [hupb] using hvalb)
    (by
      intro k x hk hkr
      rw [h32b]
      have hk2 : w.breakpointView[k]? = some x := by
        simpa [setBreakText, List.getElem?_modify_ne _ _ (Ne.symm hkr)] using hk
      exact hfree k x hk2 hkr)
  obtain ⟨w1, h1, hcalls, hrow, hothers⟩ := hacc
  rw [h32b] at hcalls hrow
  refine ⟨w1, ?_, ?_, ?_, ?_⟩
  · unfold editBreakpoint setPreviousBreakpointAddress
    simp only [hr, BreakRow.text, if_true, hra, hempa, Bool.false_eq_true, if_false, hvala,
      h32a, hne]
    exact h1
  · simpa [callsSince, setBreakText, BreakRow.value] using hcalls
  · simpa using hrow
  · intro k hk
    rw [hothers k hk]
    simp [setBreakText, List.getElem?_modify_ne _ _ (Ne.symm hk)]

/-- Where C26 holds for the port table: the port cell of a row with the key `a`
is pressed and its text replaced by the four-digit text of another port id `b`
that no other row carries.  Then `debug_pmonitor_remove(a)` and
`debug_pmonitor_set(b, flags of the row, true)` are called, the row shows `b`
and no other row changes. -/
theorem editPort_moves (K : DebugMasks) (D : DebugConsts) (portRead : Nat → Nat)
    (w : MainWindow) (row a b : Nat) (r : PortRow)
    (hr : w.portView[row]? = some r) (ha : a < 65536)
    (hra : r.port = int2hex a 4) (hb : b < 65536) (hne : int2hex a 4 ≠ int2hex b 4)
    (hfree : ∀ (k : Nat) (x : PortRow), w.portView[k]? = some x → k ≠ row →
      x.port ≠ int2hex b 4) :
    ∃ w1, editPort K D portRead row (int2hex b 4) w = some w1 ∧
      callsSince w w1 = [Call.debug_pmonitor_remove a,
        Call.debug_pmonitor_set b (r.value K D) true, Call.debug_port_read_byte b] ∧
      w1.portView[row]? = some { r with port := int2hex b 4,
                                        data := int2hex (portRead b) 2 } ∧
      ∀ k, k ≠ row → w1.portView[k]? = w.portView[k]? := by
  obtain ⟨-, -, hempa⟩ := int2hex_valid a ha
  have hvala := hex2int_int2hex a ha
  have h16a := toUInt16_ofNat a ha
  obtain ⟨hupb, hfindb, hempb⟩ := int2hex_valid b hb
  have hvalb := hex2int_int2hex b hb
  have h16b := toUInt16_ofNat b hb
  have hnil : int2hex b 4 ≠ [] := by
    intro h
    rw [h] at hempb
    simp at hempb
  have hacc := changePortValues_accept K D portRead
    (setPortText { w with prevPortAddress := a } row (int2hex b 4)) row
    { r with port := int2hex b 4 } (Int.ofNat b)
    (by simp [setPortText, List.getElem?_modify_eq, hr])
    (by simpa [hupb] using hfindb) (by simpa [hupb] using hnil)
    (by simpa [hupb] using hvalb)
    (by
      intro k x hk hkr
      rw [h16b]
      have hk2 : w.portView[k]? = some x := by
        simpa [setPortText, List.getElem?_modify_ne _ _ (Ne.symm hkr)] using hk
      exact hfree k x hk2 hkr)
  obtain ⟨w1, h1, hcalls, hrow, hothers⟩ := hacc
  rw [h16b] at hcalls hrow
  refine ⟨w1, ?_, ?_, ?_, ?_⟩
  · unfold editPort setPreviousPortValues
    simp only [hr, PortRow.text, if_true, hra, hempa, Bool.false_eq_true, if_false, hvala,
      h16a, hne]
    exact h1
  · simpa [callsSince, setPortText, PortRow.value] using hcalls
  · simpa using hrow
  · intro k hk
    rw [hothers k hk]
    simp [setPortText, List.getElem?_modify_ne _ _ (Ne.symm hk)]

/-! ## The second run of the column 1 branch -/

/-- In the run of the column 1 branch that its own `setText` causes, the cell
already holds the text of the value read, so the text put is the same: the
table is left as it is and no further `itemChanged` is emitted. -/
theorem changePortValues_data_nested_settles (portRead : Nat → Nat) (w : MainWindow)
    (row : Nat) (r : PortRow) (v : Int) (hr : w.portView[row]? = some r)
    (hv : hex2int r.port = some v) (hdata : r.data = int2hex (portRead (toUInt16 v)) 2) :
    (changePortValues_data_nested portRead w row).map MainWindow.portView =
      some w.portView := by
  obtain ⟨d, hd⟩ := hex2int_int2hex2 (portRead (toUInt16 v))
  rw [← hdata] at hd
  rw [changePortValues_data_nested_ok portRead w row r d v hr hd hv]
  simp only [Option.map_some', Option.some.injEq]
  apply List.ext_getElem?
  intro k
  by_cases hk : k = row
  · rw [hk, List.getElem?_modify_eq, hr, ← hdata]
    rfl
  · rw [List.getElem?_modify_ne _ _ (Ne.symm hk)]

end CEmu
